import Mathlib

/-!
# srdp: file ledger and lineage tracker

A shallow embedding of `src/files.cpp` (class `File`, class `FileTree`) and of the methods
of `src/project.cpp` and `src/experiment.cpp` that create, load and update their records,
together with the part of the SQLite schema and of `src/sql.cpp` that these methods rely on.

* The database is a record of four tables, each a list of rows in rowid order.
* Every SQL statement that `File` sends is a function on that record. A statement that
  violates a constraint of the schema leaves the tables as they were and raises
  (`Sql::finalize` throws when the last step failed).
* A method of `File` takes the database and the handle and returns an `Outcome`: what the
  call returned or threw, the handle after the call and the database after the call.
-/

set_option autoImplicit false

namespace srdp

/-! ## Basic types -/

/-- The type `uuids::uuid`: sixteen bytes read as one number; the nil uuid is `0`. -/
abbrev uuid := Nat

/-- The test `uuid.is_nil()`. -/
def is_nil (u : uuid) : Bool := u == 0

/-- The generator `uuids::random_generator()()` of Boost.Uuid as a function of the sixteen
random bytes it draws, read as one number with byte 0 first. After the draw it sets the
variant in byte 8 (`&= 0xBF`, `|= 0x80`) and the version in byte 6 (`&= 0x4F`,
`|= 0x40`): the result is a version 4 uuid. -/
def random_generator (bits : Nat) : uuid :=
  ((bits % 2 ^ 128) &&& (2 ^ 128 - 1 - ((0xB0 <<< 72) ||| (0x40 <<< 56)))) |||
    ((0x40 <<< 72) ||| (0x80 <<< 56))

/-- The type `scas::Hash::hash_t`: the 32 byte digest (column `BLOB(32)`), read as one
number. `hash.fill(0)` is the number `0`. -/
abbrev hash_t := Nat

/-- The call `hash.empty()` of `File::create`. The digest is a fixed-size array of
32 bytes (`blob_to_bin<hash_t>` default-constructs one and requires its `size()` to equal
the 32 bytes of the blob, and the constructors call `hash.fill(0)`), and `empty()` of a
fixed-size array of positive length is false. -/
def hash_empty (_h : hash_t) : Bool := false

/-- The type `ctime_t` (`int64_t`). -/
abbrev ctime_t := Int

/-- The enumeration `File::role_t`. -/
inductive role_t
  | none
  | input
  | output
  | note
  | program
  | nixpath
  deriving DecidableEq, Repr

/-- The conversion `int(role)`: the enumerator values of `role_t`. -/
def role_t.toInt : role_t → Int
  | .none => 0
  | .input => 1
  | .output => 2
  | .note => 3
  | .program => 4
  | .nixpath => 5

/-- The exceptions thrown by `File` and by the SQL layer under it. -/
inductive Error
  /-- Thrown as `runtime_error("File hash is not set")`. -/
  | hash_not_set
  /-- Thrown as `runtime_error("File not attached to experiment")`. -/
  | not_attached
  /-- Thrown as `runtime_error("Invalid file size")`. -/
  | invalid_size
  /-- Thrown as `runtime_error("File's role is not set")`. -/
  | role_not_set
  /-- Thrown as `invalid_argument("File is already mapped to experiment")`: Conflict. -/
  | already_mapped
  /-- Thrown as `invalid_argument("File is in use by other experiment")`:
  IntegrityViolation. -/
  | in_use
  /-- Thrown as `runtime_error("File not found in DB")`: NotFound. -/
  | not_found
  /-- Thrown as `invalid_argument("UUID is nil. Can not convert to blob.")` by
  `bin_to_blob<uuids::uuid>`. -/
  | uuid_is_nil
  /-- Thrown as `runtime_error("sqlite3_finalize failed")`: the statement was rejected by a
  constraint of the schema. -/
  | sqlite_failed
  /-- Thrown as `runtime_error("Project not found in database")`: NotFound. -/
  | project_not_found
  /-- Thrown as `invalid_argument("Project UUID is not set")`. -/
  | project_uuid_not_set
  /-- Thrown as `runtime_error("Experiment not attached to a project.")`. -/
  | experiment_not_attached
  /-- The source dereferences an empty `std::optional` (a text column of zero bytes read
  with `std::get<std::string>(*row[i])`); the behaviour is undefined and is taken as a
  failure. -/
  | empty_optional
  /-- Thrown as `runtime_error("Experiment not found by name in DB.")`: NotFound. -/
  | experiment_not_found
  /-- Thrown as `runtime_error("Invalid project UUID")` by `get_journal()`. -/
  | invalid_project_uuid
  /-- Thrown as `runtime_error("Invalid role")` by `File::string_to_role`. -/
  | invalid_role
  /-- The source dereferences the end iterator of a `std::map` (`it->second` after a `find`
  that found nothing); the behaviour is undefined and is taken as a failure. -/
  | end_iterator
  deriving DecidableEq, Repr

/-- The method `File::role_to_string`: a lookup in its `role_map`, which has no entry for
`nixpath`; the result of `find` is dereferenced without a test. -/
def File.role_to_string (role : role_t) : Except Error String :=
  match [(role_t.none, "none"), (role_t.input, "input"), (role_t.output, "output"),
         (role_t.program, "program"), (role_t.note, "note")].lookup role with
  | some name => .ok name
  | none => .error .end_iterator

/-- The method `File::string_to_role`: a lookup in its `role_map`, "Invalid role" when the
string is no key. -/
def File.string_to_role (role : String) : Except Error role_t :=
  match [("none", role_t.none), ("input", role_t.input), ("output", role_t.output),
         ("program", role_t.program), ("note", role_t.note), ("i", role_t.input),
         ("o", role_t.output), ("p", role_t.program), ("n", role_t.note)].lookup role with
  | some r => .ok r
  | none => .error .invalid_role

/-! ## The database -/

/-- A row of table `projects`. -/
structure ProjectRow where
  uuid : srdp.uuid
  name : String
  metadata : Option String
  owner : Option String
  ctime : Option Int
  journal : Option String
  deriving DecidableEq, Repr

/-- A row of table `experiments`. -/
structure ExperimentRow where
  uuid : srdp.uuid
  project : srdp.uuid
  name : String
  metadata : Option String
  owner : Option String
  ctime : Option Int
  journal : Option String
  locked : Option Bool
  deriving DecidableEq, Repr

/-- A row of table `files`: one content record. -/
structure FileRow where
  hash : hash_t
  size : Int
  name : Option String
  creator : Option srdp.uuid
  owner : Option String
  ctime : Option Int
  metadata : Option String
  final : Option Bool
  deriving DecidableEq, Repr

/-- A row of table `file_map`: one mapping of a content record into an experiment. -/
structure MapRow where
  uuid : srdp.uuid
  hash : hash_t
  role : role_t
  path : Option String
  deriving DecidableEq, Repr

/-- The database: its tables, each in rowid order. -/
structure Store where
  projects : List ProjectRow
  experiments : List ExperimentRow
  files : List FileRow
  file_map : List MapRow
  deriving DecidableEq, Repr

/-- The table `file_roles` as seeded by `File::create_table`. -/
def file_roles : List (Int × String) :=
  [(1, "input"), (2, "output"), (3, "note"), (4, "program"), (5, "nixpath")]

/-- The join `file_map JOIN file_roles ON file_map.role = file_roles.id` restricted by
`file_roles.role = name`: whether the mapping row joins a role row of that name
(`id` is the primary key of `file_roles`, so a mapping row joins at most one). -/
def joins_role (m : MapRow) (name : String) : Bool :=
  file_roles.lookup m.role.toInt == some name

/-- The check `CHECK (role > 0 and role <= 4)` of table `file_map`. -/
def role_check (r : role_t) : Bool := decide (0 < r.toInt) && decide (r.toInt ≤ 4)

/-- The statement `INSERT INTO files (hash, size, name, creator, owner, ctime, metadata)`.
Rejected when the primary key `hash` is taken, when `size >= 0` fails, or when `creator`
is not null and references no experiment. Column `final` takes its default. -/
def insert_files (s : Store) (hash : hash_t) (size : Int) (name : Option String)
    (creator : Option uuid) (owner : Option String) (ctime : Option Int)
    (metadata : Option String) : Except Error Store :=
  if s.files.any (fun c => c.hash == hash) then .error .sqlite_failed
  else if size < 0 then .error .sqlite_failed
  else if !(match creator with
            | some u => s.experiments.any (fun e => e.uuid == u)
            | none => true) then .error .sqlite_failed
  else .ok { s with files := s.files ++
    [{ hash := hash, size := size, name := name, creator := creator, owner := owner,
       ctime := ctime, metadata := metadata, final := some false }] }

/-- The statement `INSERT INTO file_map (hash, uuid, path, role)`. Rejected when the role
fails its check, when the pair `(uuid, hash)` is taken, when `uuid` references no
experiment or when `hash` references no content record. -/
def insert_file_map (s : Store) (hash : hash_t) (u : uuid) (path : Option String)
    (role : role_t) : Except Error Store :=
  if !(role_check role) then .error .sqlite_failed
  else if s.file_map.any (fun m => m.uuid == u && m.hash == hash) then .error .sqlite_failed
  else if !(s.experiments.any (fun e => e.uuid == u)) then .error .sqlite_failed
  else if !(s.files.any (fun c => c.hash == hash)) then .error .sqlite_failed
  else .ok { s with file_map := s.file_map ++
    [{ uuid := u, hash := hash, role := role, path := path }] }

/-- The statement `DELETE FROM file_map WHERE hash = ? AND uuid = ?`. No table references
`file_map`, so it is never rejected. -/
def delete_file_map (s : Store) (hash : hash_t) (u : uuid) : Store :=
  { s with file_map := s.file_map.filter (fun m => !(m.hash == hash && m.uuid == u)) }

/-- The statement `UPDATE file_map SET role = ? WHERE hash = ? AND uuid = ?`. Rejected when
a row is updated and the new role fails the check of the column. -/
def update_file_map_role (s : Store) (role : role_t) (hash : hash_t) (u : uuid) :
    Except Error Store :=
  if s.file_map.any (fun m => m.hash == hash && m.uuid == u) && !(role_check role) then
    .error .sqlite_failed
  else .ok { s with file_map := s.file_map.map (fun m =>
    if m.hash == hash && m.uuid == u then { m with role := role } else m) }

/-- The statement `UPDATE files SET name = ?, owner = ?, metadata = ? WHERE hash = ?`. -/
def update_files (s : Store) (name owner metadata : Option String) (hash : hash_t) : Store :=
  { s with files := s.files.map (fun c =>
    if c.hash == hash then { c with name := name, owner := owner, metadata := metadata }
    else c) }

/-- The statement `INSERT INTO projects (name, uuid) VALUES(?, ?)`. Rejected when the
primary key `uuid` is taken. Column `name` carries no uniqueness constraint
(`idx_project_name` is a plain index). -/
def insert_projects (s : Store) (name : String) (u : uuid) : Except Error Store :=
  if s.projects.any (fun p => p.uuid == u) then .error .sqlite_failed
  else .ok { s with projects := s.projects ++
    [{ uuid := u, name := name, metadata := none, owner := none, ctime := none,
       journal := none }] }

/-- The statement `UPDATE projects SET name = ?, metadata = ?, owner = ?, ctime = ? WHERE
uuid = ?`. -/
def update_projects (s : Store) (name : String) (metadata owner : Option String)
    (ctime : Option Int) (u : uuid) : Store :=
  { s with projects := s.projects.map (fun p =>
    if p.uuid == u then
      { p with name := name, metadata := metadata, owner := owner, ctime := ctime }
    else p) }

/-- The statement `INSERT INTO experiments (name, uuid, project) VALUES(?, ?, ?)`. Rejected
when the primary key `uuid` is taken, when `project` references no project, or when the
pair `(project, name)` is taken. Column `locked` takes its default. -/
def insert_experiments (s : Store) (name : String) (u project : uuid) : Except Error Store :=
  if s.experiments.any (fun e => e.uuid == u) then .error .sqlite_failed
  else if !(s.projects.any (fun p => p.uuid == project)) then .error .sqlite_failed
  else if s.experiments.any (fun e => e.project == project && e.name == name) then
    .error .sqlite_failed
  else .ok { s with experiments := s.experiments ++
    [{ uuid := u, project := project, name := name, metadata := none, owner := none,
       ctime := none, journal := none, locked := some false }] }

/-- The statement `DELETE FROM projects WHERE uuid = ?`. Rejected when a row is deleted
that a row of `experiments` references (`project ... REFERENCES projects(uuid)`). -/
def delete_projects (s : Store) (u : uuid) : Except Error Store :=
  if s.projects.any (fun p => p.uuid == u) && s.experiments.any (fun e => e.project == u) then
    .error .sqlite_failed
  else .ok { s with projects := s.projects.filter (fun p => !(p.uuid == u)) }

/-- The statement `DELETE FROM experiments WHERE uuid = ?`. Rejected when a row is deleted
that a row of `file_map` references (`uuid ... REFERENCES experiments(uuid)`) or that a row
of `files` references (`creator ... REFERENCES experiments(uuid)`). -/
def delete_experiments (s : Store) (u : uuid) : Except Error Store :=
  if s.experiments.any (fun e => e.uuid == u) &&
      (s.file_map.any (fun m => m.uuid == u) || s.files.any (fun c => c.creator == some u)) then
    .error .sqlite_failed
  else .ok { s with experiments := s.experiments.filter (fun e => !(e.uuid == u)) }

/-- The SQL function `concat(X, Y)` of SQLite: the concatenation of the arguments that are
not NULL. -/
def sql_concat (journal : Option String) (text : String) : String :=
  journal.getD "" ++ text

/-- The statement `UPDATE projects SET journal = ? WHERE uuid = ?`. -/
def update_projects_journal (s : Store) (text : String) (u : uuid) : Store :=
  { s with projects := s.projects.map (fun p =>
    if p.uuid == u then { p with journal := some text } else p) }

/-- The statement `UPDATE projects SET journal = concat(journal, ?) WHERE uuid = ?`. -/
def append_projects_journal (s : Store) (text : String) (u : uuid) : Store :=
  { s with projects := s.projects.map (fun p =>
    if p.uuid == u then { p with journal := some (sql_concat p.journal text) } else p) }

/-- The statement `UPDATE experiments SET journal = ? WHERE uuid = ?`. -/
def update_experiments_journal (s : Store) (text : String) (u : uuid) : Store :=
  { s with experiments := s.experiments.map (fun e =>
    if e.uuid == u then { e with journal := some text } else e) }

/-- The statement `UPDATE experiments SET journal = concat(journal, ?) WHERE uuid = ?`. -/
def append_experiments_journal (s : Store) (text : String) (u : uuid) : Store :=
  { s with experiments := s.experiments.map (fun e =>
    if e.uuid == u then { e with journal := some (sql_concat e.journal text) } else e) }

/-- The decoder `Sql::get_column_str`: a column of zero bytes (NULL or the empty text) is
returned as absent. -/
def get_column_str (v : Option String) : Option String :=
  match v with
  | some t => if t = "" then none else some t
  | none => none

/-- The conversion `int64_t(size)` of a `size_t`. -/
def to_int64 (n : Nat) : Int :=
  if n % 2 ^ 64 < 2 ^ 63 then ((n % 2 ^ 64 : Nat) : Int) else ((n % 2 ^ 64 : Nat) : Int) - 2 ^ 64

/-- The conversion of an `int64_t` to `size_t` in `size = std::get<int64_t>(...)`. -/
def to_size (v : Int) : Nat := (v % 2 ^ 64).toNat

/-! ## File handles -/

/-- The data members of class `File` (the database pointer apart). -/
structure File where
  experiment : srdp.uuid
  hash : hash_t
  size : Nat
  ctime : Option ctime_t
  original_name : Option String
  path : Option String
  creator_uuid : Option srdp.uuid
  owner : Option String
  metadata : Option String
  role : Option role_t
  deriving DecidableEq, Repr

deriving instance DecidableEq for Except

/-- What a call of a method left behind: the value returned or the exception thrown, the
handle after the call and the database after the call. -/
structure Outcome (α : Type) where
  result : Except Error α
  file : File
  db : Store

/-- The constructors `File(db, experiment)`: an empty handle bound to an experiment. -/
def File.empty (exp : uuid) : File :=
  { experiment := exp, hash := 0, size := 0, ctime := none, original_name := none,
    path := none, creator_uuid := none, owner := none, metadata := none, role := none }

/-- The method `File::exists`: `SELECT count(*) FROM files WHERE hash = ?` is positive. -/
def File.exists (s : Store) (hash_exists : hash_t) : Bool :=
  decide (0 < s.files.countP (fun c => c.hash == hash_exists))

/-- The method `File::is_mapped`: `SELECT count(*) FROM file_map WHERE hash = ? AND
uuid = ?` is positive. Binding the experiment throws when it is nil. -/
def File.is_mapped (s : Store) (f : File) (hash_exists : hash_t) : Except Error Bool :=
  if is_nil f.experiment then .error .uuid_is_nil
  else .ok (decide (0 < s.file_map.countP
    (fun m => m.hash == hash_exists && m.uuid == f.experiment)))

/-- The rows of `file_map JOIN files ON file_map.hash = files.hash WHERE file_map.hash = ?
AND file_map.uuid = ?`. -/
def load_rows (s : Store) (sel_hash : hash_t) (exp : uuid) : List (MapRow × FileRow) :=
  (s.file_map.filter (fun m => m.hash == sel_hash && m.uuid == exp)).flatMap
    (fun m => (s.files.filter (fun c => m.hash == c.hash)).map (fun c => (m, c)))

/-- The method `File::load(hash)`: fills the handle from the first row of the join, throws
when there is none. Returns the handle after the call. -/
def File.load (s : Store) (f : File) (sel_hash : hash_t) : Except Error File :=
  if is_nil f.experiment then .error .uuid_is_nil
  else match (load_rows s sel_hash f.experiment).head? with
    | some (m, c) => .ok
        { f with
          hash := sel_hash
          size := to_size c.size
          original_name := get_column_str c.name
          creator_uuid := c.creator
          owner := get_column_str c.owner
          ctime := c.ctime
          metadata := get_column_str c.metadata
          path := get_column_str m.path
          role := some m.role }
    | none => .error .not_found

/-- The scalar subquery of `File::output_is_used`: `SELECT hash FROM file_map JOIN
file_roles ... WHERE uuid = ? AND file_roles.role = 'output'`, its first row or NULL. -/
def output_hash (s : Store) (exp : uuid) : Option hash_t :=
  ((s.file_map.filter (fun m => m.uuid == exp && joins_role m "output")).map
    (fun m => m.hash)).head?

/-- The method `File::output_is_used`: the count of mapping rows of role `input` whose hash
equals the scalar subquery is positive. A comparison with NULL holds for no row. The
argument `sel_hash` is not used by the query. -/
def File.output_is_used (s : Store) (f : File) (_sel_hash : hash_t) : Except Error Bool :=
  if is_nil f.experiment then .error .uuid_is_nil
  else .ok (decide (0 < s.file_map.countP (fun m =>
    joins_role m "input" &&
      (match output_hash s f.experiment with
       | some h => m.hash == h
       | none => false))))

/-- The assignments at the end of `File::unmap`. The member `path` is not assigned. -/
def File.cleared (f : File) : File :=
  { f with
    hash := 0
    size := 0
    ctime := none
    original_name := none
    creator_uuid := none
    owner := none
    metadata := none
    role := none }

/-- The method `File::unmap`. -/
def File.unmap (s : Store) (f : File) : Outcome Unit :=
  match File.output_is_used s f f.hash with
  | .error e => ⟨.error e, f, s⟩
  | .ok true => ⟨.error .in_use, f, s⟩
  | .ok false => ⟨.ok (), f.cleared, delete_file_map s f.hash f.experiment⟩

/-- The method `File::change_role`. -/
def File.change_role (s : Store) (f : File) (set_role : role_t) : Outcome Unit :=
  let guard : Except Error Bool :=
    if f.role = some role_t.output then File.output_is_used s f f.hash else .ok false
  match guard with
  | .error e => ⟨.error e, f, s⟩
  | .ok true => ⟨.error .in_use, f, s⟩
  | .ok false =>
    if is_nil f.experiment then ⟨.error .uuid_is_nil, f, s⟩
    else match update_file_map_role s set_role f.hash f.experiment with
      | .error e => ⟨.error e, f, s⟩
      | .ok s1 => ⟨.ok (), f, s1⟩

/-- The first block of `File::create` ("Insert into file, feedback if exists"): when no
content record has the hash, the handle gets its creator (the experiment for role output,
none otherwise) and a creation time, and the content record is inserted. The value bound to
column `creator` is `bin_to_blob(experiment)`. Returns the handle after the block and the
database after it, or the exception of the statement. -/
def create_content (now : ctime_t) (s : Store) (f : File) (role : role_t) :
    File × Except Error Store :=
  if File.exists s f.hash then (f, .ok s)
  else
    let f1 : File :=
      { f with
        creator_uuid := if role = role_t.output then some f.experiment else none
        ctime := some (f.ctime.getD now) }
    (f1, insert_files s f1.hash (to_int64 f1.size) f1.original_name (some f1.experiment)
      f1.owner f1.ctime f1.metadata)

/-- The second block of `File::create` ("Insert into map, fail if exists"). -/
def create_mapping (s1 : Store) (f1 : File) (role : role_t) (file_is_new : Bool) :
    Outcome Bool :=
  match File.is_mapped s1 f1 f1.hash with
  | .error e => ⟨.error e, f1, s1⟩
  | .ok true => ⟨.error .already_mapped, f1, s1⟩
  | .ok false =>
    match insert_file_map s1 f1.hash f1.experiment f1.path role with
    | .error e => ⟨.error e, f1, s1⟩
    | .ok s2 => ⟨.ok file_is_new, f1, s2⟩

/-- The method `File::create`; `now` is what `get_timestamp_now()` returns. -/
def File.create (now : ctime_t) (s : Store) (f : File) : Outcome Bool :=
  if hash_empty f.hash then ⟨.error .hash_not_set, f, s⟩
  else if is_nil f.experiment then ⟨.error .not_attached, f, s⟩
  else if f.size = 0 then ⟨.error .invalid_size, f, s⟩
  else match f.role with
    | none => ⟨.error .role_not_set, f, s⟩
    | some role =>
      match create_content now s f role with
      | (f1, .error e) => ⟨.error e, f1, s⟩
      | (f1, .ok s1) => create_mapping s1 f1 role (!(File.exists s f.hash))

/-- The loop that fills a vector from a list, where the body may throw: the first exception
ends the loop. -/
def collect {α β : Type} (body : α → Except Error β) : List α → Except Error (List β)
  | [] => .ok []
  | a :: rest =>
    match body a with
    | .error e => .error e
    | .ok b =>
      match collect body rest with
      | .error e => .error e
      | .ok bs => .ok (b :: bs)

/-- The clause `ORDER BY role`: rows by ascending role id, rows of one role in rowid
order. -/
def order_by_role (rows : List MapRow) : List MapRow :=
  rows.insertionSort (fun a b => a.role.toInt ≤ b.role.toInt)

/-- The constructor `File(db, experiment, hash)`: an empty handle, then `load(hash)`. -/
def File.loaded (s : Store) (exp : uuid) (sel_hash : hash_t) : Except Error File :=
  File.load s (File.empty exp) sel_hash

/-- The method `File::list`: the rows `SELECT hash, path FROM file_map WHERE uuid = ?
[AND role = ?] ORDER BY role` are read first, then one handle is loaded per row and given
the path of the row. Only the experiment of the handle it is called on is used. -/
def File.list (s : Store) (f : File) (role : Option role_t) : Except Error (List File) :=
  if is_nil f.experiment then .error .uuid_is_nil
  else
    let rows := order_by_role (match role with
      | some r => s.file_map.filter (fun m => m.uuid == f.experiment && m.role.toInt == r.toInt)
      | none => s.file_map.filter (fun m => m.uuid == f.experiment))
    let hash_list := rows.map (fun m => (m.hash, get_column_str m.path))
    collect (fun hashi =>
      match File.loaded s f.experiment hashi.1 with
      | .error e => .error e
      | .ok g => .ok { g with path := hashi.2 }) hash_list

/-- The handle that `File(db, experiment, hash)` holds when the first row of the join of
`load()` is the mapping row `m` with the content record `c`: the assignments of
`File::load(hash)`. In `list()` the path assigned afterwards is the path of the same row. -/
def File.of_row (exp : uuid) (m : MapRow) (c : FileRow) : File :=
  { experiment := exp
    hash := m.hash
    size := to_size c.size
    ctime := c.ctime
    original_name := get_column_str c.name
    path := get_column_str m.path
    creator_uuid := c.creator
    owner := get_column_str c.owner
    metadata := get_column_str c.metadata
    role := some m.role }

/-- The class `FileTree`: a node and the trees of its children. -/
inductive FileTree where
  | mk (node : File) (children : List FileTree)

/-- The member `node` of a `FileTree`. -/
def FileTree.node : FileTree → File
  | .mk n _ => n

/-- The member `children` of a `FileTree`. -/
def FileTree.children : FileTree → List FileTree
  | .mk _ cs => cs

/-- The body of `File::track`, with a bound on the number of nested calls. The recursive
calls are `f.track(depth + 1)`: they pass no `max_depth`, so the callee runs with the
default `max_depth = 10` of the declaration. `depth` is an `int`; it is taken as an
unbounded integer (the source increments it at most 11 times from where the caller
starts). -/
def track_fuel (s : Store) : Nat → File → Int → Int → Except Error FileTree
  | 0, node, _, _ => .ok (.mk node [])
  | fuel + 1, node, depth, max_depth =>
    if depth > max_depth then .ok (.mk node [])
    else match node.role with
      | none => .ok (.mk node [])
      | some r =>
        if r = role_t.output then
          match File.list s node (some role_t.input) with
          | .error e => .error e
          | .ok list_inputs =>
            match collect (fun f => track_fuel s fuel f (depth + 1) 10) list_inputs with
            | .error e => .error e
            | .ok cs => .ok (.mk node cs)
        else if r = role_t.input then
          match node.creator_uuid with
          | none => .ok (.mk node [])
          | some c =>
            match File.list s (File.empty c) (some role_t.input) with
            | .error e => .error e
            | .ok file_list =>
              match collect (fun f => track_fuel s fuel f (depth + 1) 10)
                  (file_list.filter (fun f => f.hash != node.hash)) with
              | .error e => .error e
              | .ok cs => .ok (.mk node cs)
        else .ok (.mk node [])

/-- The number of nested calls a call `track(depth, 10)` can make, itself included: the
call at depth 11 returns at once. -/
def track_levels (depth : Int) : Nat := (11 - depth).toNat + 1

/-- The method `File::track(depth, max_depth)`. The call itself and the calls nested in
its children (which run with bound 10 from `depth + 1`) never exhaust the fuel: see
`track_eq`. -/
def File.track (s : Store) (node : File) (depth max_depth : Int) : Except Error FileTree :=
  track_fuel s (track_levels (depth + 1) + 1) node depth max_depth

/-- The height of a tree: 0 for a node without children. -/
def FileTree.height : FileTree → Nat
  | .mk _ cs => heights cs
where
  /-- One more than the largest height in a list of trees, 0 for the empty list. -/
  heights : List FileTree → Nat
    | [] => 0
    | t :: ts => max (t.height + 1) (heights ts)

/-- The method `File::update`: one `UPDATE files` keyed by the hash of the handle. -/
def File.update (s : Store) (f : File) : Outcome Unit :=
  ⟨.ok (), f, update_files s f.original_name f.owner f.metadata f.hash⟩

/-! ## Project and experiment handles -/

/-- The data members of class `Project` (the database pointer apart). -/
structure Project where
  uuid : srdp.uuid
  name : String
  metadata : Option String
  owner : Option String
  ctime : Option ctime_t
  deriving DecidableEq, Repr

/-- What a call of a method of `Project` left behind. -/
structure ProjectOutcome (α : Type) where
  result : Except Error α
  project : Project
  db : Store

/-- The constructor `Project(db)`: the handle as the test "Project Constructors" finds it,
with a nil uuid and nothing else set. -/
def Project.empty : Project :=
  { uuid := 0, name := "", metadata := none, owner := none, ctime := none }

/-- The method `Project::create`; `new_uuid` is what `uuids::random_generator()()`
returns. -/
def Project.create (new_uuid : srdp.uuid) (s : Store) (p : Project) (new_name : String) :
    ProjectOutcome Unit :=
  if is_nil new_uuid then ⟨.error .uuid_is_nil, p, s⟩
  else match insert_projects s new_name new_uuid with
    | .error e => ⟨.error e, p, s⟩
    | .ok s1 =>
      ⟨.ok (), { uuid := new_uuid, name := new_name, metadata := none, owner := none,
                 ctime := none }, s1⟩

/-- The method `Project::load(uuid)`: the first row of `SELECT name, metadata, owner, ctime
FROM projects WHERE uuid = ?`. The name is read with `std::get<std::string>(*row[0])`.
Returns the handle after the call. -/
def Project.load_uuid (s : Store) (p : Project) (uuid_sel : srdp.uuid) : Except Error Project :=
  if is_nil uuid_sel then .error .uuid_is_nil
  else match (s.projects.filter (fun r => r.uuid == uuid_sel)).head? with
    | none => .error .project_not_found
    | some r =>
      match get_column_str (some r.name) with
      | none => .error .empty_optional
      | some name => .ok
        { p with
          uuid := uuid_sel
          name := name
          metadata := get_column_str r.metadata
          owner := get_column_str r.owner
          ctime := r.ctime }

/-- The method `Project::load(name)`: the first row of `SELECT uuid, metadata, owner, ctime
FROM projects WHERE name = ?`. Returns the handle after the call. -/
def Project.load_name (s : Store) (p : Project) (name_sel : String) : Except Error Project :=
  match (s.projects.filter (fun r => r.name == name_sel)).head? with
  | none => .error .project_not_found
  | some r => .ok
    { p with
      name := name_sel
      uuid := r.uuid
      metadata := get_column_str r.metadata
      owner := get_column_str r.owner
      ctime := r.ctime }

/-- The method `Project::update`. -/
def Project.update (s : Store) (p : Project) : ProjectOutcome Unit :=
  if is_nil p.uuid then ⟨.error .project_uuid_not_set, p, s⟩
  else ⟨.ok (), p, update_projects s p.name p.metadata p.owner p.ctime p.uuid⟩

/-- The method `Project::remove`; `new_uuid` is what `uuids::random_generator()()`
returns. -/
def Project.remove (new_uuid : srdp.uuid) (s : Store) (p : Project) : ProjectOutcome Unit :=
  if is_nil p.uuid then ⟨.error .uuid_is_nil, p, s⟩
  else match delete_projects s p.uuid with
    | .error e => ⟨.error e, p, s⟩
    | .ok s1 =>
      ⟨.ok (), { uuid := new_uuid, name := "", metadata := none, owner := none,
                 ctime := none }, s1⟩

/-- The method `Project::get_journal`: the first row of `SELECT journal FROM projects WHERE
uuid = ?`, an absent column read as the empty string. -/
def Project.get_journal (s : Store) (p : Project) : Except Error String :=
  if is_nil p.uuid then .error .uuid_is_nil
  else match (s.projects.filter (fun r => r.uuid == p.uuid)).head? with
    | none => .error .invalid_project_uuid
    | some r =>
      match get_column_str r.journal with
      | some text => .ok text
      | none => .ok ""

/-- The method `Project::set_journal`. -/
def Project.set_journal (s : Store) (p : Project) (text : String) : ProjectOutcome Unit :=
  if is_nil p.uuid then ⟨.error .uuid_is_nil, p, s⟩
  else ⟨.ok (), p, update_projects_journal s text p.uuid⟩

/-- The method `Project::append_journal`. -/
def Project.append_journal (s : Store) (p : Project) (text : String) : ProjectOutcome Unit :=
  if is_nil p.uuid then ⟨.error .uuid_is_nil, p, s⟩
  else ⟨.ok (), p, append_projects_journal s text p.uuid⟩

/-- The data members of class `Experiment` (the database pointer apart). -/
structure Experiment where
  project : srdp.uuid
  uuid : srdp.uuid
  name : String
  metadata : Option String
  owner : Option String
  ctime : Option ctime_t
  locked : Bool
  deriving DecidableEq, Repr

/-- What a call of a method of `Experiment` left behind. -/
structure ExperimentOutcome (α : Type) where
  result : Except Error α
  experiment : Experiment
  db : Store

/-- The data of an empty handle bound to a project, as the test "Experiment Constructors"
finds it after `Experiment(db, project)`. -/
def Experiment.empty (project : srdp.uuid) : Experiment :=
  { project := project, uuid := 0, name := "", metadata := none, owner := none,
    ctime := none, locked := false }

/-- The method `Experiment::create`; `new_uuid` is what `uuids::random_generator()()`
returns. -/
def Experiment.create (new_uuid : srdp.uuid) (s : Store) (e : Experiment) (new_name : String) :
    ExperimentOutcome Unit :=
  if is_nil e.project then ⟨.error .experiment_not_attached, e, s⟩
  else if is_nil new_uuid then ⟨.error .uuid_is_nil, e, s⟩
  else match insert_experiments s new_name new_uuid e.project with
    | .error err => ⟨.error err, e, s⟩
    | .ok s1 =>
      ⟨.ok (), { e with uuid := new_uuid, name := new_name, metadata := none, owner := none,
                        ctime := none, locked := false }, s1⟩

/-- The decoder `std::get<bool>(*row[i])` of column `locked`; a NULL column leaves the
optional empty. -/
def get_locked (v : Option Bool) : Except Error Bool :=
  match v with
  | some b => .ok b
  | none => .error .empty_optional

/-- The method `Experiment::load(uuid)`: the first row of `SELECT project, name, metadata,
owner, ctime, locked FROM experiments WHERE uuid = ?`. The project of the handle is not
tested and is overwritten. The name is read with `std::get<std::string>(*row[1])`. Returns
the handle after the call. -/
def Experiment.load_uuid (s : Store) (e : Experiment) (sel_uuid : srdp.uuid) :
    Except Error Experiment :=
  if is_nil sel_uuid then .error .uuid_is_nil
  else match (s.experiments.filter (fun r => r.uuid == sel_uuid)).head? with
    | none => .error .experiment_not_found
    | some r =>
      match get_column_str (some r.name) with
      | none => .error .empty_optional
      | some name =>
        match get_locked r.locked with
        | .error err => .error err
        | .ok locked => .ok
          { e with
            uuid := sel_uuid
            project := r.project
            name := name
            metadata := get_column_str r.metadata
            owner := get_column_str r.owner
            ctime := r.ctime
            locked := locked }

/-- The method `Experiment::load(name)`. The statement `SELECT uuid, metadata, owner, ctime,
locked FROM experiments WHERE project = ? AND name = ?` is bound to the member `name` of the
handle, not to the argument, and the list of result types starts with
`bin_to_blob(uuid)` of the handle, which throws when that uuid is nil. Returns the handle
after the call. -/
def Experiment.load_name (s : Store) (e : Experiment) (sel_name : String) :
    Except Error Experiment :=
  if is_nil e.project then .error .experiment_not_attached
  else if is_nil e.uuid then .error .uuid_is_nil
  else match (s.experiments.filter
      (fun r => r.project == e.project && r.name == e.name)).head? with
    | none => .error .experiment_not_found
    | some r =>
      match get_locked r.locked with
      | .error err => .error err
      | .ok locked => .ok
        { e with
          name := sel_name
          uuid := r.uuid
          metadata := get_column_str r.metadata
          owner := get_column_str r.owner
          ctime := r.ctime
          locked := locked }

/-- The method `Experiment::remove`; `new_uuid` is what `uuids::random_generator()()`
returns. -/
def Experiment.remove (new_uuid : srdp.uuid) (s : Store) (e : Experiment) :
    ExperimentOutcome Unit :=
  if is_nil e.uuid then ⟨.error .uuid_is_nil, e, s⟩
  else match delete_experiments s e.uuid with
    | .error err => ⟨.error err, e, s⟩
    | .ok s1 =>
      ⟨.ok (), { e with uuid := new_uuid, name := "", metadata := none, owner := none,
                        ctime := none, locked := false }, s1⟩

/-- The method `Experiment::get_journal`. -/
def Experiment.get_journal (s : Store) (e : Experiment) : Except Error String :=
  if is_nil e.uuid then .error .uuid_is_nil
  else match (s.experiments.filter (fun r => r.uuid == e.uuid)).head? with
    | none => .error .invalid_project_uuid
    | some r =>
      match get_column_str r.journal with
      | some text => .ok text
      | none => .ok ""

/-- The method `Experiment::set_journal`. -/
def Experiment.set_journal (s : Store) (e : Experiment) (text : String) :
    ExperimentOutcome Unit :=
  if is_nil e.uuid then ⟨.error .uuid_is_nil, e, s⟩
  else ⟨.ok (), e, update_experiments_journal s text e.uuid⟩

/-- The method `Experiment::append_journal`. -/
def Experiment.append_journal (s : Store) (e : Experiment) (text : String) :
    ExperimentOutcome Unit :=
  if is_nil e.uuid then ⟨.error .uuid_is_nil, e, s⟩
  else ⟨.ok (), e, append_experiments_journal s text e.uuid⟩

/-- The constructor `Experiment(db, project, name, create)`, for a `Project` handle with
uuid `project`: the handle starts with that project and name; when the project has an
experiment of that name the handle is filled from it, otherwise the experiment is created
(`create` true) or the constructor throws. Returns the handle and the database. -/
def Experiment.new_named (new_uuid : srdp.uuid) (s : Store) (project : srdp.uuid)
    (sel_name : String) (create_new : Bool) : Except Error (Experiment × Store) :=
  if is_nil project then .error .experiment_not_attached
  else match (s.experiments.filter
      (fun r => r.project == project && r.name == sel_name)).head? with
    | none =>
      if create_new then
        match Experiment.create new_uuid s
          { Experiment.empty project with name := sel_name } sel_name with
        | ⟨.error err, _, _⟩ => .error err
        | ⟨.ok _, e1, s1⟩ => .ok (e1, s1)
      else .error .experiment_not_found
    | some r =>
      match get_locked r.locked with
      | .error err => .error err
      | .ok locked => .ok
        ({ project := project
           uuid := r.uuid
           name := sel_name
           metadata := get_column_str r.metadata
           owner := get_column_str r.owner
           ctime := r.ctime
           locked := locked }, s)

/-- The constructor `Experiment(db, project, uuid)`, for a `Project` handle with uuid
`project`: the handle starts with that project and calls `load(uuid)`. -/
def Experiment.new_loaded (s : Store) (project sel_uuid : srdp.uuid) :
    Except Error Experiment :=
  Experiment.load_uuid s (Experiment.empty project) sel_uuid

/-- The constructors `Experiment(db, project)` and `Experiment(db, project_uuid)`: an empty
handle bound to the project. -/
def Experiment.new_empty (project : srdp.uuid) : Except Error Experiment :=
  if is_nil project then .error .experiment_not_attached
  else .ok (Experiment.empty project)

/-! ## Constraints of the schema and reachable databases -/

/-- The constraint `hash BLOB(32) NOT NULL REFERENCES files(hash)` of table `file_map`:
every mapping row references a content record. SQLite enforces it on every statement
(`PRAGMA foreign_keys = 1`). -/
def fk_file_map_hash (s : Store) : Bool :=
  s.file_map.all (fun m => s.files.any (fun c => c.hash == m.hash))

/-- No creator in table `files` is the nil uuid: every uuid reaches the database through
`bin_to_blob<uuids::uuid>`, which throws on the nil uuid. -/
def creator_not_nil (s : Store) : Bool :=
  s.files.all (fun c =>
    match c.creator with
    | some u => !(is_nil u)
    | none => true)

/-- What `track()` needs of the handle it is called on: the experiment is set, and so is
the creator when there is one (both are bound to statements by `list()`). -/
def File.bound (node : File) : Bool :=
  !(is_nil node.experiment) &&
    (match node.creator_uuid with
     | some c => !(is_nil c)
     | none => true)

/-- The constraint `UNIQUE(uuid, hash)` of table `file_map`. -/
def unique_file_map (s : Store) : Bool :=
  decide ((s.file_map.map (fun m => (m.uuid, m.hash))).Nodup)

/-- The constraint `project BLOB(16) NOT NULL REFERENCES projects(uuid)` of table
`experiments`. -/
def fk_experiments_project (s : Store) : Bool :=
  s.experiments.all (fun e => s.projects.any (fun p => p.uuid == e.project))

/-- The constraint `uuid BLOB(16) NOT NULL REFERENCES experiments(uuid)` of table
`file_map`. -/
def fk_file_map_uuid (s : Store) : Bool :=
  s.file_map.all (fun m => s.experiments.any (fun e => e.uuid == m.uuid))

/-- The constraint `creator BLOB(16) REFERENCES experiments(uuid)` of table `files`. -/
def fk_files_creator (s : Store) : Bool :=
  s.files.all (fun c =>
    match c.creator with
    | some u => s.experiments.any (fun e => e.uuid == u)
    | none => true)

/-- The databases that calls of `create()` lead to, starting with the file tables empty as
`File::create_table` makes them. A call that throws counts too. -/
inductive CreateReachable : Store → Prop
  | fresh (s : Store) : s.files = [] → s.file_map = [] → CreateReachable s
  | create (now : ctime_t) (s : Store) (f : File) :
      CreateReachable s → CreateReachable (File.create now s f).db

/-! ## Example databases -/

/-- An experiment row as `Experiment::create` inserts it. -/
def experiment_row (u project : uuid) (name : String) : ExperimentRow :=
  { uuid := u, project := project, name := name, metadata := none, owner := none,
    ctime := none, journal := none, locked := some false }

/-- A handle as the tests of `files_test.cpp` fill it before `create()`. -/
def new_file (exp : uuid) (hash : hash_t) (size : Nat) (role : role_t) : File :=
  { File.empty exp with hash := hash, size := size, role := some role }

/-- A database with one project and the two experiments 1 and 2, no files yet. -/
def two_experiments : Store :=
  { projects := [{ uuid := 9, name := "proje", metadata := none, owner := none,
                   ctime := none, journal := none }]
    experiments := [experiment_row 1 9 "exp0", experiment_row 2 9 "exp1"]
    files := []
    file_map := [] }

/-- The database of the scenario "Files are linked" of `files_test.cpp`: experiment 1 has
input 100 and output 101, experiment 2 has input 200 and output 201 and also maps 101 as
an input. Built by the five calls of `create()` of the test at time 5. -/
def linked_db : Store :=
  (File.create 5 (File.create 5 (File.create 5 (File.create 5 (File.create 5 two_experiments
    (new_file 1 100 1 role_t.input)).db
    (new_file 1 101 1 role_t.output)).db
    (new_file 2 200 1 role_t.input)).db
    (new_file 2 201 1 role_t.output)).db
    (new_file 2 101 1 role_t.input)).db

/-- The handle of output 201 of experiment 2 as `load(201)` fills it from `linked_db`. -/
def out_201 : File :=
  { experiment := 2, hash := 201, size := 1, ctime := some 5, original_name := none,
    path := none, creator_uuid := some 2, owner := none, metadata := none,
    role := some role_t.output }

/-- The handle of hash 101 as experiment 2 maps it in `linked_db`: role input, created by
experiment 1 as its output. -/
def in_101 : File :=
  { experiment := 2, hash := 101, size := 1, ctime := some 5, original_name := none,
    path := none, creator_uuid := some 1, owner := none, metadata := none,
    role := some role_t.input }

/-- The handle of output 101 of experiment 1 as `load(101)` fills it from `linked_db`. -/
def out_101 : File :=
  { experiment := 1, hash := 101, size := 1, ctime := some 5, original_name := none,
    path := none, creator_uuid := some 1, owner := none, metadata := none,
    role := some role_t.output }

/-- A database in which experiments 1 and 2 both map hash 100 as an input, built by two
calls of `create()`. -/
def shared_db : Store :=
  (File.create 5 (File.create 5 two_experiments
    (new_file 1 100 1 role_t.input)).db
    (new_file 2 100 1 role_t.input)).db

/-- The handle of input 100 of experiment 1 as `load(100)` fills it from `shared_db`. -/
def in_100 : File :=
  { experiment := 1, hash := 100, size := 1, ctime := some 5, original_name := none,
    path := none, creator_uuid := some 1, owner := none, metadata := none,
    role := some role_t.input }

/-- A database in which experiment 1 has the two outputs 101 and 102 (in this order) and
experiment 2 maps 102 as an input, built by three calls of `create()`. -/
def two_outputs_db : Store :=
  (File.create 5 (File.create 5 (File.create 5 two_experiments
    (new_file 1 101 1 role_t.output)).db
    (new_file 1 102 1 role_t.output)).db
    (new_file 2 102 1 role_t.input)).db

/-- The handle of output 102 of experiment 1 as `load(102)` fills it from
`two_outputs_db`. -/
def out_102 : File :=
  { experiment := 1, hash := 102, size := 1, ctime := some 5, original_name := none,
    path := none, creator_uuid := some 1, owner := none, metadata := none,
    role := some role_t.output }

/-- A database with one file: input 100 of experiment 1 with path "a.txt". -/
def path_db : Store :=
  (File.create 5 two_experiments
    { new_file 1 100 1 role_t.input with path := some "a.txt" }).db

/-- The handle of input 100 of experiment 1 as `load(100)` fills it from `path_db`. -/
def in_path : File :=
  { experiment := 1, hash := 100, size := 1, ctime := some 5, original_name := none,
    path := some "a.txt", creator_uuid := some 1, owner := none, metadata := none,
    role := some role_t.input }

/-- A database with the two projects 9 and 8 and experiment "exp0" of project 9, built by
calls of `Project::create` and `Experiment::create`. -/
def two_projects : Store :=
  (Experiment.create 1
    (Project.create 8
      (Project.create 9 { projects := [], experiments := [], files := [], file_map := [] }
        Project.empty "proje").db
      Project.empty "other").db
    (Experiment.empty 9) "exp0").db

/-- A database in which `Project::create` was called twice with the name "proje". -/
def same_name_db : Store :=
  (Project.create 10
    (Project.create 9 { projects := [], experiments := [], files := [], file_map := [] }
      Project.empty "proje").db
    Project.empty "proje").db

/-- A database with a cycle, built by four calls of `create()`: experiment 1 produces 10
and experiment 2 produces 20, then experiment 1 maps 20 as an input and experiment 2 maps
10 as an input. -/
def cycle_db : Store :=
  (File.create 5 (File.create 5 (File.create 5 (File.create 5 two_experiments
    (new_file 1 10 1 role_t.output)).db
    (new_file 2 20 1 role_t.output)).db
    (new_file 1 20 1 role_t.input)).db
    (new_file 2 10 1 role_t.input)).db

/-- The handle of output 10 of experiment 1 as `load(10)` fills it from `cycle_db`. -/
def out_10 : File :=
  { experiment := 1, hash := 10, size := 1, ctime := some 5, original_name := none,
    path := none, creator_uuid := some 1, owner := none, metadata := none,
    role := some role_t.output }

/-- The handle of experiment "exp0" (uuid 1) of project 9 as `load(1)` fills it. -/
def exp0 : Experiment :=
  { project := 9, uuid := 1, name := "exp0", metadata := none, owner := none,
    ctime := none, locked := false }

/-- The database after experiment 1 registered output 101 and unmapped it again: the
content record of 101 remains, no mapping row is left. -/
def unmapped_db : Store :=
  (File.unmap (File.create 5 two_experiments (new_file 1 101 1 role_t.output)).db
    (File.create 5 two_experiments (new_file 1 101 1 role_t.output)).file).db

/-- A database with one file: input 100 of experiment 1, registered by `create()` with the
empty string as path. -/
def empty_path_db : Store :=
  (File.create 5 two_experiments
    { new_file 1 100 1 role_t.input with path := some "" }).db

/-- A database with the one project "proje", made by `Project::create` when the generator
drew the bytes of the number 7. -/
def drawn_db : Store :=
  (Project.create (random_generator 7)
    { projects := [], experiments := [], files := [], file_map := [] }
    Project.empty "proje").db

/-- The handle that `Project::create` left when it made `drawn_db`. -/
def drawn_project : Project :=
  (Project.create (random_generator 7)
    { projects := [], experiments := [], files := [], file_map := [] }
    Project.empty "proje").project

/-! ## The example databases -/

/-- The linked database, row by row. Every content record names the experiment that
registered it as creator, the inputs 100 and 200 included. -/
theorem linked_db_rows :
    linked_db.files.map (fun c => (c.hash, c.creator)) =
      [(100, some 1), (101, some 1), (200, some 2), (201, some 2)] ∧
    linked_db.file_map =
      [⟨1, 100, role_t.input, none⟩, ⟨1, 101, role_t.output, none⟩,
       ⟨2, 200, role_t.input, none⟩, ⟨2, 201, role_t.output, none⟩,
       ⟨2, 101, role_t.input, none⟩] := by
  decide

/-- The example handles are what `load()` returns. -/
theorem example_handles :
    File.loaded linked_db 2 201 = .ok out_201 ∧
    File.loaded linked_db 2 101 = .ok in_101 ∧
    File.loaded linked_db 1 101 = .ok out_101 ∧
    File.loaded shared_db 1 100 = .ok in_100 := by
  decide

/-! ## Lemmas on the dependency guard -/

theorem joins_role_input (m : MapRow) : joins_role m "input" = true ↔ m.role = role_t.input := by
  cases m with
  | mk u h r p => cases r <;> simp [joins_role, file_roles, role_t.toInt, List.lookup]

theorem joins_role_output (m : MapRow) :
    joins_role m "output" = true ↔ m.role = role_t.output := by
  cases m with
  | mk u h r p => cases r <;> simp [joins_role, file_roles, role_t.toInt, List.lookup]

theorem output_hash_eq_some (s : Store) (exp : uuid) (h : hash_t)
    (hh : output_hash s exp = some h) :
    ∃ o ∈ s.file_map, o.uuid = exp ∧ o.role = role_t.output ∧ o.hash = h := by
  unfold output_hash at hh
  rw [List.head?_eq_some_iff] at hh
  obtain ⟨tl, htl⟩ := hh
  have hmem : h ∈ (s.file_map.filter (fun m => m.uuid == exp && joins_role m "output")).map
      (fun m => m.hash) := by rw [htl]; exact List.mem_cons_self _ _
  rw [List.mem_map] at hmem
  obtain ⟨o, ho, rfl⟩ := hmem
  rw [List.mem_filter] at ho
  simp only [Bool.and_eq_true, beq_iff_eq, joins_role_output] at ho
  exact ⟨o, ho.1, ho.2.1, ho.2.2, rfl⟩

theorem output_hash_eq_none (s : Store) (exp : uuid) (hh : output_hash s exp = none) :
    ∀ o ∈ s.file_map, o.uuid = exp → o.role ≠ role_t.output := by
  intro o ho hu hr
  unfold output_hash at hh
  rw [List.head?_eq_none_iff, List.map_eq_nil_iff, List.filter_eq_nil_iff] at hh
  have := hh o ho
  simp [hu, (joins_role_output o).2 hr] at this


theorem output_filter_eq (s : Store) (exp : uuid) :
    s.file_map.filter (fun m => m.uuid == exp && joins_role m "output") =
      s.file_map.filter (fun m => decide (m.uuid = exp ∧ m.role = role_t.output)) := by
  apply List.filter_congr
  intro m _
  have hj : joins_role m "output" = decide (m.role = role_t.output) := by
    by_cases hr : m.role = role_t.output
    · simp [(joins_role_output m).2 hr, hr]
    · cases hj : joins_role m "output"
      · simp [hr]
      · exact absurd ((joins_role_output m).1 hj) hr
  rw [hj]
  by_cases hu : m.uuid = exp <;> by_cases hr : m.role = role_t.output <;> simp [hu, hr]

theorem output_hash_of_unique (s : Store) (exp : uuid) (o : MapRow)
    (h1 : (s.file_map.filter
      (fun m => decide (m.uuid = exp ∧ m.role = role_t.output))).length ≤ 1)
    (ho : o ∈ s.file_map) (hu : o.uuid = exp) (hr : o.role = role_t.output) :
    output_hash s exp = some o.hash := by
  unfold output_hash
  rw [output_filter_eq]
  have hmem : o ∈ s.file_map.filter
      (fun m => decide (m.uuid = exp ∧ m.role = role_t.output)) := by
    rw [List.mem_filter]
    exact ⟨ho, by simp [hu, hr]⟩
  generalize s.file_map.filter
    (fun m => decide (m.uuid = exp ∧ m.role = role_t.output)) = l at h1 hmem
  match l, h1, hmem with
  | [a], _, hm =>
    have : o = a := by simpa using hm
    simp [this]
  | a :: b :: tl, h, _ => simp at h

theorem output_is_used_ok (s : Store) (f : File) (x : hash_t)
    (hE : is_nil f.experiment = false) :
    ∃ b, File.output_is_used s f x = .ok b := by
  simp [File.output_is_used, hE]

theorem output_is_used_sound (s : Store) (f : File) (x : hash_t)
    (h : File.output_is_used s f x = .ok true) :
    ∃ o ∈ s.file_map, o.uuid = f.experiment ∧ o.role = role_t.output ∧
      ∃ m ∈ s.file_map, m.role = role_t.input ∧ m.hash = o.hash := by
  unfold File.output_is_used at h
  split at h
  · cases h
  · simp only [Except.ok.injEq, decide_eq_true_eq, List.countP_pos_iff] at h
    obtain ⟨m, hm, hp⟩ := h
    simp only [Bool.and_eq_true, joins_role_input] at hp
    cases hh : output_hash s f.experiment with
    | none => simp [hh] at hp
    | some h0 =>
      simp only [hh, beq_iff_eq] at hp
      obtain ⟨o, ho, hu, hr, hoh⟩ := output_hash_eq_some s f.experiment h0 hh
      exact ⟨o, ho, hu, hr, m, hm, hp.1, by rw [hoh]; exact hp.2⟩

theorem output_is_used_complete (s : Store) (f : File) (x : hash_t)
    (hE : is_nil f.experiment = false)
    (h1 : (s.file_map.filter
      (fun m => decide (m.uuid = f.experiment ∧ m.role = role_t.output))).length ≤ 1)
    (h : ∃ o ∈ s.file_map, o.uuid = f.experiment ∧ o.role = role_t.output ∧
      ∃ m ∈ s.file_map, m.role = role_t.input ∧ m.hash = o.hash) :
    File.output_is_used s f x = .ok true := by
  obtain ⟨o, ho, hu, hr, m, hm, hmr, hmh⟩ := h
  unfold File.output_is_used
  simp only [hE, Bool.false_eq_true, if_false, Except.ok.injEq, decide_eq_true_eq,
    List.countP_pos_iff]
  refine ⟨m, hm, ?_⟩
  rw [output_hash_of_unique s f.experiment o h1 ho hu hr]
  simp [(joins_role_input m).2 hmr, hmh]

theorem output_is_used_no_output (s : Store) (f : File) (x : hash_t)
    (hE : is_nil f.experiment = false)
    (h : ∀ o ∈ s.file_map, o.uuid = f.experiment → o.role ≠ role_t.output) :
    File.output_is_used s f x = .ok false := by
  obtain ⟨b, hb⟩ := output_is_used_ok s f x hE
  cases b with
  | false => exact hb
  | true =>
    obtain ⟨o, ho, hu, hr, _⟩ := output_is_used_sound s f x hb
    exact absurd hr (h o ho hu)

theorem unmap_result (s : Store) (f : File) (hE : is_nil f.experiment = false) :
    ((File.unmap s f).result = .error .in_use ↔ File.output_is_used s f f.hash = .ok true) ∧
    ((File.unmap s f).result = .ok () ↔ File.output_is_used s f f.hash = .ok false) := by
  obtain ⟨b, hb⟩ := output_is_used_ok s f f.hash hE
  unfold File.unmap
  rw [hb]
  cases b <;> simp

/-! ## C1: when `unmap()` is blocked -/

/-- C1. For a handle bound to an experiment (its uuid is not nil) that has at most one
mapping of role output: `unmap()` throws "File is in use by other experiment" exactly when
some mapping row has role input and the hash of the output mapping of the experiment;
otherwise it succeeds. The hash and the role of the handle play no part, and without an
output mapping `unmap()` succeeds. -/
theorem unmap_blocked_iff (s : Store) (f : File)
    (hE : is_nil f.experiment = false)
    (h1 : (s.file_map.filter
      (fun m => decide (m.uuid = f.experiment ∧ m.role = role_t.output))).length ≤ 1) :
    ((File.unmap s f).result = .error .in_use ↔
      ∃ o ∈ s.file_map, o.uuid = f.experiment ∧ o.role = role_t.output ∧
        ∃ m ∈ s.file_map, m.role = role_t.input ∧ m.hash = o.hash) ∧
    ((File.unmap s f).result = .ok () ↔
      ¬ ∃ o ∈ s.file_map, o.uuid = f.experiment ∧ o.role = role_t.output ∧
        ∃ m ∈ s.file_map, m.role = role_t.input ∧ m.hash = o.hash) ∧
    ((∀ o ∈ s.file_map, o.uuid = f.experiment → o.role ≠ role_t.output) →
      (File.unmap s f).result = .ok ()) := by
  obtain ⟨hin, hok⟩ := unmap_result s f hE
  have key : File.output_is_used s f f.hash = .ok true ↔
      ∃ o ∈ s.file_map, o.uuid = f.experiment ∧ o.role = role_t.output ∧
        ∃ m ∈ s.file_map, m.role = role_t.input ∧ m.hash = o.hash :=
    ⟨output_is_used_sound s f f.hash, output_is_used_complete s f f.hash hE h1⟩
  refine ⟨hin.trans key, ?_, ?_⟩
  · rw [hok, ← key]
    obtain ⟨b, hb⟩ := output_is_used_ok s f f.hash hE
    rw [hb]
    cases b <;> simp
  · intro hno
    exact hok.2 (output_is_used_no_output s f f.hash hE hno)

/-- Witness of C1 on the linked database: the input 100 of experiment 1 cannot be unmapped,
because the output 101 of experiment 1 is an input of experiment 2. -/
theorem unmap_blocked_iff_witness :
    (File.unmap linked_db (new_file 1 100 1 role_t.input)).result = .error .in_use :=
  (unmap_blocked_iff linked_db (new_file 1 100 1 role_t.input) (by decide) (by decide)).1.2
    ⟨⟨1, 101, role_t.output, none⟩, by decide, rfl, rfl,
      ⟨2, 101, role_t.input, none⟩, by decide, rfl, rfl⟩

/-! ## Lemmas on `create()` -/

theorem insert_files_ok (s s1 : Store) (hash : hash_t) (size : Int) (name : Option String)
    (creator : Option uuid) (owner : Option String) (ctime : Option Int)
    (metadata : Option String)
    (h : insert_files s hash size name creator owner ctime metadata = .ok s1) :
    s1 = { s with files := s.files ++
      [{ hash := hash, size := size, name := name, creator := creator, owner := owner,
         ctime := ctime, metadata := metadata, final := some false }] } := by
  unfold insert_files at h
  split_ifs at h
  exact (Except.ok.inj h).symm

theorem insert_file_map_ok (s s2 : Store) (hash : hash_t) (u : uuid) (path : Option String)
    (role : role_t) (h : insert_file_map s hash u path role = .ok s2) :
    s2 = { s with file_map := s.file_map ++
      [{ uuid := u, hash := hash, role := role, path := path }] } := by
  unfold insert_file_map at h
  split_ifs at h
  exact (Except.ok.inj h).symm

theorem create_content_of_exists (now : ctime_t) (s : Store) (f : File) (role : role_t)
    (h : File.exists s f.hash = true) : create_content now s f role = (f, .ok s) := by
  simp [create_content, h]

theorem create_content_of_new (now : ctime_t) (s : Store) (f : File) (role : role_t)
    (h : File.exists s f.hash = false) :
    create_content now s f role =
      ({ f with
          creator_uuid := if role = role_t.output then some f.experiment else none
          ctime := some (f.ctime.getD now) },
       insert_files s f.hash (to_int64 f.size) f.original_name (some f.experiment) f.owner
         (some (f.ctime.getD now)) f.metadata) := by
  simp [create_content, h]

/-- The handle keeps its experiment, hash and path through the first block. -/
theorem create_content_handle (now : ctime_t) (s : Store) (f : File) (role : role_t) :
    (create_content now s f role).1.experiment = f.experiment ∧
    (create_content now s f role).1.hash = f.hash ∧
    (create_content now s f role).1.path = f.path := by
  cases h : File.exists s f.hash
  · rw [create_content_of_new now s f role h]; exact ⟨rfl, rfl, rfl⟩
  · rw [create_content_of_exists now s f role h]; exact ⟨rfl, rfl, rfl⟩

/-- The second block changes no content record. -/
theorem create_mapping_files (s1 : Store) (f1 : File) (role : role_t) (b : Bool) :
    (create_mapping s1 f1 role b).db.files = s1.files := by
  unfold create_mapping
  cases h : File.is_mapped s1 f1 f1.hash with
  | error e => rfl
  | ok m =>
    cases m with
    | true => rfl
    | false =>
      cases h2 : insert_file_map s1 f1.hash f1.experiment f1.path role with
      | error e => rfl
      | ok s2 => simp only; rw [insert_file_map_ok _ _ _ _ _ _ h2]

/-- When the second block returns, it returns the flag it was given. -/
theorem create_mapping_result (s1 : Store) (f1 : File) (role : role_t) (b c : Bool)
    (h : (create_mapping s1 f1 role b).result = .ok c) : c = b := by
  unfold create_mapping at h
  cases h1 : File.is_mapped s1 f1 f1.hash with
  | error e => rw [h1] at h; cases h
  | ok m =>
    rw [h1] at h
    cases m with
    | true => cases h
    | false =>
      cases h2 : insert_file_map s1 f1.hash f1.experiment f1.path role with
      | error e => simp only [h2] at h; cases h
      | ok s2 => simp only [h2] at h; exact (Except.ok.inj h).symm

/-- The content records after `create()`, whatever its outcome: unchanged when the hash was
known, and otherwise unchanged or extended by one record of that hash. -/
theorem create_files (now : ctime_t) (s : Store) (f : File) :
    (File.exists s f.hash = true ∧ (File.create now s f).db.files = s.files) ∨
    (File.exists s f.hash = false ∧
      ((File.create now s f).db.files = s.files ∨
       ∃ row : FileRow, row.hash = f.hash ∧
        (File.create now s f).db.files = s.files ++ [row])) := by
  have hdb : (File.create now s f).db.files = s.files ∨
      ∃ s1, (create_content now s f (f.role.getD role_t.none)).2 = .ok s1 ∧
        (File.create now s f).db.files = s1.files := by
    unfold File.create
    split_ifs
    · left; rfl
    · left; rfl
    · left; rfl
    · cases hr : f.role with
      | none => left; rfl
      | some role =>
        simp only [Option.getD_some]
        rcases hc : create_content now s f role with ⟨f1, r⟩
        cases r with
        | error e => left; rfl
        | ok s1 => right; exact ⟨s1, rfl, create_mapping_files s1 f1 role _⟩
  cases hex : File.exists s f.hash
  · right
    refine ⟨rfl, ?_⟩
    rcases hdb with h | ⟨s1, hs1, h⟩
    · left; exact h
    · right
      rw [create_content_of_new now s f _ hex] at hs1
      simp only at hs1
      have := insert_files_ok _ _ _ _ _ _ _ _ _ hs1
      refine ⟨_, ?_, by rw [h, this]⟩
      rfl
  · left
    refine ⟨rfl, ?_⟩
    rcases hdb with h | ⟨s1, hs1, h⟩
    · exact h
    · rw [create_content_of_exists now s f _ hex] at hs1
      cases hs1
      exact h


/-- What a successful `create()` did: the preconditions held, the flag returned tells
whether the hash was unknown, one mapping row was appended, and one content record was
appended exactly when the hash was unknown. The creator written is the experiment. -/
theorem create_ok (now : ctime_t) (s : Store) (f : File) (b : Bool)
    (h : (File.create now s f).result = .ok b) :
    is_nil f.experiment = false ∧ f.size ≠ 0 ∧ b = !(File.exists s f.hash) ∧
    s.file_map.countP (fun m => m.hash == f.hash && m.uuid == f.experiment) = 0 ∧
    ∃ role, f.role = some role ∧
      (File.create now s f).db =
        { s with
          files := if File.exists s f.hash then s.files else s.files ++
            [{ hash := f.hash, size := to_int64 f.size, name := f.original_name,
               creator := some f.experiment, owner := f.owner,
               ctime := some (f.ctime.getD now), metadata := f.metadata,
               final := some false }]
          file_map := s.file_map ++
            [{ uuid := f.experiment, hash := f.hash, role := role, path := f.path }] } := by
  unfold File.create at h ⊢
  by_cases h0 : hash_empty f.hash = true
  · simp [h0] at h
  by_cases h1 : is_nil f.experiment = true
  · simp [h0, h1] at h
  by_cases h2 : f.size = 0
  · simp [h0, h1, h2] at h
  simp only [h0, h1, h2, if_false, Bool.false_eq_true] at h ⊢
  cases hr : f.role with
  | none => simp [hr] at h
  | some role =>
    simp only [hr] at h ⊢
    have hh := create_content_handle now s f role
    rcases hc : create_content now s f role with ⟨f1, r⟩
    rw [hc] at hh
    simp only at hh
    obtain ⟨hhe, hhh, hhp⟩ := hh
    cases r with
    | error e => simp [hc] at h
    | ok s1 =>
      simp only [hc] at h ⊢
      have hb := create_mapping_result _ _ _ _ _ h
      unfold create_mapping at h ⊢
      cases hm : File.is_mapped s1 f1 f1.hash with
      | error e => simp [hm] at h
      | ok m =>
        cases m with
        | true => simp [hm] at h
        | false =>
          cases h2m : insert_file_map s1 f1.hash f1.experiment f1.path role with
          | error e => simp [hm, h2m] at h
          | ok s2 =>
            simp only [hm, h2m]
            have hs2 := insert_file_map_ok _ _ _ _ _ _ h2m
            rw [hhe, hhh, hhp] at hs2
            have hmap : s1.file_map.countP
                (fun m => m.hash == f.hash && m.uuid == f.experiment) = 0 := by
              unfold File.is_mapped at hm
              rw [hhe, hhh] at hm
              simp only [Bool.not_eq_true] at h1
              simp only [h1, Bool.false_eq_true, if_false, Except.ok.injEq,
                decide_eq_false_iff_not, not_lt, Nat.le_zero] at hm
              exact hm
            refine ⟨trivial, h2, hb, ?_, role, rfl, ?_⟩
            · cases hex : File.exists s f.hash
              · rw [create_content_of_new now s f role hex] at hc
                have hi := insert_files_ok _ _ _ _ _ _ _ _ _ (Prod.mk.inj hc).2
                rw [hi] at hmap
                exact hmap
              · rw [create_content_of_exists now s f role hex] at hc
                have hi := (Prod.mk.inj hc).2
                cases hi
                exact hmap
            · cases hex : File.exists s f.hash
              · rw [create_content_of_new now s f role hex] at hc
                have hi := insert_files_ok _ _ _ _ _ _ _ _ _ (Prod.mk.inj hc).2
                rw [hs2, hi]
                simp
              · rw [create_content_of_exists now s f role hex] at hc
                have hi := (Prod.mk.inj hc).2
                cases hi
                rw [hs2]
                simp


theorem exists_eq_false_iff (s : Store) (h : hash_t) :
    File.exists s h = false ↔ s.files.countP (fun c => c.hash == h) = 0 := by
  simp [File.exists]

theorem exists_eq_true_iff (s : Store) (h : hash_t) :
    File.exists s h = true ↔ ∃ c ∈ s.files, c.hash = h := by
  simp [File.exists, List.countP_pos_iff]

/-- One call of `create()`, whatever its outcome, keeps the hashes of the content records
distinct. -/
theorem create_keeps_hash_unique (now : ctime_t) (s : Store) (f : File)
    (hu : ∀ h, s.files.countP (fun c => c.hash == h) ≤ 1) :
    ∀ h, (File.create now s f).db.files.countP (fun c => c.hash == h) ≤ 1 := by
  intro h
  rcases create_files now s f with ⟨_, he⟩ | ⟨hn, he | ⟨row, hrow, he⟩⟩
  · rw [he]; exact hu h
  · rw [he]; exact hu h
  · rw [he, List.countP_append]
    by_cases hh : h = f.hash
    · subst hh
      rw [(exists_eq_false_iff s f.hash).1 hn]
      simp [List.countP_cons, hrow]
    · have : (row.hash == h) = false := by
        rw [hrow]; exact beq_false_of_ne (Ne.symm hh)
      simp only [List.countP_cons, List.countP_nil, this, Bool.false_eq_true, if_false,
        Nat.add_zero]
      exact hu h

/-! ## C3: one content record per hash -/

/-- C3. A successful `create()` for a hash without content record appends exactly one
content record, of that hash, and returns true; for a hash that has a content record (from
whichever experiment) it leaves the content records as they were and returns false. In
every database that calls of `create()` lead to, each hash has at most one content
record. -/
theorem create_content_rows :
    (∀ (now : ctime_t) (s : Store) (f : File) (b : Bool),
      (File.create now s f).result = .ok b →
        (File.exists s f.hash = false →
          b = true ∧ ∃ row : FileRow, row.hash = f.hash ∧
            (File.create now s f).db.files = s.files ++ [row]) ∧
        (File.exists s f.hash = true →
          b = false ∧ (File.create now s f).db.files = s.files)) ∧
    (∀ s : Store, CreateReachable s →
      ∀ h : hash_t, s.files.countP (fun c => c.hash == h) ≤ 1) := by
  constructor
  · intro now s f b hok
    obtain ⟨_, _, hb, _, role, _, hdb⟩ := create_ok now s f b hok
    constructor
    · intro hex
      rw [hex] at hb
      have hfiles : (File.create now s f).db.files = s.files ++
          [{ hash := f.hash, size := to_int64 f.size, name := f.original_name,
             creator := some f.experiment, owner := f.owner,
             ctime := some (f.ctime.getD now), metadata := f.metadata,
             final := some false }] := by
        rw [hdb]; simp only [hex, Bool.false_eq_true, if_false]
      exact ⟨by simpa using hb, ⟨_, rfl, hfiles⟩⟩
    · intro hex
      rw [hex] at hb
      exact ⟨by simpa using hb, by rw [hdb]; simp only [hex, if_true]⟩
  · intro s hs
    induction hs with
    | fresh s hf _ => intro h; simp [hf]
    | create now s f _ ih => exact create_keeps_hash_unique now s f ih

/-- Witness of C3: the first `create()` of the test scenario registers hash 100. -/
theorem create_content_rows_witness :
    ∃ row : FileRow, row.hash = 100 ∧
      (File.create 5 two_experiments (new_file 1 100 1 role_t.input)).db.files =
        two_experiments.files ++ [row] :=
  ((create_content_rows.1 5 two_experiments (new_file 1 100 1 role_t.input) true
    (by decide)).1 (by decide)).2

/-! ## C4: `create()` on a pair that is mapped -/

/-- C4. When the pair (experiment, hash) of the handle has a mapping row (and, as the
schema enforces, every mapping row references a content record), `create()` throws and
leaves the database as it was, whatever the fields of the handle; when the handle meets
the preconditions of `create()` the exception is "File is already mapped to experiment"
and the handle is unchanged too. -/
theorem create_mapped_conflict (now : ctime_t) (s : Store) (f : File)
    (hfk : fk_file_map_hash s = true)
    (hm : ∃ m ∈ s.file_map, m.uuid = f.experiment ∧ m.hash = f.hash) :
    (File.create now s f).db = s ∧
    (∃ e, (File.create now s f).result = .error e) ∧
    (is_nil f.experiment = false → f.size ≠ 0 → f.role ≠ none →
      (File.create now s f).result = .error .already_mapped ∧
      (File.create now s f).file = f) := by
  obtain ⟨m, hmem, hmu, hmh⟩ := hm
  have hex : File.exists s f.hash = true := by
    rw [exists_eq_true_iff]
    unfold fk_file_map_hash at hfk
    rw [List.all_eq_true] at hfk
    have := hfk m hmem
    rw [List.any_eq_true] at this
    obtain ⟨c, hc, hch⟩ := this
    exact ⟨c, hc, by rw [← hmh]; simpa using hch⟩
  have hmapped : is_nil f.experiment = false → File.is_mapped s f f.hash = .ok true := by
    intro h1
    unfold File.is_mapped
    simp only [h1, Bool.false_eq_true, if_false, Except.ok.injEq, decide_eq_true_eq,
      List.countP_pos_iff]
    exact ⟨m, hmem, by simp [hmu, hmh]⟩
  unfold File.create
  by_cases h1 : is_nil f.experiment = true
  · simp [hash_empty, h1]
  by_cases h2 : f.size = 0
  · simp [hash_empty, h1, h2]
  simp only [hash_empty, h1, h2, if_false, Bool.false_eq_true]
  cases hr : f.role with
  | none => simp
  | some role =>
    simp only [create_content_of_exists now s f role hex, create_mapping]
    simp only [Bool.not_eq_true] at h1
    rw [hmapped h1]
    simp

/-- Witness of C4 on the linked database: a second `create()` of input 100 in
experiment 1. -/
theorem create_mapped_conflict_witness :
    (File.create 6 linked_db (new_file 1 100 1 role_t.input)).result =
      .error .already_mapped :=
  ((create_mapped_conflict 6 linked_db (new_file 1 100 1 role_t.input) (by decide)
    ⟨⟨1, 100, role_t.input, none⟩, by decide, rfl, rfl⟩).2.2 (by decide) (by decide)
    (by decide)).1


/-! ## C2: the creator that `create()` persists -/

/-- After a successful `create()` that registered the hash, `load()` of that hash on a
fresh handle of the same experiment returns the record below: whatever the role, the
creator read back is the experiment of the creating handle. -/
theorem load_after_create_new (now : ctime_t) (s : Store) (f : File) (b : Bool)
    (hok : (File.create now s f).result = .ok b) (hnew : File.exists s f.hash = false) :
    File.loaded (File.create now s f).db f.experiment f.hash = .ok
      { experiment := f.experiment
        hash := f.hash
        size := to_size (to_int64 f.size)
        ctime := some (f.ctime.getD now)
        original_name := get_column_str f.original_name
        path := get_column_str f.path
        creator_uuid := some f.experiment
        owner := get_column_str f.owner
        metadata := get_column_str f.metadata
        role := f.role } := by
  obtain ⟨hE, _, _, hmap, role, hr, hdb⟩ := create_ok now s f b hok
  have hfil : s.file_map.filter (fun m => m.hash == f.hash && m.uuid == f.experiment) = [] := by
    rw [List.filter_eq_nil_iff]
    rw [List.countP_eq_zero] at hmap
    exact hmap
  have hfiles : s.files.filter (fun c => f.hash == c.hash) = [] := by
    rw [List.filter_eq_nil_iff]
    have := (exists_eq_false_iff s f.hash).1 hnew
    rw [List.countP_eq_zero] at this
    intro c hc
    have h2 := this c hc
    simp only [beq_iff_eq] at h2 ⊢
    exact fun h => h2 h.symm
  unfold File.loaded File.load
  simp only [File.empty, hE, Bool.false_eq_true, if_false]
  rw [hdb]
  simp only [load_rows, hnew, Bool.false_eq_true, if_false, List.filter_append, hfil, hfiles,
    List.nil_append, List.filter_cons, List.filter_nil, beq_self_eq_true, Bool.and_self,
    if_true, List.flatMap_cons, List.flatMap_nil, List.map_cons, List.map_nil,
    List.append_nil, List.head?_cons, hr]

/-- C2, the code at a failing input. In a database with experiment 1 and no files, a handle
of experiment 1 with hash 100, size 1 and role input is created: `create()` returns true
and leaves the handle without creator, yet the content record it wrote names experiment 1
as creator, and a fresh handle that loads hash 100 gets creator 1. -/
theorem create_input_persists_creator :
    (File.create 5 two_experiments (new_file 1 100 1 role_t.input)).result = .ok true ∧
    (File.create 5 two_experiments (new_file 1 100 1 role_t.input)).file.creator_uuid = none ∧
    (File.create 5 two_experiments (new_file 1 100 1 role_t.input)).db.files.map
      (fun c => c.creator) = [some 1] ∧
    (File.loaded (File.create 5 two_experiments (new_file 1 100 1 role_t.input)).db 1 100).map
      (fun g => g.creator_uuid) = .ok (some 1) := by
  decide

/-! ## Lemmas on `track()` -/

theorem track_levels_pos (d : Int) : 1 ≤ track_levels d := by
  unfold track_levels; omega

theorem track_levels_succ (d : Int) (h : ¬ d > 10) :
    track_levels d = track_levels (d + 1) + 1 := by
  unfold track_levels; omega

theorem track_levels_succ_le (d : Int) : track_levels d ≤ track_levels (d + 1) + 1 := by
  unfold track_levels; omega

/-- The body of `File::track` with the recursive call as a parameter. -/
theorem track_fuel_succ (s : Store) (fuel : Nat) (node : File) (depth max_depth : Int) :
    track_fuel s (fuel + 1) node depth max_depth =
      if depth > max_depth then .ok (.mk node [])
      else match node.role with
        | none => .ok (.mk node [])
        | some r =>
          if r = role_t.output then
            match File.list s node (some role_t.input) with
            | .error e => .error e
            | .ok list_inputs =>
              match collect (fun f => track_fuel s fuel f (depth + 1) 10) list_inputs with
              | .error e => .error e
              | .ok cs => .ok (.mk node cs)
          else if r = role_t.input then
            match node.creator_uuid with
            | none => .ok (.mk node [])
            | some c =>
              match File.list s (File.empty c) (some role_t.input) with
              | .error e => .error e
              | .ok file_list =>
                match collect (fun f => track_fuel s fuel f (depth + 1) 10)
                    (file_list.filter (fun f => f.hash != node.hash)) with
                | .error e => .error e
                | .ok cs => .ok (.mk node cs)
          else .ok (.mk node []) := by
  rfl

/-- With the default bound, fuel beyond the number of levels left changes nothing. -/
theorem track_fuel_stable (s : Store) (n1 : Nat) :
    ∀ (n2 : Nat) (node : File) (d : Int), track_levels d ≤ n1 → track_levels d ≤ n2 →
      track_fuel s n1 node d 10 = track_fuel s n2 node d 10 := by
  induction n1 with
  | zero =>
    intro n2 node d h1 _
    have := track_levels_pos d
    omega
  | succ k ih =>
    intro n2 node d h1 h2
    cases n2 with
    | zero =>
      have := track_levels_pos d
      omega
    | succ j =>
      rw [track_fuel_succ, track_fuel_succ]
      by_cases hd : d > 10
      · simp only [hd, if_true]
      · have hl := track_levels_succ d hd
        have hfun : (fun f => track_fuel s k f (d + 1) 10) =
            (fun f => track_fuel s j f (d + 1) 10) := by
          funext f
          exact ih j f (d + 1) (by omega) (by omega)
        rw [hfun]

/-- The recursive equation of `File::track`: the model of the method satisfies the body of
the source, with every nested call again a call of the method (at `depth + 1`, bound 10). -/
theorem track_eq (s : Store) (node : File) (depth max_depth : Int) :
    File.track s node depth max_depth =
      if depth > max_depth then .ok (.mk node [])
      else match node.role with
        | none => .ok (.mk node [])
        | some r =>
          if r = role_t.output then
            match File.list s node (some role_t.input) with
            | .error e => .error e
            | .ok list_inputs =>
              match collect (fun f => File.track s f (depth + 1) 10) list_inputs with
              | .error e => .error e
              | .ok cs => .ok (.mk node cs)
          else if r = role_t.input then
            match node.creator_uuid with
            | none => .ok (.mk node [])
            | some c =>
              match File.list s (File.empty c) (some role_t.input) with
              | .error e => .error e
              | .ok file_list =>
                match collect (fun f => File.track s f (depth + 1) 10)
                    (file_list.filter (fun f => f.hash != node.hash)) with
                | .error e => .error e
                | .ok cs => .ok (.mk node cs)
          else .ok (.mk node []) := by
  have hfun : (fun f => File.track s f (depth + 1) 10) =
      (fun f => track_fuel s (track_levels (depth + 1)) f (depth + 1) 10) := by
    funext f
    unfold File.track
    exact track_fuel_stable s _ _ f (depth + 1) (track_levels_succ_le _) (le_refl _)
  rw [hfun]
  unfold File.track
  rw [track_fuel_succ]

/-! ## Lemmas on `list()` -/

theorem collect_forall₂ {α β : Type} (body : α → Except Error β) :
    ∀ (l : List α) (bs : List β), collect body l = .ok bs →
      List.Forall₂ (fun a b => body a = .ok b) l bs := by
  intro l
  induction l with
  | nil =>
    intro bs h
    simp only [collect, Except.ok.injEq] at h
    subst h
    exact List.Forall₂.nil
  | cons a rest ih =>
    intro bs h
    simp only [collect] at h
    cases ha : body a with
    | error e => simp [ha] at h
    | ok b =>
      cases hr : collect body rest with
      | error e => simp [ha, hr] at h
      | ok bs0 =>
        simp only [ha, hr, Except.ok.injEq] at h
        subst h
        exact List.Forall₂.cons ha (ih bs0 hr)

theorem collect_total {α β : Type} (body : α → Except Error β) :
    ∀ l : List α, (∀ a ∈ l, ∃ b, body a = .ok b) → ∃ bs, collect body l = .ok bs := by
  intro l
  induction l with
  | nil => intro _; exact ⟨[], rfl⟩
  | cons a rest ih =>
    intro h
    obtain ⟨b, hb⟩ := h a (List.mem_cons_self _ _)
    obtain ⟨bs, hbs⟩ := ih (fun x hx => h x (List.mem_cons_of_mem _ hx))
    exact ⟨b :: bs, by simp [collect, hb, hbs]⟩

theorem collect_map {α β γ : Type} (g : α → β) (body : β → Except Error γ) (l : List α) :
    collect body (l.map g) = collect (fun a => body (g a)) l := by
  induction l with
  | nil => rfl
  | cons a rest ih => simp only [List.map_cons, collect, ih]

theorem forall₂_mem_right {α β : Type} {R : α → β → Prop} :
    ∀ {l1 : List α} {l2 : List β}, List.Forall₂ R l1 l2 → ∀ b ∈ l2, ∃ a ∈ l1, R a b := by
  intro l1 l2 h
  induction h with
  | nil => intro b hb; cases hb
  | cons hab _ ih =>
    intro b hb
    rcases List.mem_cons.1 hb with rfl | hb
    · exact ⟨_, List.mem_cons_self _ _, hab⟩
    · obtain ⟨a, ha, hr⟩ := ih b hb
      exact ⟨a, List.mem_cons_of_mem _ ha, hr⟩

theorem toInt_injective (a b : role_t) (h : a.toInt = b.toInt) : a = b := by
  cases a <;> cases b <;> first | rfl | (simp [role_t.toInt] at h)

/-- The clause `ORDER BY role` leaves rows of one role in rowid order. -/
theorem order_by_role_same (rows : List MapRow) (r : role_t)
    (h : ∀ m ∈ rows, m.role = r) : order_by_role rows = rows := by
  unfold order_by_role
  apply List.Sorted.insertionSort_eq
  apply List.pairwise_of_forall_mem_list
  intro a ha b hb
  rw [h a ha, h b hb]

/-- The rows that `list(role)` reads. -/
theorem list_rows (s : Store) (exp : uuid) (r : role_t) :
    order_by_role (s.file_map.filter (fun m => m.uuid == exp && m.role.toInt == r.toInt)) =
      s.file_map.filter (fun m => decide (m.uuid = exp ∧ m.role = r)) := by
  have hf : s.file_map.filter (fun m => m.uuid == exp && m.role.toInt == r.toInt) =
      s.file_map.filter (fun m => decide (m.uuid = exp ∧ m.role = r)) := by
    apply List.filter_congr
    intro m _
    by_cases hu : m.uuid = exp <;> by_cases hr : m.role = r
    · simp [hu, hr]
    · have : ¬ m.role.toInt = r.toInt := fun h => hr (toInt_injective _ _ h)
      simp [hu, hr, this]
    · simp [hu, hr]
    · simp [hu, hr]
  rw [hf]
  apply order_by_role_same _ r
  intro m hm
  rw [List.mem_filter] at hm
  have := hm.2
  simp only [decide_eq_true_eq] at this
  exact this.2

/-- The call `list(role)` as one loop over the mapping rows of the experiment with that
role, in rowid order. -/
theorem list_eq (s : Store) (f : File) (r : role_t) (hE : is_nil f.experiment = false) :
    File.list s f (some r) =
      collect (fun m : MapRow =>
        match File.loaded s f.experiment m.hash with
        | .error e => .error e
        | .ok g => .ok { g with path := get_column_str m.path })
        (s.file_map.filter (fun m => decide (m.uuid = f.experiment ∧ m.role = r))) := by
  unfold File.list
  simp only [hE, Bool.false_eq_true, if_false]
  rw [list_rows, collect_map]

/-- What a handle loaded by hash holds. -/
theorem loaded_props (s : Store) (exp : uuid) (h : hash_t) (g : File)
    (hg : File.loaded s exp h = .ok g) :
    g.experiment = exp ∧ g.hash = h ∧
    ∃ m ∈ s.file_map, ∃ c ∈ s.files, m.uuid = exp ∧ m.hash = h ∧ c.hash = h ∧
      g.role = some m.role ∧ g.creator_uuid = c.creator := by
  unfold File.loaded File.load at hg
  split_ifs at hg with hn
  cases hl : (load_rows s h (File.empty exp).experiment).head? with
  | none => simp [hl] at hg
  | some p =>
    obtain ⟨m, c⟩ := p
    simp only [hl, Except.ok.injEq] at hg
    have hmem : (m, c) ∈ load_rows s h exp := by
      rw [List.head?_eq_some_iff] at hl
      obtain ⟨tl, htl⟩ := hl
      simp only [File.empty] at htl
      rw [htl]
      exact List.mem_cons_self _ _
    simp only [load_rows, List.mem_flatMap, List.mem_filter, List.mem_map, Bool.and_eq_true,
      beq_iff_eq, Prod.mk.injEq] at hmem
    obtain ⟨m0, ⟨hm0, hmh, hmu⟩, c0, ⟨hc0, hch⟩, rfl, rfl⟩ := hmem
    subst hg
    exact ⟨rfl, rfl, m0, hm0, c0, hc0, hmu, hmh, by rw [← hch, hmh], rfl, rfl⟩

/-- Under the foreign key of `file_map.hash`, a mapping row of a non-nil experiment can be
loaded. -/
theorem loaded_total (s : Store) (exp : uuid) (m : MapRow)
    (hfk : fk_file_map_hash s = true) (hE : is_nil exp = false)
    (hm : m ∈ s.file_map) (hu : m.uuid = exp) :
    ∃ g, File.loaded s exp m.hash = .ok g := by
  unfold fk_file_map_hash at hfk
  rw [List.all_eq_true] at hfk
  have hc := hfk m hm
  rw [List.any_eq_true] at hc
  obtain ⟨c, hc, hch⟩ := hc
  have hmem : (m, c) ∈ load_rows s m.hash exp := by
    simp only [load_rows, List.mem_flatMap, List.mem_filter, List.mem_map, Bool.and_eq_true,
      beq_iff_eq, Prod.mk.injEq]
    exact ⟨m, ⟨hm, rfl, hu⟩, c, ⟨hc, by simpa using (beq_iff_eq.1 hch).symm⟩, rfl, rfl⟩
  unfold File.loaded File.load
  simp only [File.empty, hE, Bool.false_eq_true, if_false]
  cases hl : (load_rows s m.hash exp).head? with
  | none =>
    rw [List.head?_eq_none_iff] at hl
    rw [hl] at hmem
    cases hmem
  | some p => exact ⟨_, rfl⟩

/-- Under the foreign key of `file_map.hash`, `list(role)` on a non-nil experiment returns
one handle per mapping row of the experiment with that role, in rowid order: the handle
loaded by the hash of the row, with the path of the row. -/
theorem list_ok (s : Store) (f : File) (r : role_t)
    (hfk : fk_file_map_hash s = true) (hE : is_nil f.experiment = false) :
    ∃ l, File.list s f (some r) = .ok l ∧
      List.Forall₂ (fun (m : MapRow) (g : File) =>
          ∃ g0, File.loaded s f.experiment m.hash = .ok g0 ∧
            g = { g0 with path := get_column_str m.path })
        (s.file_map.filter (fun m => decide (m.uuid = f.experiment ∧ m.role = r))) l := by
  rw [list_eq s f r hE]
  have htot := collect_total (fun m : MapRow =>
      match File.loaded s f.experiment m.hash with
      | .error e => .error e
      | .ok g => .ok { g with path := get_column_str m.path })
    (s.file_map.filter (fun m => decide (m.uuid = f.experiment ∧ m.role = r))) (by
      intro m hm
      rw [List.mem_filter] at hm
      have h2 := hm.2
      simp only [decide_eq_true_eq] at h2
      obtain ⟨g, hg⟩ := loaded_total s f.experiment m hfk hE hm.1 h2.1
      simp only [hg]; exact ⟨_, rfl⟩)
  obtain ⟨l, hl⟩ := htot
  refine ⟨l, hl, ?_⟩
  refine (collect_forall₂ _ _ _ hl).imp ?_
  intro m g hmg
  cases hg0 : File.loaded s f.experiment m.hash with
  | error e => simp [hg0] at hmg
  | ok g0 =>
    simp only [hg0, Except.ok.injEq] at hmg
    exact ⟨g0, rfl, hmg.symm⟩

/-- The handles that `list()` returns can be tracked: their experiment is set and their
creator, read from a content record, is not nil. -/
theorem list_elem_bound (s : Store) (exp : uuid) (m : MapRow) (g : File)
    (hcr : creator_not_nil s = true) (hE : is_nil exp = false)
    (h : ∃ g0, File.loaded s exp m.hash = .ok g0 ∧
      g = { g0 with path := get_column_str m.path }) :
    g.bound = true := by
  obtain ⟨g0, hg0, rfl⟩ := h
  obtain ⟨he, _, _, _, c, hc, _, _, _, _, hcre⟩ := loaded_props s exp m.hash g0 hg0
  unfold creator_not_nil at hcr
  rw [List.all_eq_true] at hcr
  have := hcr c hc
  unfold File.bound
  simp only [he, hE, Bool.not_false, Bool.true_and, hcre]
  exact this

/-- Totality of `track()`: under the constraints of the schema it throws on no handle whose
experiment and creator are set. -/
theorem track_fuel_total (s : Store) (hfk : fk_file_map_hash s = true)
    (hcr : creator_not_nil s = true) (fuel : Nat) :
    ∀ (node : File) (d m : Int), node.bound = true →
      ∃ t, track_fuel s fuel node d m = .ok t := by
  induction fuel with
  | zero => intro node d m _; exact ⟨_, rfl⟩
  | succ k ih =>
    intro node d m hb
    rw [track_fuel_succ]
    unfold File.bound at hb
    simp only [Bool.and_eq_true, Bool.not_eq_true'] at hb
    obtain ⟨hE, hc⟩ := hb
    by_cases hd : d > m
    · simp only [hd, if_true]; exact ⟨_, rfl⟩
    simp only [hd, if_false]
    cases hr : node.role with
    | none => exact ⟨_, rfl⟩
    | some r =>
      simp only
      by_cases hro : r = role_t.output
      · simp only [hro, if_true]
        obtain ⟨l, hl, hrel⟩ := list_ok s node role_t.input hfk hE
        rw [hl]
        obtain ⟨cs, hcs⟩ := collect_total (fun f => track_fuel s k f (d + 1) 10) l (by
          intro g hg
          obtain ⟨m0, _, hm0⟩ := forall₂_mem_right hrel g hg
          exact ih g (d + 1) 10 (list_elem_bound s node.experiment m0 g hcr hE hm0))
        simp only [hcs]; exact ⟨_, rfl⟩
      · simp only [hro, if_false]
        by_cases hri : r = role_t.input
        · simp only [hri, if_true]
          cases hcu : node.creator_uuid with
          | none => exact ⟨_, rfl⟩
          | some c =>
            simp only [hcu, Bool.not_eq_true'] at hc
            have hE2 : is_nil (File.empty c).experiment = false := hc
            obtain ⟨l, hl, hrel⟩ := list_ok s (File.empty c) role_t.input hfk hE2
            simp only [hl]
            obtain ⟨cs, hcs⟩ := collect_total (fun f => track_fuel s k f (d + 1) 10)
              (l.filter (fun f => f.hash != node.hash)) (by
                intro g hg
                obtain ⟨m0, _, hm0⟩ := forall₂_mem_right hrel g (List.mem_filter.1 hg).1
                exact ih g (d + 1) 10 (list_elem_bound s c m0 g hcr hc hm0))
            simp only [hcs]; exact ⟨_, rfl⟩
        · simp only [hri, if_false]; exact ⟨_, rfl⟩

theorem track_total (s : Store) (hfk : fk_file_map_hash s = true)
    (hcr : creator_not_nil s = true) (node : File) (d m : Int) (hb : node.bound = true) :
    ∃ t, File.track s node d m = .ok t :=
  track_fuel_total s hfk hcr _ node d m hb

/-- The root of the tree that `track()` returns is the handle it was called on. -/
theorem track_node (s : Store) (node : File) (d m : Int) (t : FileTree)
    (h : File.track s node d m = .ok t) : t.node = node := by
  rw [track_eq] at h
  split_ifs at h with hd
  · cases h; rfl
  · cases hr : node.role with
    | none => simp only [hr] at h; cases h; rfl
    | some r =>
      simp only [hr] at h
      split_ifs at h
      · cases hl : File.list s node (some role_t.input) with
        | error e => simp [hl] at h
        | ok l =>
          simp only [hl] at h
          cases hc : collect (fun f => File.track s f (d + 1) 10) l with
          | error e => simp [hc] at h
          | ok cs => simp only [hc] at h; cases h; rfl
      · cases hcu : node.creator_uuid with
        | none => simp only [hcu] at h; cases h; rfl
        | some c =>
          simp only [hcu] at h
          cases hl : File.list s (File.empty c) (some role_t.input) with
          | error e => simp [hl] at h
          | ok l =>
            simp only [hl] at h
            cases hc : collect (fun f => File.track s f (d + 1) 10)
                (l.filter (fun f => f.hash != node.hash)) with
            | error e => simp [hc] at h
            | ok cs => simp only [hc] at h; cases h; rfl
      · cases h; rfl

theorem forall₂_filter {α β : Type} {R : α → β → Prop} (p : α → Bool) (q : β → Bool)
    (hpq : ∀ a b, R a b → p a = q b) :
    ∀ {l1 : List α} {l2 : List β}, List.Forall₂ R l1 l2 →
      List.Forall₂ R (l1.filter p) (l2.filter q) := by
  intro l1 l2 h
  induction h with
  | nil => exact List.Forall₂.nil
  | @cons a b l1 l2 hab _ ih =>
    have := hpq a b hab
    cases hq : q b
    · rw [hq] at this
      simp only [List.filter_cons, this, hq, Bool.false_eq_true, if_false]
      exact ih
    · rw [hq] at this
      simp only [List.filter_cons, this, hq, if_true]
      exact List.Forall₂.cons hab ih

/-! ## C5: the children of an output -/

/-- C5. Under the constraints of the schema, for a handle of role output with a non-nil
experiment and `depth <= max_depth` (and `depth + 1` within the range of `int`), `track()`
returns a tree whose root is the handle and whose children are, in rowid order, one per
mapping row of role input of the experiment of the handle: the tree that `track(depth + 1)`
returns for the handle loaded from that row. -/
theorem track_output (s : Store) (node : File) (depth max_depth : Int)
    (hfk : fk_file_map_hash s = true) (hcr : creator_not_nil s = true)
    (hE : is_nil node.experiment = false)
    (hrole : node.role = some role_t.output) (hd : depth ≤ max_depth)
    (_hint : depth < 2 ^ 31 - 1) :
    ∃ (inputs : List File) (children : List FileTree),
      File.track s node depth max_depth = .ok (.mk node children) ∧
      List.Forall₂ (fun (m : MapRow) (g : File) =>
          ∃ g0, File.loaded s node.experiment m.hash = .ok g0 ∧
            g = { g0 with path := get_column_str m.path })
        (s.file_map.filter (fun m => decide (m.uuid = node.experiment ∧ m.role = role_t.input)))
        inputs ∧
      List.Forall₂ (fun (g : File) (t : FileTree) => File.track s g (depth + 1) 10 = .ok t)
        inputs children := by
  obtain ⟨l, hl, hrel⟩ := list_ok s node role_t.input hfk hE
  obtain ⟨cs, hcs⟩ := collect_total (fun f => File.track s f (depth + 1) 10) l (by
    intro g hg
    obtain ⟨m0, _, hm0⟩ := forall₂_mem_right hrel g hg
    exact track_total s hfk hcr g (depth + 1) 10
      (list_elem_bound s node.experiment m0 g hcr hE hm0))
  refine ⟨l, cs, ?_, hrel, collect_forall₂ _ _ _ hcs⟩
  rw [track_eq]
  have hnd : ¬ depth > max_depth := not_lt.2 hd
  simp only [hnd, if_false, hrole, if_true, hl, hcs]

/-- Witness of C5: output 201 of experiment 2 in the linked database. -/
theorem track_output_witness :
    ∃ (inputs : List File) (children : List FileTree),
      File.track linked_db out_201 0 10 = .ok (.mk out_201 children) ∧
      List.Forall₂ (fun (m : MapRow) (g : File) =>
          ∃ g0, File.loaded linked_db out_201.experiment m.hash = .ok g0 ∧
            g = { g0 with path := get_column_str m.path })
        (linked_db.file_map.filter
          (fun m => decide (m.uuid = out_201.experiment ∧ m.role = role_t.input)))
        inputs ∧
      List.Forall₂
        (fun (g : File) (t : FileTree) => File.track linked_db g (0 + 1) 10 = .ok t)
        inputs children :=
  track_output linked_db out_201 0 10 (by decide) (by decide) (by decide) rfl (by decide)
    (by decide)

/-! ## C6: the children of an input that has a creator -/

/-- C6. Under the constraints of the schema, for a handle of role input whose creator is
the non-nil experiment `c`, and `depth <= max_depth` (and `depth + 1` within the range of
`int`), `track()` returns a tree whose root is the handle and whose children are, in rowid
order, one per mapping row of role input of experiment `c` whose hash differs from the hash
of the handle: the tree that `track(depth + 1)` returns for the handle loaded from that row
in experiment `c`. No child has the hash of the handle. -/
theorem track_input (s : Store) (node : File) (depth max_depth : Int) (c : uuid)
    (hfk : fk_file_map_hash s = true) (hcr : creator_not_nil s = true)
    (hrole : node.role = some role_t.input)
    (hc : node.creator_uuid = some c) (hcn : is_nil c = false) (hd : depth ≤ max_depth)
    (_hint : depth < 2 ^ 31 - 1) :
    ∃ (siblings : List File) (children : List FileTree),
      File.track s node depth max_depth = .ok (.mk node children) ∧
      List.Forall₂ (fun (m : MapRow) (g : File) =>
          ∃ g0, File.loaded s c m.hash = .ok g0 ∧
            g = { g0 with path := get_column_str m.path })
        ((s.file_map.filter (fun m => decide (m.uuid = c ∧ m.role = role_t.input))).filter
          (fun m => m.hash != node.hash))
        siblings ∧
      List.Forall₂ (fun (g : File) (t : FileTree) => File.track s g (depth + 1) 10 = .ok t)
        siblings children ∧
      ∀ t ∈ children, t.node.hash ≠ node.hash := by
  have hE2 : is_nil (File.empty c).experiment = false := hcn
  obtain ⟨l, hl, hrel⟩ := list_ok s (File.empty c) role_t.input hfk hE2
  have hrel2 : List.Forall₂ (fun (m : MapRow) (g : File) =>
      ∃ g0, File.loaded s c m.hash = .ok g0 ∧ g = { g0 with path := get_column_str m.path })
      ((s.file_map.filter (fun m => decide (m.uuid = c ∧ m.role = role_t.input))).filter
        (fun m => m.hash != node.hash))
      (l.filter (fun f => f.hash != node.hash)) := by
    apply forall₂_filter _ _ _ hrel
    intro m g hmg
    obtain ⟨g0, hg0, rfl⟩ := hmg
    obtain ⟨_, hh, _⟩ := loaded_props s _ m.hash g0 hg0
    simp only [hh]
  obtain ⟨cs, hcs⟩ := collect_total (fun f => File.track s f (depth + 1) 10)
    (l.filter (fun f => f.hash != node.hash)) (by
      intro g hg
      obtain ⟨m0, _, hm0⟩ := forall₂_mem_right hrel g (List.mem_filter.1 hg).1
      exact track_total s hfk hcr g (depth + 1) 10 (list_elem_bound s c m0 g hcr hcn hm0))
  have hch := collect_forall₂ _ _ _ hcs
  refine ⟨l.filter (fun f => f.hash != node.hash), cs, ?_, hrel2, hch, ?_⟩
  · rw [track_eq]
    have hnd : ¬ depth > max_depth := not_lt.2 hd
    have hne : ¬ role_t.input = role_t.output := by decide
    simp only [hnd, if_false, hrole, hne, if_true, hc, hl, hcs]
  · intro t ht
    obtain ⟨g, hg, hgt⟩ := forall₂_mem_right hch t ht
    rw [track_node s g _ _ t hgt]
    have := (List.mem_filter.1 hg).2
    simpa using this

/-- Witness of C6: hash 101 as input of experiment 2 in the linked database; its creator is
experiment 1, whose only other input is 100. -/
theorem track_input_witness :
    ∃ (siblings : List File) (children : List FileTree),
      File.track linked_db in_101 1 10 = .ok (.mk in_101 children) ∧
      List.Forall₂ (fun (m : MapRow) (g : File) =>
          ∃ g0, File.loaded linked_db 1 m.hash = .ok g0 ∧
            g = { g0 with path := get_column_str m.path })
        ((linked_db.file_map.filter
          (fun m => decide (m.uuid = 1 ∧ m.role = role_t.input))).filter
          (fun m => m.hash != in_101.hash))
        siblings ∧
      List.Forall₂
        (fun (g : File) (t : FileTree) => File.track linked_db g (1 + 1) 10 = .ok t)
        siblings children ∧
      ∀ t ∈ children, t.node.hash ≠ in_101.hash :=
  track_input linked_db in_101 1 10 1 (by decide) (by decide) rfl rfl (by decide) (by decide)
    (by decide)

/-! ## C7: nodes without children -/

/-- C7. In every database and at every depth, `track()` returns the handle as a tree
without children when the handle has no role, when its role is input and it has no creator,
and when its role is neither input nor output. -/
theorem track_childless (s : Store) (node : File) (depth max_depth : Int)
    (h : node.role = none ∨ (node.role = some role_t.input ∧ node.creator_uuid = none) ∨
      (∃ r, node.role = some r ∧ r ≠ role_t.input ∧ r ≠ role_t.output)) :
    File.track s node depth max_depth = .ok (.mk node []) := by
  rw [track_eq]
  by_cases hd : depth > max_depth
  · simp only [hd, if_true]
  · simp only [hd, if_false]
    rcases h with h | ⟨h, hc⟩ | ⟨r, h, hri, hro⟩
    · simp only [h]
    · have hne : ¬ role_t.input = role_t.output := by decide
      simp only [h, hne, if_false, if_true, hc]
    · simp only [h, hri, hro, if_false]

/-- Witness of C7: a note of experiment 1 in the linked database. -/
theorem track_childless_witness :
    File.track linked_db (new_file 1 100 1 role_t.note) 0 10 =
      .ok (.mk (new_file 1 100 1 role_t.note) []) :=
  track_childless linked_db (new_file 1 100 1 role_t.note) 0 10
    (Or.inr (Or.inr ⟨role_t.note, rfl, by decide, by decide⟩))

/-! ## C8: the bound that the caller passes -/

/-- C8, the code at a failing input. In the linked database `track(0, 0)` on output 201 of
experiment 2 returns a tree of height 3: both children of the root, visited at depth 1,
have a child of their own, since the nested calls run with the default bound 10. -/
theorem track_ignores_max_depth :
    (File.track linked_db out_201 0 0).map FileTree.height = .ok 3 ∧
    (File.track linked_db out_201 0 0).map
      (fun t => t.children.map (fun c => (c.node.hash, c.children.length))) =
        .ok [(200, 1), (101, 1)] := by
  decide

/-! ## C9: `change_role()` and the guard -/

theorem update_file_map_role_ok (s s1 : Store) (role : role_t) (hash : hash_t) (u : uuid)
    (h : update_file_map_role s role hash u = .ok s1) :
    s1 = { s with file_map := s.file_map.map (fun m =>
      if m.hash == hash && m.uuid == u then { m with role := role } else m) } := by
  unfold update_file_map_role at h
  split_ifs at h
  exact (Except.ok.inj h).symm

/-- The guard throws nothing but the nil-uuid exception of `bin_to_blob`. -/
theorem output_is_used_error (s : Store) (f : File) (x : hash_t) (e : Error)
    (h : File.output_is_used s f x = .error e) : e = Error.uuid_is_nil := by
  unfold File.output_is_used at h
  split_ifs at h
  exact (Except.error.inj h).symm

/-- The outcome of `change_role()` once its guard has let it pass. -/
theorem change_role_unguarded (s : Store) (f : File) (set_role : role_t)
    (hg : (if f.role = some role_t.output then File.output_is_used s f f.hash
      else .ok false) = .ok false) :
    File.change_role s f set_role =
      if is_nil f.experiment then ⟨.error .uuid_is_nil, f, s⟩
      else match update_file_map_role s set_role f.hash f.experiment with
        | .error e => ⟨.error e, f, s⟩
        | .ok s1 => ⟨.ok (), f, s1⟩ := by
  unfold File.change_role
  simp only [hg]

/-- The outcome of `change_role()` by what its guard says. -/
theorem change_role_cases (s : Store) (f : File) (set_role : role_t) :
    (f.role = some role_t.output ∧ File.output_is_used s f f.hash = .error .uuid_is_nil ∧
      File.change_role s f set_role = ⟨.error .uuid_is_nil, f, s⟩) ∨
    (f.role = some role_t.output ∧ File.output_is_used s f f.hash = .ok true ∧
      File.change_role s f set_role = ⟨.error .in_use, f, s⟩) ∨
    ((f.role = some role_t.output → File.output_is_used s f f.hash = .ok false) ∧
      File.change_role s f set_role =
        if is_nil f.experiment then ⟨.error .uuid_is_nil, f, s⟩
        else match update_file_map_role s set_role f.hash f.experiment with
          | .error e => ⟨.error e, f, s⟩
          | .ok s1 => ⟨.ok (), f, s1⟩) := by
  by_cases hr : f.role = some role_t.output
  · cases hg : File.output_is_used s f f.hash with
    | error e =>
      have he := output_is_used_error s f f.hash e hg
      subst he
      left
      refine ⟨hr, rfl, ?_⟩
      unfold File.change_role
      simp only [hr, if_true, hg]
    | ok b =>
      cases b with
      | true =>
        right; left
        refine ⟨hr, rfl, ?_⟩
        unfold File.change_role
        simp only [hr, if_true, hg]
      | false =>
        right; right
        exact ⟨fun _ => rfl, change_role_unguarded s f set_role
          (by simp only [hr, if_true, hg])⟩
  · right; right
    exact ⟨fun h => absurd h hr, change_role_unguarded s f set_role
      (by simp only [hr, if_false])⟩

/-- The statement `UPDATE file_map SET role = ?` throws nothing but the constraint error. -/
theorem update_file_map_role_error (s : Store) (role : role_t) (hash : hash_t) (u : uuid)
    (e : Error) (h : update_file_map_role s role hash u = .error e) :
    e = Error.sqlite_failed := by
  unfold update_file_map_role at h
  split_ifs at h
  exact (Except.error.inj h).symm

/-- What `change_role()` leaves behind: nothing changed when it throws; when it returns,
the handle is as before and only the role of the mapping rows of the pair (experiment,
hash) has changed. -/
theorem change_role_frame (s : Store) (f : File) (set_role : role_t) :
    (∀ e, (File.change_role s f set_role).result = .error e →
      (File.change_role s f set_role).db = s ∧ (File.change_role s f set_role).file = f) ∧
    ((File.change_role s f set_role).result = .ok () →
      (File.change_role s f set_role).file = f ∧
      (File.change_role s f set_role).db =
        { s with file_map := s.file_map.map (fun m =>
          if m.hash == f.hash && m.uuid == f.experiment then { m with role := set_role }
          else m) }) := by
  rcases change_role_cases s f set_role with ⟨_, _, h⟩ | ⟨_, _, h⟩ | ⟨_, h⟩
  · rw [h]; simp
  · rw [h]; simp
  · rw [h]
    by_cases hn : is_nil f.experiment = true
    · simp [hn]
    · simp only [hn, Bool.false_eq_true, if_false]
      cases hu : update_file_map_role s set_role f.hash f.experiment with
      | error e => simp
      | ok s1 =>
        have := update_file_map_role_ok s s1 set_role f.hash f.experiment hu
        simp [this]

/-- C9. For a handle whose role is output, `change_role()` throws "File is in use by other
experiment" exactly when `output_is_used` holds; for a handle whose role is not output it
never throws that. Whenever it throws, the database and the handle are as before. When it
returns, the handle is as before and the database differs only in the mapping rows of the
pair (experiment, hash) of the handle, whose role is the new role. -/
theorem change_role_guarded (s : Store) (f : File) (set_role : role_t) :
    (f.role = some role_t.output →
      ((File.change_role s f set_role).result = .error .in_use ↔
        File.output_is_used s f f.hash = .ok true)) ∧
    (f.role ≠ some role_t.output →
      (File.change_role s f set_role).result ≠ .error .in_use) ∧
    (∀ e, (File.change_role s f set_role).result = .error e →
      (File.change_role s f set_role).db = s ∧ (File.change_role s f set_role).file = f) ∧
    ((File.change_role s f set_role).result = .ok () →
      (File.change_role s f set_role).file = f ∧
      (File.change_role s f set_role).db =
        { s with file_map := s.file_map.map (fun m =>
          if m.hash == f.hash && m.uuid == f.experiment then { m with role := set_role }
          else m) }) := by
  have hpass : File.change_role s f set_role =
      (if is_nil f.experiment then ⟨.error .uuid_is_nil, f, s⟩
        else match update_file_map_role s set_role f.hash f.experiment with
          | .error e => ⟨.error e, f, s⟩
          | .ok s1 => ⟨.ok (), f, s1⟩) →
      (File.change_role s f set_role).result ≠ .error .in_use := by
    intro h
    rw [h]
    by_cases hn : is_nil f.experiment = true
    · simp [hn]
    · simp only [hn, Bool.false_eq_true, if_false]
      cases hu : update_file_map_role s set_role f.hash f.experiment with
      | error e =>
        have := update_file_map_role_error s set_role f.hash f.experiment e hu
        subst this
        simp
      | ok s1 => simp
  refine ⟨?_, ?_, (change_role_frame s f set_role).1, (change_role_frame s f set_role).2⟩
  · intro _
    rcases change_role_cases s f set_role with ⟨_, hg, h⟩ | ⟨_, hg, h⟩ | ⟨hg, h⟩
    · rw [h, hg]; simp
    · rw [h, hg]; simp
    · constructor
      · intro hres; exact absurd hres (hpass h)
      · intro hu
        rw [hg (by assumption)] at hu
        cases hu
  · intro hr
    rcases change_role_cases s f set_role with ⟨hr2, _, _⟩ | ⟨hr2, _, _⟩ | ⟨_, h⟩
    · exact absurd hr2 hr
    · exact absurd hr2 hr
    · exact hpass h

/-- Witness of C9: in the linked database the role of output 101 of experiment 1, an input
of experiment 2, cannot be changed. -/
theorem change_role_guarded_witness :
    (File.change_role linked_db out_101 role_t.note).result = .error .in_use :=
  ((change_role_guarded linked_db out_101 role_t.note).1 rfl).2 (by decide)

/-! ## C10: changing a role to output -/

/-- C10 as stated fails. In `shared_db` hash 100 is an input of experiment 1 and an input
of experiment 2; `change_role(output)` on the handle of experiment 1 returns, and the
mapping row of experiment 1 has role output afterwards. -/
theorem change_role_to_output_not_blocked :
    in_100.role = some role_t.input ∧
    (∃ m ∈ shared_db.file_map, m.uuid ≠ in_100.experiment ∧ m.hash = in_100.hash ∧
      m.role = role_t.input) ∧
    (File.change_role shared_db in_100 role_t.output).result = .ok () ∧
    (File.change_role shared_db in_100 role_t.output).db.file_map =
      [⟨1, 100, role_t.output, none⟩, ⟨2, 100, role_t.input, none⟩] := by
  decide

/-- C10 amended. A change away from output is guarded: on a handle whose role is output,
`change_role()` throws and changes nothing when `output_is_used` holds. A change to output
is not guarded: on a handle whose role is not output and whose experiment is set,
`change_role(output)` returns and sets the role of the mapping rows of the pair
(experiment, hash) to output, whichever other mappings the hash has. -/
theorem change_role_guard_direction (s : Store) (f : File) :
    (∀ set_role : role_t, f.role = some role_t.output →
      File.output_is_used s f f.hash = .ok true →
        (File.change_role s f set_role).result = .error .in_use ∧
        (File.change_role s f set_role).db = s) ∧
    (f.role ≠ some role_t.output → is_nil f.experiment = false →
      (File.change_role s f role_t.output).result = .ok () ∧
      (File.change_role s f role_t.output).db =
        { s with file_map := s.file_map.map (fun m =>
          if m.hash == f.hash && m.uuid == f.experiment then
            { m with role := role_t.output }
          else m) }) := by
  constructor
  · intro set_role hr hg
    unfold File.change_role
    simp only [hr, if_true, hg]
    exact ⟨trivial, trivial⟩
  · intro hr hE
    have hg2 : (if f.role = some role_t.output then File.output_is_used s f f.hash
        else .ok false) = .ok false := by simp only [hr, if_false]
    rw [change_role_unguarded s f role_t.output hg2]
    have hchk : role_check role_t.output = true := by decide
    simp only [hE, Bool.false_eq_true, if_false, update_file_map_role, hchk, Bool.not_true,
      Bool.and_false]
    exact ⟨trivial, trivial⟩

/-- Witness of the amended C10 on `shared_db`. -/
theorem change_role_guard_direction_witness :
    (File.change_role shared_db in_100 role_t.output).result = .ok () :=
  ((change_role_guard_direction shared_db in_100).2 (by decide) (by decide)).1

/-! ## The constraints of the schema are kept -/

/-- The outcome of the second block: it throws and leaves the database, or it returns. -/
theorem create_mapping_cases (s1 : Store) (f1 : File) (role : role_t) (b : Bool) :
    (create_mapping s1 f1 role b).db = s1 ∨
      (create_mapping s1 f1 role b).result = .ok b := by
  unfold create_mapping
  cases File.is_mapped s1 f1 f1.hash with
  | error e => left; rfl
  | ok m =>
    cases m with
    | true => left; rfl
    | false =>
      cases insert_file_map s1 f1.hash f1.experiment f1.path role with
      | error e => left; rfl
      | ok s2 => right; rfl

/-- The database after `create()`, whatever its outcome: as before, or with the content
record only (the mapping was rejected), or as a successful call leaves it. -/
theorem create_db (now : ctime_t) (s : Store) (f : File) :
    (File.create now s f).db = s ∨
    (is_nil f.experiment = false ∧ File.exists s f.hash = false ∧
      (File.create now s f).db = { s with files := s.files ++
        [{ hash := f.hash, size := to_int64 f.size, name := f.original_name,
           creator := some f.experiment, owner := f.owner,
           ctime := some (f.ctime.getD now), metadata := f.metadata,
           final := some false }] }) ∨
    (∃ b, (File.create now s f).result = .ok b) := by
  unfold File.create
  by_cases h1 : is_nil f.experiment = true
  · left; simp [hash_empty, h1]
  by_cases h2 : f.size = 0
  · left; simp [hash_empty, h1, h2]
  simp only [hash_empty, h1, h2, if_false, Bool.false_eq_true]
  simp only [Bool.not_eq_true] at h1
  cases hr : f.role with
  | none => left; rfl
  | some role =>
    simp only
    cases hex : File.exists s f.hash
    · rw [create_content_of_new now s f role hex]
      cases hi : insert_files s f.hash (to_int64 f.size) f.original_name (some f.experiment)
          f.owner (some (f.ctime.getD now)) f.metadata with
      | error e => left; rfl
      | ok s1 =>
        simp only
        have hs1 := insert_files_ok _ _ _ _ _ _ _ _ _ hi
        rcases create_mapping_cases s1
          { f with
            creator_uuid := if role = role_t.output then some f.experiment else none
            ctime := some (f.ctime.getD now) } role (!false) with h | h
        · right; left
          exact ⟨trivial, trivial, by rw [h, hs1]⟩
        · right; right
          exact ⟨_, h⟩
    · rw [create_content_of_exists now s f role hex]
      simp only
      rcases create_mapping_cases s f role (!true) with h | h
      · left; exact h
      · right; right; exact ⟨_, h⟩

theorem fk_file_map_hash_iff (s : Store) :
    fk_file_map_hash s = true ↔ ∀ m ∈ s.file_map, ∃ c ∈ s.files, c.hash = m.hash := by
  simp [fk_file_map_hash, List.all_eq_true, List.any_eq_true]

theorem creator_not_nil_iff (s : Store) :
    creator_not_nil s = true ↔ ∀ c ∈ s.files, ∀ u, c.creator = some u → is_nil u = false := by
  unfold creator_not_nil
  rw [List.all_eq_true]
  constructor
  · intro h c hc u hu
    have := h c hc
    simpa [hu] using this
  · intro h c hc
    cases hu : c.creator with
    | none => rfl
    | some u => simpa using h c hc u hu

/-- Every call of `create()`, whatever its outcome, keeps the foreign key of
`file_map.hash` and keeps the creators non-nil. -/
theorem create_keeps_constraints (now : ctime_t) (s : Store) (f : File)
    (hfk : fk_file_map_hash s = true) (hcr : creator_not_nil s = true) :
    fk_file_map_hash (File.create now s f).db = true ∧
    creator_not_nil (File.create now s f).db = true := by
  rw [fk_file_map_hash_iff] at hfk ⊢
  rw [creator_not_nil_iff] at hcr ⊢
  rcases create_db now s f with h | ⟨hE, _, h⟩ | ⟨b, hb⟩
  · rw [h]; exact ⟨hfk, hcr⟩
  · rw [h]
    constructor
    · intro m hm
      obtain ⟨c, hc, hch⟩ := hfk m hm
      exact ⟨c, List.mem_append_left _ hc, hch⟩
    · intro c hc u hu
      rcases List.mem_append.1 hc with hc | hc
      · exact hcr c hc u hu
      · simp only [List.mem_singleton] at hc
        subst hc
        simp only [Option.some.injEq] at hu
        subst hu
        exact hE
  · obtain ⟨hE, _, _, _, role, _, hdb⟩ := create_ok now s f b hb
    rw [hdb]
    cases hex : File.exists s f.hash
    · simp only [hex, Bool.false_eq_true, if_false]
      constructor
      · intro m hm
        rcases List.mem_append.1 hm with hm | hm
        · obtain ⟨c, hc, hch⟩ := hfk m hm
          exact ⟨c, List.mem_append_left _ hc, hch⟩
        · simp only [List.mem_singleton] at hm
          subst hm
          exact ⟨_, List.mem_append_right _ (List.mem_singleton_self _), rfl⟩
      · intro c hc u hu
        rcases List.mem_append.1 hc with hc | hc
        · exact hcr c hc u hu
        · simp only [List.mem_singleton] at hc
          subst hc
          simp only [Option.some.injEq] at hu
          subst hu
          exact hE
    · simp only [hex, if_true]
      constructor
      · intro m hm
        rcases List.mem_append.1 hm with hm | hm
        · exact hfk m hm
        · simp only [List.mem_singleton] at hm
          subst hm
          obtain ⟨c, hc, hch⟩ := (exists_eq_true_iff s f.hash).1 hex
          exact ⟨c, hc, hch⟩
      · exact hcr

/-- Every database that calls of `create()` lead to satisfies both constraints. -/
theorem reachable_constraints (s : Store) (h : CreateReachable s) :
    fk_file_map_hash s = true ∧ creator_not_nil s = true := by
  induction h with
  | fresh s hf hm => simp [fk_file_map_hash, creator_not_nil, hf, hm]
  | create now s f _ ih => exact create_keeps_constraints now s f ih.1 ih.2

/-- The statement of `unmap()` keeps both constraints. -/
theorem unmap_keeps_constraints (s : Store) (f : File)
    (hfk : fk_file_map_hash s = true) (hcr : creator_not_nil s = true) :
    fk_file_map_hash (File.unmap s f).db = true ∧
    creator_not_nil (File.unmap s f).db = true := by
  unfold File.unmap
  cases File.output_is_used s f f.hash with
  | error e => exact ⟨hfk, hcr⟩
  | ok b =>
    cases b with
    | true => exact ⟨hfk, hcr⟩
    | false =>
      refine ⟨?_, hcr⟩
      rw [fk_file_map_hash_iff] at hfk ⊢
      intro m hm
      exact hfk m (List.mem_filter.1 hm).1

/-- The statement of `change_role()` keeps both constraints. -/
theorem change_role_keeps_constraints (s : Store) (f : File) (set_role : role_t)
    (hfk : fk_file_map_hash s = true) (hcr : creator_not_nil s = true) :
    fk_file_map_hash (File.change_role s f set_role).db = true ∧
    creator_not_nil (File.change_role s f set_role).db = true := by
  cases hres : (File.change_role s f set_role).result with
  | error e =>
    rw [((change_role_frame s f set_role).1 e hres).1]
    exact ⟨hfk, hcr⟩
  | ok u =>
    rw [((change_role_frame s f set_role).2 hres).2]
    refine ⟨?_, hcr⟩
    rw [fk_file_map_hash_iff] at hfk ⊢
    intro m hm
    simp only [List.mem_map] at hm
    obtain ⟨m0, hm0, rfl⟩ := hm
    obtain ⟨c, hc, hch⟩ := hfk m0 hm0
    refine ⟨c, hc, ?_⟩
    rw [hch]
    split_ifs <;> rfl

/-! ## C11: several outputs -/

/-- The further example handles are what `load()` returns. -/
theorem example_handles_more :
    File.loaded two_outputs_db 1 102 = .ok out_102 ∧
    File.loaded path_db 1 100 = .ok in_path := by
  decide

/-- C11, the code at a failing input. In `two_outputs_db` experiment 1 has the outputs 101
and 102, and experiment 2 maps 102 as an input. The guard compares with the first output
only, 101, which is nobody's input: `output_is_used` is false and `unmap()` on the handle of
102 returns and removes the mapping. -/
theorem unmap_checks_first_output_only :
    two_outputs_db.file_map =
      [⟨1, 101, role_t.output, none⟩, ⟨1, 102, role_t.output, none⟩,
       ⟨2, 102, role_t.input, none⟩] ∧
    output_hash two_outputs_db 1 = some 101 ∧
    File.output_is_used two_outputs_db out_102 out_102.hash = .ok false ∧
    (File.unmap two_outputs_db out_102).result = .ok () ∧
    (File.unmap two_outputs_db out_102).db.file_map =
      [⟨1, 101, role_t.output, none⟩, ⟨2, 102, role_t.input, none⟩] := by
  decide

/-! ## C12: what a successful `unmap()` leaves behind -/

/-- A successful `unmap()`: the experiment was set, the `DELETE` ran, the handle was
cleared. -/
theorem unmap_ok (s : Store) (f : File) (hok : (File.unmap s f).result = .ok ()) :
    is_nil f.experiment = false ∧
    (File.unmap s f).db = delete_file_map s f.hash f.experiment ∧
    (File.unmap s f).file = f.cleared := by
  unfold File.unmap at hok ⊢
  cases hg : File.output_is_used s f f.hash with
  | error e => simp [hg] at hok
  | ok b =>
    cases b with
    | true => simp [hg] at hok
    | false =>
      refine ⟨?_, rfl, rfl⟩
      unfold File.output_is_used at hg
      by_cases hn : is_nil f.experiment = true
      · simp [hn] at hg
      · simpa using hn

/-- Rows of the join for a pair other than the one deleted are not affected by the
`DELETE`. -/
theorem load_rows_delete_other (s : Store) (h x : hash_t) (e e2 : uuid)
    (hne : ¬ (x = h ∧ e2 = e)) :
    load_rows (delete_file_map s h e) x e2 = load_rows s x e2 := by
  unfold load_rows delete_file_map
  simp only [List.filter_filter]
  congr 1
  apply List.filter_congr
  intro m _
  by_cases h1 : m.hash = x <;> by_cases h2 : m.uuid = e2
  · simp [h1, h2]
    exact not_and_or.1 hne
  · simp [h1, h2]
  · simp [h1, h2]
  · simp [h1, h2]

/-- No row of the join is left for the pair deleted. -/
theorem load_rows_delete_self (s : Store) (h : hash_t) (e : uuid) :
    load_rows (delete_file_map s h e) h e = [] := by
  unfold load_rows delete_file_map
  simp only [List.filter_filter]
  have : s.file_map.filter (fun m => (m.hash == h && m.uuid == e) &&
      !(m.hash == h && m.uuid == e)) = [] := by
    rw [List.filter_eq_nil_iff]
    intro m _
    simp
  rw [this]
  rfl

/-- C12. When `unmap()` succeeds on a handle of experiment E with hash h: the database
differs only in table `file_map`, from which exactly the rows of the pair (E, h) are gone
and where every other row stands as before; `exists()` answers as before for every hash;
`load(h)` on a handle of E throws "File not found in DB"; `load()` on a handle of any other
experiment returns what it returned before, and it succeeds for every other non-nil
experiment that maps h when the mapping rows reference content records. -/
theorem unmap_frame (s : Store) (f : File) (hok : (File.unmap s f).result = .ok ()) :
    (File.unmap s f).db.projects = s.projects ∧
    (File.unmap s f).db.experiments = s.experiments ∧
    (File.unmap s f).db.files = s.files ∧
    (File.unmap s f).db.file_map =
      s.file_map.filter (fun m => !(m.hash == f.hash && m.uuid == f.experiment)) ∧
    (∀ m ∈ (File.unmap s f).db.file_map, ¬ (m.uuid = f.experiment ∧ m.hash = f.hash)) ∧
    (∀ m ∈ s.file_map, ¬ (m.uuid = f.experiment ∧ m.hash = f.hash) →
      m ∈ (File.unmap s f).db.file_map) ∧
    (∀ x, File.exists (File.unmap s f).db x = File.exists s x) ∧
    (∀ g : File, g.experiment = f.experiment →
      File.load (File.unmap s f).db g f.hash = .error .not_found) ∧
    (∀ (g : File) (x : hash_t), g.experiment ≠ f.experiment →
      File.load (File.unmap s f).db g x = File.load s g x) ∧
    (fk_file_map_hash s = true → ∀ m ∈ s.file_map, m.hash = f.hash →
      m.uuid ≠ f.experiment → is_nil m.uuid = false →
        ∃ g, File.loaded (File.unmap s f).db m.uuid f.hash = .ok g) := by
  obtain ⟨hE, hdb, _⟩ := unmap_ok s f hok
  have hother : ∀ (g : File) (x : hash_t), g.experiment ≠ f.experiment →
      File.load (File.unmap s f).db g x = File.load s g x := by
    intro g x hg
    unfold File.load
    rw [hdb, load_rows_delete_other s f.hash x f.experiment g.experiment
      (fun h => hg h.2)]
  refine ⟨by rw [hdb]; rfl, by rw [hdb]; rfl, by rw [hdb]; rfl, by rw [hdb]; rfl, ?_, ?_,
    ?_, ?_, hother, ?_⟩
  · intro m hm
    rw [hdb] at hm
    have := (List.mem_filter.1 hm).2
    intro h
    simp [h.1, h.2] at this
  · intro m hm hne
    rw [hdb]
    refine List.mem_filter.2 ⟨hm, ?_⟩
    by_cases h1 : m.hash = f.hash <;> by_cases h2 : m.uuid = f.experiment
    · exact absurd ⟨h2, h1⟩ hne
    · simp [h1, h2]
    · simp [h1, h2]
    · simp [h1, h2]
  · intro x
    rw [hdb]
    rfl
  · intro g hg
    unfold File.load
    rw [hdb, hg, load_rows_delete_self]
    simp [hE]
  · intro hfk m hm hmh hmu hnil
    have := loaded_total s m.uuid m hfk hnil hm rfl
    obtain ⟨g, hg⟩ := this
    refine ⟨g, ?_⟩
    unfold File.loaded at hg ⊢
    rw [hother (File.empty m.uuid) f.hash hmu, ← hmh]
    exact hg

/-- Witness of C12: in the linked database output 201 of experiment 2 is unmapped (no
output of experiment 2 is anybody's input); afterwards `load(201)` from experiment 2
fails. -/
theorem unmap_frame_witness :
    File.load (File.unmap linked_db out_201).db out_201 out_201.hash = .error .not_found :=
  (unmap_frame linked_db out_201 (by decide)).2.2.2.2.2.2.2.1 out_201 rfl

/-! ## C13: the handle after `unmap()` -/

/-- C13, the code at a failing input. Input 100 of experiment 1 in `path_db` has the path
"a.txt". `unmap()` returns and clears hash, size, role, owner, metadata, creator, original
name and creation time of the handle, but the handle still carries the path. -/
theorem unmap_keeps_path :
    (File.unmap path_db in_path).result = .ok () ∧
    (File.unmap path_db in_path).file =
      { File.empty 1 with path := some "a.txt" } ∧
    (File.unmap path_db in_path).file.path ≠ none := by
  decide

/-! ## C14: the preconditions of `create()` -/

/-- The three preconditions that `create()` does enforce: a nil experiment, size 0 and an
absent role each make it throw and leave database and handle as they were. -/
theorem create_precondition_errors (now : ctime_t) (s : Store) (f : File) :
    (is_nil f.experiment = true →
      File.create now s f = ⟨.error .not_attached, f, s⟩) ∧
    (is_nil f.experiment = false → f.size = 0 →
      File.create now s f = ⟨.error .invalid_size, f, s⟩) ∧
    (is_nil f.experiment = false → f.size ≠ 0 → f.role = none →
      File.create now s f = ⟨.error .role_not_set, f, s⟩) := by
  refine ⟨?_, ?_, ?_⟩
  · intro h
    simp [File.create, hash_empty, h]
  · intro h1 h2
    simp [File.create, hash_empty, h1, h2]
  · intro h1 h2 h3
    simp [File.create, hash_empty, h1, h2, h3]

/-- C14, the code at a failing input. A handle of experiment 1 whose hash was never set
(all bytes zero, as the constructor leaves it), with size 1 and role input: `create()` in
the database without files returns true and inserts a content record and a mapping row
with the zero hash. The test `hash.empty()` never holds for the fixed-size digest. -/
theorem create_accepts_unset_hash :
    (new_file 1 0 1 role_t.input).hash = (File.empty 1).hash ∧
    (File.create 5 two_experiments (new_file 1 0 1 role_t.input)).result = .ok true ∧
    (File.create 5 two_experiments (new_file 1 0 1 role_t.input)).db.files.map
      (fun c => c.hash) = [0] ∧
    (File.create 5 two_experiments (new_file 1 0 1 role_t.input)).db.file_map =
      [⟨1, 0, role_t.input, none⟩] := by
  decide

/-! ## C15: `create()` followed by `load()` -/

/-- What `get_column_str` does to a value that was bound: absent and non-empty texts come
back as they are, the empty text comes back as absent. -/
theorem get_column_str_eq (v : Option String) :
    (v ≠ some "" → get_column_str v = v) ∧ get_column_str (some "") = none := by
  constructor
  · intro h
    cases v with
    | none => rfl
    | some t =>
      have : t ≠ "" := fun ht => h (by rw [ht])
      simp [get_column_str, this]
  · rfl

/-- A size that passed the check `size >= 0` of table `files` is read back as it was. -/
theorem to_size_to_int64 (n : Nat) (hn : n < 2 ^ 64) (h0 : ¬ to_int64 n < 0) :
    to_size (to_int64 n) = n := by
  unfold to_int64 at h0 ⊢
  unfold to_size
  have h64 : (2 : Nat) ^ 64 = 18446744073709551616 := by norm_num
  have h63 : (2 : Nat) ^ 63 = 9223372036854775808 := by norm_num
  have i64 : (2 : Int) ^ 64 = 18446744073709551616 := by norm_num
  rw [h64] at hn
  simp only [h64, h63, i64] at h0 ⊢
  split_ifs at h0 ⊢ with hlt
  · omega
  · omega

/-- A successful `create()` that registered the hash passed the check `size >= 0`. -/
theorem create_ok_new_size (now : ctime_t) (s : Store) (f : File) (b : Bool)
    (hok : (File.create now s f).result = .ok b) (hnew : File.exists s f.hash = false) :
    ¬ to_int64 f.size < 0 := by
  intro hneg
  unfold File.create at hok
  by_cases h1 : is_nil f.experiment = true
  · simp [hash_empty, h1] at hok
  by_cases h2 : f.size = 0
  · simp [hash_empty, h1, h2] at hok
  simp only [hash_empty, h1, h2, if_false, Bool.false_eq_true] at hok
  cases hr : f.role with
  | none => simp [hr] at hok
  | some role =>
    simp only [hr, create_content_of_new now s f role hnew] at hok
    have hi : insert_files s f.hash (to_int64 f.size) f.original_name (some f.experiment)
        f.owner (some (f.ctime.getD now)) f.metadata = .error .sqlite_failed := by
      unfold insert_files
      split_ifs <;> rfl
    simp [hi] at hok

/-- After a successful `create()` for a hash that had a content record, `load()` of that
hash on a fresh handle of the same experiment returns role and path of the new mapping and
the fields of the first content record of that hash. -/
theorem load_after_create_existing (now : ctime_t) (s : Store) (f : File) (b : Bool)
    (hok : (File.create now s f).result = .ok b) (hex : File.exists s f.hash = true) :
    ∃ c, (s.files.filter (fun c => f.hash == c.hash)).head? = some c ∧
      File.loaded (File.create now s f).db f.experiment f.hash = .ok
        { experiment := f.experiment
          hash := f.hash
          size := to_size c.size
          ctime := c.ctime
          original_name := get_column_str c.name
          path := get_column_str f.path
          creator_uuid := c.creator
          owner := get_column_str c.owner
          metadata := get_column_str c.metadata
          role := f.role } := by
  obtain ⟨hE, _, _, hmap, role, hr, hdb⟩ := create_ok now s f b hok
  have hfil : s.file_map.filter (fun m => m.hash == f.hash && m.uuid == f.experiment) = [] := by
    rw [List.filter_eq_nil_iff]
    rw [List.countP_eq_zero] at hmap
    exact hmap
  obtain ⟨c0, hc0, hc0h⟩ := (exists_eq_true_iff s f.hash).1 hex
  cases hhead : (s.files.filter (fun c => f.hash == c.hash)).head? with
  | none =>
    rw [List.head?_eq_none_iff, List.filter_eq_nil_iff] at hhead
    have := hhead c0 hc0
    simp [hc0h] at this
  | some c =>
    refine ⟨c, rfl, ?_⟩
    rw [List.head?_eq_some_iff] at hhead
    obtain ⟨tl, htl⟩ := hhead
    unfold File.loaded File.load
    simp only [File.empty, hE, Bool.false_eq_true, if_false]
    rw [hdb]
    simp only [load_rows, hex, if_true, List.filter_append, hfil,
      List.nil_append, List.filter_cons, List.filter_nil, beq_self_eq_true, Bool.and_self,
      List.flatMap_cons, List.flatMap_nil, htl, List.map_cons,
      List.append_nil, List.head?_cons, hr, List.cons_append]

/-- C15 as stated fails. First, a handle with the empty string as owner: `create()` returns
true, and `load()` on a fresh handle returns an absent owner. Second, a handle of
experiment 2 for hash 100, which experiment 1 registered with size 1 and no owner, with size
7 and owner "bob": `create()` returns false, and `load()` returns size 1 and no owner. -/
theorem create_load_not_identical :
    (File.create 5 two_experiments
      { new_file 1 100 1 role_t.input with owner := some "" }).result = .ok true ∧
    (File.loaded (File.create 5 two_experiments
      { new_file 1 100 1 role_t.input with owner := some "" }).db 1 100).map
        (fun g => g.owner) = .ok none ∧
    (File.create 6 linked_db
      { new_file 2 100 7 role_t.input with owner := some "bob" }).result = .ok false ∧
    (File.loaded (File.create 6 linked_db
      { new_file 2 100 7 role_t.input with owner := some "bob" }).db 2 100).map
        (fun g => (g.size, g.owner)) = .ok (1, none) := by
  decide

/-- C15 amended. After a successful `create()` of a handle (its size within `size_t`),
`load()` of the hash on a fresh handle of the same experiment succeeds and returns the
experiment, hash and role of the handle and its path as `get_column_str` decodes it. When
`create()` returned true it also returns the size of the handle and its original name,
owner and metadata as decoded; when it returned false these four are the ones of the
content record that existed. Decoding returns an absent value and a non-empty string
unchanged and the empty string as absent. -/
theorem create_load_roundtrip (now : ctime_t) (s : Store) (f : File) (b : Bool)
    (hok : (File.create now s f).result = .ok b) (hsz : f.size < 2 ^ 64) :
    (∃ g, File.loaded (File.create now s f).db f.experiment f.hash = .ok g ∧
      g.experiment = f.experiment ∧ g.hash = f.hash ∧ g.role = f.role ∧
      g.path = get_column_str f.path ∧
      (b = true → g.size = f.size ∧
        g.original_name = get_column_str f.original_name ∧
        g.owner = get_column_str f.owner ∧
        g.metadata = get_column_str f.metadata) ∧
      (b = false → ∃ c, (s.files.filter (fun c => f.hash == c.hash)).head? = some c ∧
        g.size = to_size c.size ∧
        g.original_name = get_column_str c.name ∧
        g.owner = get_column_str c.owner ∧
        g.metadata = get_column_str c.metadata)) ∧
    (∀ v : Option String, v ≠ some "" → get_column_str v = v) ∧
    get_column_str (some "") = none := by
  refine ⟨?_, fun v => (get_column_str_eq v).1, rfl⟩
  have hb := (create_ok now s f b hok).2.2.1
  cases hex : File.exists s f.hash
  · have hl := load_after_create_new now s f b hok hex
    have hs := to_size_to_int64 f.size hsz (create_ok_new_size now s f b hok hex)
    refine ⟨_, hl, rfl, rfl, rfl, rfl, ?_, ?_⟩
    · intro _
      exact ⟨hs, rfl, rfl, rfl⟩
    · intro hbf
      rw [hex] at hb
      rw [hb] at hbf
      cases hbf
  · obtain ⟨c, hc, hl⟩ := load_after_create_existing now s f b hok hex
    refine ⟨_, hl, rfl, rfl, rfl, rfl, ?_, ?_⟩
    · intro hbt
      rw [hex] at hb
      rw [hb] at hbt
      cases hbt
    · intro _
      exact ⟨c, hc, rfl, rfl, rfl, rfl⟩

/-- Witness of the amended C15: the first `create()` of the test scenario. -/
theorem create_load_roundtrip_witness :
    ∃ g, File.loaded (File.create 5 two_experiments (new_file 1 100 1 role_t.input)).db
        (new_file 1 100 1 role_t.input).experiment (new_file 1 100 1 role_t.input).hash =
          .ok g ∧
      g.experiment = 1 ∧ g.hash = 100 ∧ g.role = some role_t.input :=
  match (create_load_roundtrip 5 two_experiments (new_file 1 100 1 role_t.input) true
    (by decide) (by decide)).1 with
  | ⟨g, hg, h1, h2, h3, _⟩ => ⟨g, hg, h1, h2, h3⟩

/-! ## C16: `update()` writes to the shared content record -/

/-- The rows of the join after `UPDATE files`: the same rows, with name, owner and
metadata replaced in the content records of the hash. -/
theorem load_rows_update (s : Store) (n o md : Option String) (h x : hash_t) (e : uuid) :
    load_rows (update_files s n o md h) x e =
      (load_rows s x e).map (fun p => (p.1,
        if p.2.hash == h then { p.2 with name := n, owner := o, metadata := md } else p.2)) := by
  unfold load_rows update_files
  simp only
  generalize s.file_map.filter (fun m => m.hash == x && m.uuid == e) = l
  induction l with
  | nil => rfl
  | cons m rest ih =>
    simp only [List.flatMap_cons, List.map_append, ih]
    congr 1
    rw [List.filter_map, List.map_map, List.map_map]
    congr 1
    apply List.filter_congr
    intro c _
    simp only [Function.comp]
    split_ifs <;> rfl

/-- The content record of a row of the join has the hash that was asked for. -/
theorem load_rows_hash (s : Store) (x : hash_t) (e : uuid) (p : MapRow × FileRow)
    (hp : p ∈ load_rows s x e) : p.2.hash = x := by
  simp only [load_rows, List.mem_flatMap, List.mem_filter, List.mem_map, Bool.and_eq_true,
    beq_iff_eq] at hp
  obtain ⟨m, ⟨_, hmh, _⟩, c, ⟨_, hch⟩, rfl⟩ := hp
  rw [← hch, hmh]

/-- C16 as stated fails for the empty string. In `shared_db` hash 100 is mapped by
experiments 1 and 2; `update()` on the handle of experiment 1 carrying the empty string as
owner is followed by a `load(100)` from experiment 2 that returns an absent owner. -/
theorem update_load_not_identical :
    ({ in_100 with owner := some "" } : File).owner = some "" ∧
    (File.loaded (File.update shared_db { in_100 with owner := some "" }).db 2 100).map
      (fun g => g.owner) = .ok none := by
  decide

/-- C16 amended. `update()` always returns and leaves the handle as it is. In the database
only table `files` changes, and there only name, owner and metadata of the content records
with the hash of the handle, which become those of the handle: hash, size, creator and
creation time of every content record and every mapping row stay. Every `load()` of that
hash that succeeded before, from whichever experiment, succeeds afterwards and returns the
same fields except original name, owner and metadata, which are those of the handle as
`get_column_str` decodes them: unchanged when absent or non-empty, absent when empty. -/
theorem update_shared (s : Store) (f : File) :
    (File.update s f).result = .ok () ∧
    (File.update s f).file = f ∧
    (File.update s f).db.projects = s.projects ∧
    (File.update s f).db.experiments = s.experiments ∧
    (File.update s f).db.file_map = s.file_map ∧
    (File.update s f).db.files = s.files.map (fun c =>
      if c.hash == f.hash then
        { c with name := f.original_name, owner := f.owner, metadata := f.metadata }
      else c) ∧
    (∀ g r : File, File.load s g f.hash = .ok r →
      File.load (File.update s f).db g f.hash = .ok
        { r with
          original_name := get_column_str f.original_name
          owner := get_column_str f.owner
          metadata := get_column_str f.metadata }) ∧
    (∀ v : Option String, v ≠ some "" → get_column_str v = v) ∧
    get_column_str (some "") = none := by
  refine ⟨rfl, rfl, rfl, rfl, rfl, rfl, ?_, fun v => (get_column_str_eq v).1, rfl⟩
  intro g r hr
  unfold File.load at hr ⊢
  by_cases hn : is_nil g.experiment = true
  · simp [hn] at hr
  simp only [hn, Bool.false_eq_true, if_false] at hr ⊢
  simp only [File.update, load_rows_update, List.head?_map]
  cases hh : (load_rows s f.hash g.experiment).head? with
  | none => simp [hh] at hr
  | some p =>
    obtain ⟨m, c⟩ := p
    have hmem : (m, c) ∈ load_rows s f.hash g.experiment := by
      rw [List.head?_eq_some_iff] at hh
      obtain ⟨tl, htl⟩ := hh
      rw [htl]
      exact List.mem_cons_self _ _
    have hch : c.hash = f.hash := load_rows_hash s f.hash g.experiment (m, c) hmem
    simp only [hh, Except.ok.injEq] at hr
    subst hr
    simp [hch]

/-- Witness of the amended C16 on `shared_db`: experiment 1 sets the owner "new owner", and
experiment 2 reads it. -/
theorem update_shared_witness :
    File.load (File.update shared_db { in_100 with owner := some "new owner" }).db
      (File.empty 2) 100 = .ok
        { experiment := 2, hash := 100, size := 1, ctime := some 5, original_name := none,
          path := none, creator_uuid := some 1, owner := some "new owner",
          metadata := none, role := some role_t.input } :=
  (update_shared shared_db { in_100 with owner := some "new owner" }).2.2.2.2.2.2.1
    (File.empty 2)
    { experiment := 2, hash := 100, size := 1, ctime := some 5, original_name := none,
      path := none, creator_uuid := some 1, owner := none, metadata := none,
      role := some role_t.input } (by decide)

/-! ## C17: what `list()` returns -/

/-- Under `UNIQUE(uuid, hash)` the mapping rows of the pair of a row are that row alone. -/
theorem filter_pair_unique (l : List MapRow)
    (hu : (l.map (fun m => (m.uuid, m.hash))).Nodup) (m : MapRow) (hm : m ∈ l) :
    l.filter (fun x => x.hash == m.hash && x.uuid == m.uuid) = [m] := by
  induction l with
  | nil => cases hm
  | cons a rest ih =>
    rw [List.map_cons, List.nodup_cons] at hu
    obtain ⟨ha, hrest⟩ := hu
    rcases List.mem_cons.1 hm with rfl | hm
    · have hnil : rest.filter (fun x => x.hash == m.hash && x.uuid == m.uuid) = [] := by
        rw [List.filter_eq_nil_iff]
        intro x hx hp
        simp only [Bool.and_eq_true, beq_iff_eq] at hp
        apply ha
        rw [List.mem_map]
        exact ⟨x, hx, by rw [hp.1, hp.2]⟩
      simp [List.filter_cons, hnil]
    · have hne : ¬ (a.hash = m.hash ∧ a.uuid = m.uuid) := by
        rintro ⟨h1, h2⟩
        apply ha
        rw [List.mem_map]
        exact ⟨m, hm, by rw [h1, h2]⟩
      have hf : (a.hash == m.hash && a.uuid == m.uuid) = false := by
        by_cases h1 : a.hash = m.hash <;> by_cases h2 : a.uuid = m.uuid
        · exact absurd ⟨h1, h2⟩ hne
        · simp [h1, h2]
        · simp [h1, h2]
        · simp [h1, h2]
      simp only [List.filter_cons, hf, Bool.false_eq_true, if_false]
      exact ih hrest hm

/-- Under the constraints of the schema, the handle loaded for a mapping row of a non-nil
experiment is made of that row and of a content record with its hash. -/
theorem loaded_of_row (s : Store) (exp : uuid) (m : MapRow)
    (hfk : fk_file_map_hash s = true) (hun : unique_file_map s = true)
    (hE : is_nil exp = false) (hm : m ∈ s.file_map) (hu : m.uuid = exp) :
    ∃ c ∈ s.files, c.hash = m.hash ∧
      File.loaded s exp m.hash = .ok (File.of_row exp m c) := by
  unfold unique_file_map at hun
  simp only [decide_eq_true_eq] at hun
  have hfil := filter_pair_unique s.file_map hun m hm
  rw [hu] at hfil
  obtain ⟨c0, hc0, hc0h⟩ := (fk_file_map_hash_iff s).1 hfk m hm
  cases hhead : (s.files.filter (fun c => m.hash == c.hash)).head? with
  | none =>
    rw [List.head?_eq_none_iff, List.filter_eq_nil_iff] at hhead
    have := hhead c0 hc0
    simp [hc0h] at this
  | some c =>
    have hcmem : c ∈ s.files.filter (fun c => m.hash == c.hash) := by
      rw [List.head?_eq_some_iff] at hhead
      obtain ⟨tl, htl⟩ := hhead
      rw [htl]
      exact List.mem_cons_self _ _
    rw [List.mem_filter] at hcmem
    refine ⟨c, hcmem.1, (beq_iff_eq.1 hcmem.2).symm, ?_⟩
    rw [List.head?_eq_some_iff] at hhead
    obtain ⟨tl, htl⟩ := hhead
    unfold File.loaded File.load
    simp only [File.empty, hE, Bool.false_eq_true, if_false, load_rows, hfil,
      List.flatMap_cons, List.flatMap_nil, htl, List.map_cons, List.append_nil,
      List.head?_cons, File.of_row]

/-- The loop of `list()` over rows of the experiment, under the constraints of the
schema. -/
theorem list_collect_rows (s : Store) (exp : uuid) (rows : List MapRow)
    (hfk : fk_file_map_hash s = true) (hun : unique_file_map s = true)
    (hE : is_nil exp = false) (hrows : ∀ m ∈ rows, m ∈ s.file_map ∧ m.uuid = exp) :
    ∃ l, collect (fun hashi : hash_t × Option String =>
        match File.loaded s exp hashi.1 with
        | .error e => .error e
        | .ok g => .ok { g with path := hashi.2 })
        (rows.map (fun m => (m.hash, get_column_str m.path))) = .ok l ∧
      List.Forall₂ (fun (m : MapRow) (g : File) =>
        ∃ c ∈ s.files, c.hash = m.hash ∧ g = File.of_row exp m c) rows l := by
  induction rows with
  | nil => exact ⟨[], rfl, List.Forall₂.nil⟩
  | cons m rest ih =>
    obtain ⟨l, hl, hrel⟩ := ih (fun x hx => hrows x (List.mem_cons_of_mem _ hx))
    obtain ⟨hm, hu⟩ := hrows m (List.mem_cons_self _ _)
    obtain ⟨c, hc, hch, hload⟩ := loaded_of_row s exp m hfk hun hE hm hu
    refine ⟨File.of_row exp m c :: l, ?_, List.Forall₂.cons ⟨c, hc, hch, rfl⟩ hrel⟩
    simp only [List.map_cons, collect, hload, hl]
    rfl

/-- The clause `ORDER BY role` permutes the rows and puts them in non-decreasing order of
role id. -/
theorem order_by_role_sorted (rows : List MapRow) :
    (order_by_role rows).Perm rows ∧
    (order_by_role rows).Pairwise (fun a b => a.role.toInt ≤ b.role.toInt) := by
  haveI : IsTotal MapRow (fun a b => a.role.toInt ≤ b.role.toInt) :=
    ⟨fun a b => le_total _ _⟩
  haveI : IsTrans MapRow (fun a b => a.role.toInt ≤ b.role.toInt) :=
    ⟨fun _ _ _ h1 h2 => le_trans h1 h2⟩
  exact ⟨List.perm_insertionSort _ _, List.sorted_insertionSort _ _⟩

theorem forall₂_pairwise {α β : Type} {R : α → β → Prop} {P : α → α → Prop}
    {Q : β → β → Prop} (hq : ∀ a b g h, R a g → R b h → P a b → Q g h) :
    ∀ {l1 : List α} {l2 : List β}, List.Forall₂ R l1 l2 → l1.Pairwise P → l2.Pairwise Q := by
  intro l1 l2 h
  induction h with
  | nil => intro _; exact List.Pairwise.nil
  | @cons a g l1 l2 hag hrest ih =>
    intro hp
    rw [List.pairwise_cons] at hp ⊢
    refine ⟨?_, ih hp.2⟩
    intro h hh
    obtain ⟨b, hb, hbh⟩ := forall₂_mem_right hrest h hh
    exact hq a b g h hag hbh (hp.1 b hb)

/-- C17 as stated fails. Experiment 1 registered input 100 with the empty string as path:
the mapping row holds the path "", and the handle that `list()` returns for the row has no
path. -/
theorem list_path_not_identical :
    empty_path_db.file_map.map (fun m => (m.uuid, m.hash, m.path)) = [(1, 100, some "")] ∧
    (File.list empty_path_db (File.empty 1) none).map
      (fun l => l.map (fun g => (g.hash, g.path))) = .ok [(100, none)] ∧
    (File.list empty_path_db (File.empty 1) (some role_t.input)).map
      (fun l => l.map (fun g => (g.hash, g.path))) = .ok [(100, none)] := by
  decide

/-- C17 amended. Under the constraints of the schema (every mapping row references a content
record, the pair (uuid, hash) is unique) and for a handle with a non-nil experiment E:
`list()` returns one handle per mapping row of E and none else, in the order of a
permutation of these rows that is non-decreasing in the role id (input 1, output 2,
note 3, program 4); each handle carries E, the hash and the role of its row, the path of
the row as `get_column_str` decodes it (an absent path and a non-empty path unchanged, the
empty string as absent) and the fields of the content record of that hash as `load()`
decodes them. `list(r)` returns in the same way the mapping rows of E whose role is `r`, in
rowid order. -/
theorem list_mappings (s : Store) (f : File)
    (hfk : fk_file_map_hash s = true) (hun : unique_file_map s = true)
    (hE : is_nil f.experiment = false) :
    (∃ l, File.list s f none = .ok l ∧
      List.Forall₂ (fun (m : MapRow) (g : File) =>
          ∃ c ∈ s.files, c.hash = m.hash ∧ g = File.of_row f.experiment m c)
        (order_by_role (s.file_map.filter (fun m => m.uuid == f.experiment))) l ∧
      l.Pairwise (fun a b =>
        ∀ ra rb, a.role = some ra → b.role = some rb → ra.toInt ≤ rb.toInt)) ∧
    (order_by_role (s.file_map.filter (fun m => m.uuid == f.experiment))).Perm
      (s.file_map.filter (fun m => m.uuid == f.experiment)) ∧
    (∀ r : role_t, ∃ l, File.list s f (some r) = .ok l ∧
      List.Forall₂ (fun (m : MapRow) (g : File) =>
          ∃ c ∈ s.files, c.hash = m.hash ∧ g = File.of_row f.experiment m c)
        (s.file_map.filter (fun m => decide (m.uuid = f.experiment ∧ m.role = r))) l) := by
  have hsorted := order_by_role_sorted (s.file_map.filter (fun m => m.uuid == f.experiment))
  refine ⟨?_, hsorted.1, ?_⟩
  · obtain ⟨l, hl, hrel⟩ := list_collect_rows s f.experiment
      (order_by_role (s.file_map.filter (fun m => m.uuid == f.experiment))) hfk hun hE (by
        intro m hm
        have := (hsorted.1.mem_iff).1 hm
        rw [List.mem_filter] at this
        exact ⟨this.1, by simpa using this.2⟩)
    refine ⟨l, ?_, hrel, ?_⟩
    · unfold File.list
      simp only [hE, Bool.false_eq_true, if_false]
      exact hl
    · refine forall₂_pairwise ?_ hrel hsorted.2
      intro a b g h hag hbh hab ra rb hra hrb
      obtain ⟨_, _, _, rfl⟩ := hag
      obtain ⟨_, _, _, rfl⟩ := hbh
      simp only [File.of_row, Option.some.injEq] at hra hrb
      rw [← hra, ← hrb]
      exact hab
  · intro r
    obtain ⟨l, hl, hrel⟩ := list_collect_rows s f.experiment
      (s.file_map.filter (fun m => decide (m.uuid = f.experiment ∧ m.role = r))) hfk hun hE
      (by
        intro m hm
        rw [List.mem_filter] at hm
        have h2 := hm.2
        simp only [decide_eq_true_eq] at h2
        exact ⟨hm.1, h2.1⟩)
    refine ⟨l, ?_, hrel⟩
    unfold File.list
    simp only [hE, Bool.false_eq_true, if_false, list_rows]
    exact hl

/-- Witness of C17: the files of experiment 2 in the linked database, the two inputs 200
and 101 before the output 201. -/
theorem list_mappings_witness :
    (File.list linked_db (File.empty 2) none).map (fun l => l.map (fun g => (g.hash, g.role))) =
      .ok [(200, some role_t.input), (101, some role_t.input), (201, some role_t.output)] ∧
    ∃ l, File.list linked_db (File.empty 2) (some role_t.input) = .ok l ∧
      List.Forall₂ (fun (m : MapRow) (g : File) =>
          ∃ c ∈ linked_db.files, c.hash = m.hash ∧ g = File.of_row (File.empty 2).experiment m c)
        (linked_db.file_map.filter
          (fun m => decide (m.uuid = (File.empty 2).experiment ∧ m.role = role_t.input))) l :=
  ⟨by decide,
   (list_mappings linked_db (File.empty 2) (by decide) (by decide) (by decide)).2.2
     role_t.input⟩

/-! ## C18: project names -/

/-- C18, the code at a failing input. A database holds project 9 named "proje";
`Project::create("proje")` with the fresh uuid 10 returns, and the database holds two
projects named "proje". Table `projects` has no uniqueness constraint on `name`. -/
theorem project_create_duplicate_name :
    (Project.create 9 { projects := [], experiments := [], files := [], file_map := [] }
      Project.empty "proje").db.projects.map (fun p => (p.uuid, p.name)) = [(9, "proje")] ∧
    (Project.create 10
      (Project.create 9 { projects := [], experiments := [], files := [], file_map := [] }
        Project.empty "proje").db
      Project.empty "proje").result = .ok () ∧
    same_name_db.projects.map (fun p => (p.uuid, p.name)) = [(9, "proje"), (10, "proje")] := by
  decide

/-! ## C19: experiment names -/

/-- When `Experiment::create` returns: the project of the handle is set and exists, the
fresh uuid is not nil and not taken, the name is not taken in the project; one row is
appended and the handle holds the new experiment. -/
theorem experiment_create_ok (new_uuid : uuid) (s : Store) (e : Experiment) (n : String)
    (hp : is_nil e.project = false) (hpe : ∃ p ∈ s.projects, p.uuid = e.project)
    (hn : ∀ x ∈ s.experiments, ¬ (x.project = e.project ∧ x.name = n))
    (hu : is_nil new_uuid = false) (hfresh : ∀ x ∈ s.experiments, x.uuid ≠ new_uuid) :
    Experiment.create new_uuid s e n =
      ⟨.ok (),
       { e with uuid := new_uuid, name := n, metadata := none, owner := none, ctime := none,
                locked := false },
       { s with experiments := s.experiments ++
          [{ uuid := new_uuid, project := e.project, name := n, metadata := none,
             owner := none, ctime := none, journal := none, locked := some false }] }⟩ := by
  have h1 : s.experiments.any (fun x => x.uuid == new_uuid) = false := by
    rw [List.any_eq_false]
    intro x hx
    simpa using hfresh x hx
  have h2 : s.projects.any (fun p => p.uuid == e.project) = true := by
    rw [List.any_eq_true]
    obtain ⟨p, hp1, hp2⟩ := hpe
    exact ⟨p, hp1, by simpa using hp2⟩
  have h3 : s.experiments.any (fun x => x.project == e.project && x.name == n) = false := by
    rw [List.any_eq_false]
    intro x hx
    have := hn x hx
    simpa using this
  simp [Experiment.create, insert_experiments, hp, hu, h1, h2, h3]

/-- C19. When the project of the handle has an experiment named `n`,
`Experiment::create(n)` throws and leaves database and handle as they were. The same name
is accepted on a handle bound to another project (an existing one without an experiment of
that name), and another name (not taken in the project) is accepted on the handle itself:
each call returns and appends one experiment row. The fresh uuid is taken to be non-nil
and unused. -/
theorem experiment_name_unique (new_uuid : uuid) (s : Store) (e : Experiment) (n : String)
    (hdup : ∃ x ∈ s.experiments, x.project = e.project ∧ x.name = n) :
    ((∃ err, (Experiment.create new_uuid s e n).result = .error err) ∧
      (Experiment.create new_uuid s e n).db = s ∧
      (Experiment.create new_uuid s e n).experiment = e) ∧
    (∀ e2 : Experiment, e2.project ≠ e.project → is_nil e2.project = false →
      (∃ p ∈ s.projects, p.uuid = e2.project) →
      (∀ x ∈ s.experiments, ¬ (x.project = e2.project ∧ x.name = n)) →
      is_nil new_uuid = false → (∀ x ∈ s.experiments, x.uuid ≠ new_uuid) →
        (Experiment.create new_uuid s e2 n).result = .ok () ∧
        (Experiment.create new_uuid s e2 n).db = { s with experiments := s.experiments ++
          [{ uuid := new_uuid, project := e2.project, name := n, metadata := none,
             owner := none, ctime := none, journal := none, locked := some false }] }) ∧
    (∀ n2 : String, n2 ≠ n → is_nil e.project = false →
      (∃ p ∈ s.projects, p.uuid = e.project) →
      (∀ x ∈ s.experiments, ¬ (x.project = e.project ∧ x.name = n2)) →
      is_nil new_uuid = false → (∀ x ∈ s.experiments, x.uuid ≠ new_uuid) →
        (Experiment.create new_uuid s e n2).result = .ok () ∧
        (Experiment.create new_uuid s e n2).db = { s with experiments := s.experiments ++
          [{ uuid := new_uuid, project := e.project, name := n2, metadata := none,
             owner := none, ctime := none, journal := none, locked := some false }] }) := by
  refine ⟨?_, ?_, ?_⟩
  · have h3 : s.experiments.any (fun x => x.project == e.project && x.name == n) = true := by
      rw [List.any_eq_true]
      obtain ⟨x, hx, hxp, hxn⟩ := hdup
      exact ⟨x, hx, by simp [hxp, hxn]⟩
    unfold Experiment.create
    by_cases hp : is_nil e.project = true
    · simp [hp]
    by_cases hu : is_nil new_uuid = true
    · simp [hp, hu]
    have hins : insert_experiments s n new_uuid e.project = .error .sqlite_failed := by
      unfold insert_experiments
      split_ifs <;> rfl
    simp [hp, hu, hins]
  · intro e2 _ hp hpe hn hu hfresh
    rw [experiment_create_ok new_uuid s e2 n hp hpe hn hu hfresh]
    exact ⟨rfl, rfl⟩
  · intro n2 _ hp hpe hn hu hfresh
    rw [experiment_create_ok new_uuid s e n2 hp hpe hn hu hfresh]
    exact ⟨rfl, rfl⟩

/-- Witness of C19: project 9 of `two_projects` has the experiment "exp0"; a second
`create("exp0")` under project 9 throws. -/
theorem experiment_name_unique_witness :
    ∃ err, (Experiment.create 2 two_projects (Experiment.empty 9) "exp0").result =
      .error err :=
  (experiment_name_unique 2 two_projects (Experiment.empty 9) "exp0"
    ⟨experiment_row 1 9 "exp0", by decide, rfl, rfl⟩).1.1

/-- The other two cases of C19 on `two_projects`: "exp0" under project 8 and "exp0new"
under project 9 are both accepted. -/
theorem experiment_name_other_cases :
    (Experiment.create 2 two_projects (Experiment.empty 8) "exp0").result = .ok () ∧
    (Experiment.create 2 two_projects (Experiment.empty 9) "exp0new").result = .ok () := by
  decide

/-! ## C20: `Project::update()` followed by `load()` -/

theorem head?_of_forall {α : Type} {P : α → Prop} :
    ∀ (l : List α), l ≠ [] → (∀ x ∈ l, P x) → ∃ x, l.head? = some x ∧ P x := by
  intro l hne hall
  cases l with
  | nil => exact absurd rfl hne
  | cons a rest => exact ⟨a, rfl, hall a (List.mem_cons_self _ _)⟩

/-- C20 as stated fails. First, the empty string: the handle of project 9 "proje" with the
empty string as metadata is updated, and `load(uuid)` on a fresh handle returns absent
metadata. Second, in `same_name_db`, where projects 9 and 10 are both named "proje", the
handle of project 10 with metadata "m" is updated, and `load("proje")` returns project 9
without metadata. -/
theorem project_reload_not_identical :
    (Project.update two_experiments
      { uuid := 9, name := "proje", metadata := some "", owner := some "theowner",
        ctime := some 1 }).result = .ok () ∧
    Project.load_uuid (Project.update two_experiments
      { uuid := 9, name := "proje", metadata := some "", owner := some "theowner",
        ctime := some 1 }).db Project.empty 9 = .ok
      { uuid := 9, name := "proje", metadata := none, owner := some "theowner",
        ctime := some 1 } ∧
    Project.load_name (Project.update same_name_db
      { uuid := 10, name := "proje", metadata := some "m", owner := none,
        ctime := none }).db Project.empty "proje" = .ok
      { uuid := 9, name := "proje", metadata := none, owner := none, ctime := none } := by
  decide

/-- C20 amended. For a handle whose uuid is not nil and is the uuid of a project row, with
a non-empty name: `update()` returns, and `load(uuid)` on any handle returns the uuid, the
name and the creation time of the updated handle and its metadata and owner as
`get_column_str` decodes them (unchanged when absent or non-empty, absent when empty).
When no other project bears the name, `load(name)` returns the same. -/
theorem project_update_reload (s : Store) (p fresh : Project)
    (hu : is_nil p.uuid = false) (hex : ∃ r ∈ s.projects, r.uuid = p.uuid)
    (hname : p.name ≠ "") :
    (Project.update s p).result = .ok () ∧
    Project.load_uuid (Project.update s p).db fresh p.uuid = .ok
      { uuid := p.uuid, name := p.name, metadata := get_column_str p.metadata,
        owner := get_column_str p.owner, ctime := p.ctime } ∧
    ((∀ r ∈ s.projects, r.name = p.name → r.uuid = p.uuid) →
      Project.load_name (Project.update s p).db fresh p.name = .ok
        { uuid := p.uuid, name := p.name, metadata := get_column_str p.metadata,
          owner := get_column_str p.owner, ctime := p.ctime }) ∧
    (∀ v : Option String, v ≠ some "" → get_column_str v = v) ∧
    get_column_str (some "") = none := by
  have hdb : (Project.update s p).db =
      update_projects s p.name p.metadata p.owner p.ctime p.uuid := by
    simp [Project.update, hu]
  obtain ⟨r0, hr0, hr0u⟩ := hex
  have hmem0 :
      ({ r0 with
          name := p.name
          metadata := p.metadata
          owner := p.owner
          ctime := p.ctime } : ProjectRow) ∈
        (update_projects s p.name p.metadata p.owner p.ctime p.uuid).projects := by
    unfold update_projects
    simp only [List.mem_map]
    exact ⟨r0, hr0, by simp [hr0u]⟩
  refine ⟨by simp [Project.update, hu], ?_, ?_, fun v => (get_column_str_eq v).1, rfl⟩
  · rw [hdb]
    obtain ⟨x, hx, hxn, hxm, hxo, hxc⟩ := head?_of_forall
      (P := fun x : ProjectRow => x.name = p.name ∧ x.metadata = p.metadata ∧
        x.owner = p.owner ∧ x.ctime = p.ctime)
      ((update_projects s p.name p.metadata p.owner p.ctime p.uuid).projects.filter
        (fun r => r.uuid == p.uuid))
      (by
        intro hnil
        rw [List.filter_eq_nil_iff] at hnil
        have := hnil _ hmem0
        simp [hr0u] at this)
      (by
        intro x hx
        rw [List.mem_filter] at hx
        obtain ⟨hx1, hx2⟩ := hx
        unfold update_projects at hx1
        simp only [List.mem_map] at hx1
        obtain ⟨r, _, rfl⟩ := hx1
        by_cases hru : r.uuid = p.uuid
        · simp [hru]
        · simp [hru] at hx2)
    unfold Project.load_uuid
    simp only [hu, Bool.false_eq_true, if_false, hx, hxn, hxm, hxo, hxc]
    simp [get_column_str, hname]
  · intro huniq
    rw [hdb]
    obtain ⟨x, hx, hxu, hxm, hxo, hxc⟩ := head?_of_forall
      (P := fun x : ProjectRow => x.uuid = p.uuid ∧ x.metadata = p.metadata ∧
        x.owner = p.owner ∧ x.ctime = p.ctime)
      ((update_projects s p.name p.metadata p.owner p.ctime p.uuid).projects.filter
        (fun r => r.name == p.name))
      (by
        intro hnil
        rw [List.filter_eq_nil_iff] at hnil
        have := hnil _ hmem0
        simp at this)
      (by
        intro x hx
        rw [List.mem_filter] at hx
        obtain ⟨hx1, hx2⟩ := hx
        unfold update_projects at hx1
        simp only [List.mem_map] at hx1
        obtain ⟨r, hr, rfl⟩ := hx1
        by_cases hru : r.uuid = p.uuid
        · simp [hru]
        · simp only [beq_iff_eq, hru, if_false] at hx2
          exact absurd (huniq r hr hx2) hru)
    unfold Project.load_name
    simp only [hx, hxu, hxm, hxo, hxc]

/-- Witness of the amended C20: the update of the test "Can update and reload". -/
theorem project_update_reload_witness :
    Project.load_uuid (Project.update two_experiments
      { uuid := 9, name := "proje", metadata := some "meta", owner := some "theowner",
        ctime := some 1 }).db Project.empty 9 = .ok
      { uuid := 9, name := "proje", metadata := some "meta", owner := some "theowner",
        ctime := some 1 } :=
  (project_update_reload two_experiments
    { uuid := 9, name := "proje", metadata := some "meta", owner := some "theowner",
      ctime := some 1 } Project.empty (by decide) ⟨_, List.mem_cons_self _ _, rfl⟩
    (by decide)).2.1

/-! ## The uniqueness constraint of `file_map` is kept -/

/-- Every call of `create()`, whatever its outcome, keeps the pairs (uuid, hash) of the
mapping rows distinct. -/
theorem create_keeps_unique (now : ctime_t) (s : Store) (f : File)
    (hun : unique_file_map s = true) : unique_file_map (File.create now s f).db = true := by
  unfold unique_file_map at hun ⊢
  simp only [decide_eq_true_eq] at hun ⊢
  rcases create_db now s f with h | ⟨_, _, h⟩ | ⟨b, hb⟩
  · rw [h]; exact hun
  · rw [h]; exact hun
  · obtain ⟨_, _, _, hmap, role, _, hdb⟩ := create_ok now s f b hb
    rw [hdb]
    simp only [List.map_append, List.map_cons, List.map_nil]
    rw [List.nodup_append]
    refine ⟨hun, List.nodup_singleton _, ?_⟩
    intro k hk hk2
    rw [List.mem_singleton] at hk2
    subst hk2
    rw [List.mem_map] at hk
    obtain ⟨m, hm, hmk⟩ := hk
    rw [List.countP_eq_zero] at hmap
    have := hmap m hm
    simp only [Prod.mk.injEq] at hmk
    simp [hmk.1, hmk.2] at this

/-- Every database that calls of `create()` lead to satisfies `UNIQUE(uuid, hash)`. -/
theorem reachable_unique (s : Store) (h : CreateReachable s) : unique_file_map s = true := by
  induction h with
  | fresh s _ hm => simp [unique_file_map, hm]
  | create now s f _ ih => exact create_keeps_unique now s f ih

/-- The statement of `unmap()` keeps the pairs distinct. -/
theorem unmap_keeps_unique (s : Store) (f : File) (hun : unique_file_map s = true) :
    unique_file_map (File.unmap s f).db = true := by
  unfold File.unmap
  cases File.output_is_used s f f.hash with
  | error e => exact hun
  | ok b =>
    cases b with
    | true => exact hun
    | false =>
      unfold unique_file_map at hun ⊢
      simp only [decide_eq_true_eq] at hun ⊢
      exact hun.sublist ((List.filter_sublist _).map _)

/-- The statement of `change_role()` keeps the pairs distinct. -/
theorem change_role_keeps_unique (s : Store) (f : File) (set_role : role_t)
    (hun : unique_file_map s = true) :
    unique_file_map (File.change_role s f set_role).db = true := by
  cases hres : (File.change_role s f set_role).result with
  | error e =>
    rw [((change_role_frame s f set_role).1 e hres).1]
    exact hun
  | ok u =>
    rw [((change_role_frame s f set_role).2 hres).2]
    unfold unique_file_map at hun ⊢
    simp only [decide_eq_true_eq] at hun ⊢
    have : (s.file_map.map (fun m =>
        if m.hash == f.hash && m.uuid == f.experiment then { m with role := set_role }
        else m)).map (fun m => (m.uuid, m.hash)) = s.file_map.map (fun m => (m.uuid, m.hash)) := by
      rw [List.map_map]
      apply List.map_congr_left
      intro m _
      simp only [Function.comp]
      split_ifs <;> rfl
    rw [this]
    exact hun

/-! ## C26: the names of the roles -/

/-- A string that is none of the nine keys is not found in the map of
`string_to_role`. -/
theorem string_to_role_other (t : String)
    (h : t ∉ ["none", "input", "output", "program", "note", "i", "o", "p", "n"]) :
    File.string_to_role t = .error .invalid_role := by
  simp only [List.mem_cons, List.mem_singleton, List.not_mem_nil, or_false, not_or] at h
  obtain ⟨h1, h2, h3, h4, h5, h6, h7, h8, h9⟩ := h
  have b : ∀ k : String, t ≠ k → (t == k) = false := fun k hk => beq_false_of_ne hk
  simp only [File.string_to_role, List.lookup, b _ h1, b _ h2, b _ h3, b _ h4, b _ h5,
    b _ h6, b _ h7, b _ h8, b _ h9]

/-- C26. `string_to_role` returns input for "input" and "i", output for "output" and "o",
program for "program" and "p", note for "note" and "n", none for "none", and throws
"Invalid role" for every other string; it returns `nixpath` for no string. For each of the
roles none, input, output, note and program, `role_to_string` returns a name that
`string_to_role` maps back to the role. -/
theorem string_to_role_table :
    File.string_to_role "input" = .ok role_t.input ∧
    File.string_to_role "i" = .ok role_t.input ∧
    File.string_to_role "output" = .ok role_t.output ∧
    File.string_to_role "o" = .ok role_t.output ∧
    File.string_to_role "program" = .ok role_t.program ∧
    File.string_to_role "p" = .ok role_t.program ∧
    File.string_to_role "note" = .ok role_t.note ∧
    File.string_to_role "n" = .ok role_t.note ∧
    File.string_to_role "none" = .ok role_t.none ∧
    (∀ t : String,
      t ∉ ["none", "input", "output", "program", "note", "i", "o", "p", "n"] →
        File.string_to_role t = .error .invalid_role) ∧
    (∀ t : String, File.string_to_role t ≠ .ok role_t.nixpath) ∧
    (∀ r : role_t, r ≠ role_t.nixpath →
      ∃ name, File.role_to_string r = .ok name ∧ File.string_to_role name = .ok r) := by
  refine ⟨by decide, by decide, by decide, by decide, by decide, by decide, by decide,
    by decide, by decide, string_to_role_other, ?_, ?_⟩
  · intro t
    by_cases h : t ∈ ["none", "input", "output", "program", "note", "i", "o", "p", "n"]
    · simp only [List.mem_cons, List.mem_singleton, List.not_mem_nil, or_false] at h
      rcases h with h | h | h | h | h | h | h | h | h <;> subst h <;> decide
    · rw [string_to_role_other t h]
      exact fun hc => by cases hc
  · intro r hr
    cases r with
    | none => exact ⟨"none", by decide, by decide⟩
    | input => exact ⟨"input", by decide, by decide⟩
    | output => exact ⟨"output", by decide, by decide⟩
    | note => exact ⟨"note", by decide, by decide⟩
    | program => exact ⟨"program", by decide, by decide⟩
    | nixpath => exact absurd rfl hr

/-- Witness of C26: the string "nixpath" is no key. -/
theorem string_to_role_table_witness :
    File.string_to_role "nixpath" = .error .invalid_role :=
  string_to_role_table.2.2.2.2.2.2.2.2.2.1 "nixpath" (by decide)

/-! ## C28: `create()` is not atomic -/

/-- C28. A handle of experiment 1 with hash 100, size 1 and role `nixpath` (role id 5) in
the database without files: `create()` inserts the content record, the mapping insert is
rejected by the check `role > 0 and role <= 4`, the call throws, and the database is left
with the content record of hash 100 and no mapping row at all. -/
theorem create_not_atomic :
    two_experiments.files = [] ∧
    (File.create 5 two_experiments (new_file 1 100 1 role_t.nixpath)).result =
      .error .sqlite_failed ∧
    (File.create 5 two_experiments (new_file 1 100 1 role_t.nixpath)).db.files.map
      (fun c => c.hash) = [100] ∧
    (File.create 5 two_experiments (new_file 1 100 1 role_t.nixpath)).db.file_map = [] := by
  decide

/-! ## C29: the cached role -/

/-- C29. `change_role()` leaves the handle as it is, whatever its outcome. Hence after a
successful `change_role(output)` on a handle whose role is input, a further `change_role()`
on the handle it left, in whatever database, never throws "File is in use by other
experiment". In `shared_db`, where hash 100 is an input of experiments 1 and 2:
`change_role(output)` on the handle of experiment 1 succeeds; the guard then holds in the
new database, yet `change_role(note)` on the same handle succeeds. -/
theorem change_role_stale_role :
    (∀ (s : Store) (f : File) (r : role_t), (File.change_role s f r).file = f) ∧
    (∀ (s s2 : Store) (f : File) (r2 : role_t), f.role = some role_t.input →
      (File.change_role s f role_t.output).result = .ok () →
        (File.change_role s2 (File.change_role s f role_t.output).file r2).result ≠
          .error .in_use) ∧
    (File.change_role shared_db in_100 role_t.output).result = .ok () ∧
    File.output_is_used (File.change_role shared_db in_100 role_t.output).db
      (File.change_role shared_db in_100 role_t.output).file in_100.hash = .ok true ∧
    (File.change_role (File.change_role shared_db in_100 role_t.output).db
      (File.change_role shared_db in_100 role_t.output).file role_t.note).result = .ok () := by
  have hfile : ∀ (s : Store) (f : File) (r : role_t), (File.change_role s f r).file = f := by
    intro s f r
    cases hres : (File.change_role s f r).result with
    | error e => exact ((change_role_frame s f r).1 e hres).2
    | ok u => exact ((change_role_frame s f r).2 hres).1
  refine ⟨hfile, ?_, by decide, by decide, by decide⟩
  intro s s2 f r2 hr _
  rw [hfile]
  have hne : f.role ≠ some role_t.output := by rw [hr]; decide
  rcases change_role_cases s2 f r2 with ⟨h, _, _⟩ | ⟨h, _, _⟩ | ⟨_, h⟩
  · exact absurd h hne
  · exact absurd h hne
  · rw [h]
    by_cases hn : is_nil f.experiment = true
    · simp [hn]
    · simp only [hn, Bool.false_eq_true, if_false]
      cases hu : update_file_map_role s2 r2 f.hash f.experiment with
      | error e =>
        have := update_file_map_role_error s2 r2 f.hash f.experiment e hu
        subst this
        simp
      | ok s1 => simp

/-- Witness of C29 on `shared_db`. -/
theorem change_role_stale_role_witness :
    (File.change_role linked_db
      (File.change_role shared_db in_100 role_t.output).file role_t.program).result ≠
        .error .in_use :=
  change_role_stale_role.2.1 shared_db linked_db in_100 role_t.program rfl (by decide)

/-! ## C21: `Experiment::load(name)` -/

/-- C21, the code at failing inputs. Project 9 of `two_experiments` has the experiments
"exp0" (uuid 1) and "exp1" (uuid 2). On the handle of "exp0", `load("exp1")` looks up the
name the handle holds: it returns with the new name "exp1" and the uuid 1 of "exp0". On an
empty handle of project 9, whose uuid is nil, `load("exp0")` throws "UUID is nil". On a
handle named "gone", `load("exp1")` throws not found although "exp1" exists. -/
theorem load_name_uses_member_name :
    two_experiments.experiments.map (fun r => (r.project, r.name, r.uuid)) =
      [(9, "exp0", 1), (9, "exp1", 2)] ∧
    Experiment.load_name two_experiments exp0 "exp1" =
      .ok { project := 9, uuid := 1, name := "exp1", metadata := none, owner := none,
            ctime := none, locked := false } ∧
    Experiment.load_name two_experiments (Experiment.empty 9) "exp0" = .error .uuid_is_nil ∧
    Experiment.load_name two_experiments { exp0 with name := "gone" } "exp1" =
      .error .experiment_not_found := by
  decide

/-! ## C24: constructing an experiment handle -/

/-- The constructors that test the project: with a nil project they throw "Experiment not
attached to a project." at their first statement, whatever the database. -/
theorem new_experiment_nil_project (new_uuid : uuid) (s : Store) (n : String) (c : Bool) :
    Experiment.new_named new_uuid s 0 n c = .error .experiment_not_attached ∧
    Experiment.new_empty 0 = .error .experiment_not_attached := by
  constructor
  · simp [Experiment.new_named, is_nil]
  · simp [Experiment.new_empty, is_nil]

/-- C24, the code at a failing input. The constructor `Experiment(db, project, uuid)` with
a project handle whose uuid is nil and the uuid 1 of an experiment of `two_experiments`:
it does not throw; it runs the query of `load(uuid)` and returns the handle of "exp0" with
project 9 taken from the row. -/
theorem new_loaded_ignores_nil_project :
    is_nil 0 = true ∧
    Experiment.new_loaded two_experiments 0 1 = .ok exp0 := by
  decide

/-! ## C22: the handle and the database after `remove()` -/

/-- A successful `Project::remove`: the uuid was set, the `DELETE` ran, the handle was
reset. -/
theorem project_remove_ok (new_uuid : uuid) (s : Store) (p : Project)
    (hok : (Project.remove new_uuid s p).result = .ok ()) :
    is_nil p.uuid = false ∧
    (Project.remove new_uuid s p).db =
      { s with projects := s.projects.filter (fun r => !(r.uuid == p.uuid)) } ∧
    (Project.remove new_uuid s p).project =
      { uuid := new_uuid, name := "", metadata := none, owner := none, ctime := none } := by
  unfold Project.remove at hok ⊢
  by_cases hn : is_nil p.uuid = true
  · simp [hn] at hok
  simp only [hn, Bool.false_eq_true, if_false] at hok ⊢
  cases hd : delete_projects s p.uuid with
  | error e => simp [hd] at hok
  | ok s1 =>
    simp only [hd]
    unfold delete_projects at hd
    split_ifs at hd
    exact ⟨by simp [hn], (Except.ok.inj hd).symm, trivial⟩

/-- A successful `Experiment::remove`: the uuid was set, the `DELETE` ran, the handle was
reset (its project stays). -/
theorem experiment_remove_ok (new_uuid : uuid) (s : Store) (e : Experiment)
    (hok : (Experiment.remove new_uuid s e).result = .ok ()) :
    is_nil e.uuid = false ∧
    (Experiment.remove new_uuid s e).db =
      { s with experiments := s.experiments.filter (fun r => !(r.uuid == e.uuid)) } ∧
    (Experiment.remove new_uuid s e).experiment =
      { e with uuid := new_uuid, name := "", metadata := none, owner := none, ctime := none,
               locked := false } := by
  unfold Experiment.remove at hok ⊢
  by_cases hn : is_nil e.uuid = true
  · simp [hn] at hok
  simp only [hn, Bool.false_eq_true, if_false] at hok ⊢
  cases hd : delete_experiments s e.uuid with
  | error err => simp [hd] at hok
  | ok s1 =>
    simp only [hd]
    unfold delete_experiments at hd
    split_ifs at hd
    exact ⟨by simp [hn], (Except.ok.inj hd).symm, trivial⟩

theorem filter_not_self {α : Type} (l : List α) (p : α → Bool) :
    (l.filter (fun r => !(p r))).filter p = [] := by
  rw [List.filter_eq_nil_iff]
  intro a ha
  have := (List.mem_filter.1 ha).2
  simpa using this

/-- The generator of Boost never returns the nil uuid: the variant bit of byte 8 is
set. -/
theorem random_generator_not_nil (bits : Nat) : is_nil (random_generator bits) = false := by
  have h : (random_generator bits).testBit 63 = true := by
    unfold random_generator
    rw [Nat.testBit_or]
    have h2 : (((0x40 <<< 72) ||| (0x80 <<< 56) : Nat)).testBit 63 = true := by decide
    rw [h2, Bool.or_true]
  unfold is_nil
  cases hz : random_generator bits == 0 with
  | false => rfl
  | true =>
    have h0 : random_generator bits = 0 := by simpa using hz
    rw [h0] at h
    simp at h

/-- The generator returns a uuid it returned before when it draws the same bytes again, and
every version 4 uuid is a value it returns. -/
theorem random_generator_values :
    random_generator 7 = 0x00000000000040008000000000000007 ∧
    random_generator (random_generator 7) = random_generator 7 ∧
    random_generator (2 ^ 128 - 1) = 0xffffffffffff4fffbfffffffffffffff := by
  decide

/-- C22 as stated fails. The project of `drawn_db` has the uuid that the generator made of
the bytes 7. `remove()` on its handle, with the generator drawing the bytes 7 again,
succeeds, and the uuid of the handle is the removed one: `remove()` assigns what the
generator returns and does not compare it with the uuid it removed. -/
theorem remove_redraws_removed_uuid :
    drawn_db.projects.map (fun r => (r.uuid, r.name)) = [(random_generator 7, "proje")] ∧
    drawn_project =
      { uuid := random_generator 7, name := "proje", metadata := none, owner := none,
        ctime := none } ∧
    (Project.remove (random_generator 7) drawn_db drawn_project).result = .ok () ∧
    (Project.remove (random_generator 7) drawn_db drawn_project).db.projects = [] ∧
    (Project.remove (random_generator 7) drawn_db drawn_project).project.uuid =
      drawn_project.uuid := by
  decide

/-- C22 amended. After a successful `remove()` of a project, whatever bytes the generator
draws: the name of the handle is empty, its metadata, owner and creation time are absent,
its uuid is the one the generator returns, which is not nil and which differs from the
removed uuid whenever the generator returns another value than the removed one; no project
row has the removed uuid, and `load()` of the removed uuid throws "Project not found in
database". The same for an experiment, whose locked flag is false and whose `load()` throws
"Experiment not found by name in DB.". -/
theorem remove_resets_handle :
    (∀ (bits : Nat) (s : Store) (p : Project),
      (Project.remove (random_generator bits) s p).result = .ok () →
        (Project.remove (random_generator bits) s p).project.name = "" ∧
        (Project.remove (random_generator bits) s p).project.metadata = none ∧
        (Project.remove (random_generator bits) s p).project.owner = none ∧
        (Project.remove (random_generator bits) s p).project.ctime = none ∧
        (Project.remove (random_generator bits) s p).project.uuid = random_generator bits ∧
        is_nil (Project.remove (random_generator bits) s p).project.uuid = false ∧
        (random_generator bits ≠ p.uuid →
          (Project.remove (random_generator bits) s p).project.uuid ≠ p.uuid) ∧
        (∀ r ∈ (Project.remove (random_generator bits) s p).db.projects, r.uuid ≠ p.uuid) ∧
        (∀ fresh : Project,
          Project.load_uuid (Project.remove (random_generator bits) s p).db fresh p.uuid =
            .error .project_not_found)) ∧
    (∀ (bits : Nat) (s : Store) (e : Experiment),
      (Experiment.remove (random_generator bits) s e).result = .ok () →
        (Experiment.remove (random_generator bits) s e).experiment.name = "" ∧
        (Experiment.remove (random_generator bits) s e).experiment.metadata = none ∧
        (Experiment.remove (random_generator bits) s e).experiment.owner = none ∧
        (Experiment.remove (random_generator bits) s e).experiment.ctime = none ∧
        (Experiment.remove (random_generator bits) s e).experiment.locked = false ∧
        (Experiment.remove (random_generator bits) s e).experiment.uuid =
          random_generator bits ∧
        is_nil (Experiment.remove (random_generator bits) s e).experiment.uuid = false ∧
        (random_generator bits ≠ e.uuid →
          (Experiment.remove (random_generator bits) s e).experiment.uuid ≠ e.uuid) ∧
        (∀ r ∈ (Experiment.remove (random_generator bits) s e).db.experiments,
          r.uuid ≠ e.uuid) ∧
        (∀ fresh : Experiment,
          Experiment.load_uuid (Experiment.remove (random_generator bits) s e).db fresh
            e.uuid = .error .experiment_not_found)) := by
  constructor
  · intro bits s p hok
    obtain ⟨hu, hdb, hp⟩ := project_remove_ok (random_generator bits) s p hok
    rw [hp, hdb]
    refine ⟨rfl, rfl, rfl, rfl, rfl, random_generator_not_nil bits, fun h => h, ?_, ?_⟩
    · intro r hr
      have := (List.mem_filter.1 hr).2
      simpa using this
    · intro fresh
      unfold Project.load_uuid
      simp only [hu, Bool.false_eq_true, if_false, filter_not_self, List.head?_nil]
  · intro bits s e hok
    obtain ⟨hu, hdb, he⟩ := experiment_remove_ok (random_generator bits) s e hok
    rw [he, hdb]
    refine ⟨rfl, rfl, rfl, rfl, rfl, rfl, random_generator_not_nil bits, fun h => h, ?_, ?_⟩
    · intro r hr
      have := (List.mem_filter.1 hr).2
      simpa using this
    · intro fresh
      unfold Experiment.load_uuid
      simp only [hu, Bool.false_eq_true, if_false, filter_not_self, List.head?_nil]

/-- Witness of C22 amended: project 8 of `two_projects` has no experiment and is removed;
the generator draws the bytes 7. -/
theorem remove_resets_handle_witness :
    is_nil (Project.remove (random_generator 7) two_projects
      { uuid := 8, name := "other", metadata := none, owner := none,
        ctime := none }).project.uuid = false :=
  (remove_resets_handle.1 7 two_projects
    { uuid := 8, name := "other", metadata := none, owner := none, ctime := none }
    (by decide)).2.2.2.2.2.1

/-! ## C23: removal with dependents -/

/-- C23. When an experiment row references the uuid of the project handle (and, as the
schema enforces, every experiment row references a project row), `Project::remove` throws
and leaves database and handle as they were. When a mapping row references the uuid of the
experiment handle (and every mapping row references an experiment row),
`Experiment::remove` throws and leaves database and handle as they were. -/
theorem remove_refused :
    (∀ (new_uuid : uuid) (s : Store) (p : Project),
      fk_experiments_project s = true → (∃ e ∈ s.experiments, e.project = p.uuid) →
        (∃ err, (Project.remove new_uuid s p).result = .error err) ∧
        (Project.remove new_uuid s p).db = s ∧
        (Project.remove new_uuid s p).project = p) ∧
    (∀ (new_uuid : uuid) (s : Store) (e : Experiment),
      fk_file_map_uuid s = true → (∃ m ∈ s.file_map, m.uuid = e.uuid) →
        (∃ err, (Experiment.remove new_uuid s e).result = .error err) ∧
        (Experiment.remove new_uuid s e).db = s ∧
        (Experiment.remove new_uuid s e).experiment = e) := by
  constructor
  · intro new_uuid s p hfk ⟨e, he, hep⟩
    unfold fk_experiments_project at hfk
    rw [List.all_eq_true] at hfk
    have h1 : s.projects.any (fun r => r.uuid == p.uuid) = true := by
      rw [← hep]; exact hfk e he
    have h2 : s.experiments.any (fun x => x.project == p.uuid) = true := by
      rw [List.any_eq_true]
      exact ⟨e, he, by simpa using hep⟩
    unfold Project.remove
    by_cases hn : is_nil p.uuid = true
    · simp [hn]
    · simp [hn, delete_projects, h1, h2]
  · intro new_uuid s e hfk ⟨m, hm, hme⟩
    unfold fk_file_map_uuid at hfk
    rw [List.all_eq_true] at hfk
    have h1 : s.experiments.any (fun r => r.uuid == e.uuid) = true := by
      rw [← hme]; exact hfk m hm
    have h2 : s.file_map.any (fun x => x.uuid == e.uuid) = true := by
      rw [List.any_eq_true]
      exact ⟨m, hm, by simpa using hme⟩
    unfold Experiment.remove
    by_cases hn : is_nil e.uuid = true
    · simp [hn]
    · simp [hn, delete_experiments, h1, h2]

/-- Witness of C23: project 9 of `two_projects` has the experiment "exp0". -/
theorem remove_refused_witness :
    (Project.remove 7 two_projects
      { uuid := 9, name := "proje", metadata := none, owner := none,
        ctime := none }).db = two_projects :=
  (remove_refused.1 7 two_projects
    { uuid := 9, name := "proje", metadata := none, owner := none, ctime := none }
    (by decide) ⟨experiment_row 1 9 "exp0", by decide, rfl⟩).2.1

/-- The test "Experiment deletion is blocked": experiment 1 of the linked database has
files. -/
theorem experiment_remove_blocked :
    (Experiment.remove 7 linked_db exp0).result = .error .sqlite_failed ∧
    (Experiment.remove 7 linked_db exp0).experiment = exp0 ∧
    (Experiment.remove 7 linked_db exp0).db = linked_db := by
  decide

/-! ## C25: the journal -/

/-- An absent column and an empty text are both read as the empty journal. -/
theorem journal_decode (v : Option String) :
    (match get_column_str v with
     | some text => text
     | none => "") = v.getD "" := by
  cases v with
  | none => rfl
  | some t =>
    by_cases ht : t = ""
    · subst ht; rfl
    · simp [get_column_str, ht]

theorem head?_filter_map {α : Type} (l : List α) (p : α → Bool) (g : α → α)
    (hp : ∀ a, p (g a) = p a) :
    ((l.map g).filter p).head? = ((l.filter p).head?).map g := by
  rw [List.filter_map]
  have : (p ∘ g) = p := funext hp
  rw [this, List.head?_map]

theorem head?_filter_some {α : Type} (l : List α) (p : α → Bool) (h : ∃ a ∈ l, p a = true) :
    ∃ r, (l.filter p).head? = some r ∧ p r = true := by
  obtain ⟨a, ha, hpa⟩ := h
  cases hh : (l.filter p).head? with
  | none =>
    rw [List.head?_eq_none_iff, List.filter_eq_nil_iff] at hh
    exact absurd hpa (hh a ha)
  | some r =>
    refine ⟨r, rfl, ?_⟩
    rw [List.head?_eq_some_iff] at hh
    obtain ⟨tl, htl⟩ := hh
    have : r ∈ l.filter p := by rw [htl]; exact List.mem_cons_self _ _
    exact (List.mem_filter.1 this).2

/-- The journal of a project by the first row of its uuid. -/
theorem project_get_journal_eq (s : Store) (p : Project) (r : ProjectRow)
    (hu : is_nil p.uuid = false)
    (hr : (s.projects.filter (fun r => r.uuid == p.uuid)).head? = some r) :
    Project.get_journal s p = .ok (r.journal.getD "") := by
  unfold Project.get_journal
  simp only [hu, Bool.false_eq_true, if_false, hr]
  rw [← journal_decode r.journal]
  cases get_column_str r.journal <;> rfl

/-- The journal of an experiment by the first row of its uuid. -/
theorem experiment_get_journal_eq (s : Store) (e : Experiment) (r : ExperimentRow)
    (hu : is_nil e.uuid = false)
    (hr : (s.experiments.filter (fun r => r.uuid == e.uuid)).head? = some r) :
    Experiment.get_journal s e = .ok (r.journal.getD "") := by
  unfold Experiment.get_journal
  simp only [hu, Bool.false_eq_true, if_false, hr]
  rw [← journal_decode r.journal]
  cases get_column_str r.journal <;> rfl

/-- The journal accessors of `Project`, for a handle whose uuid is not nil and is the uuid
of a project row. -/
theorem project_journal (s : Store) (p : Project) (hu : is_nil p.uuid = false)
    (hex : ∃ r ∈ s.projects, r.uuid = p.uuid) :
    (∀ r, (s.projects.filter (fun r => r.uuid == p.uuid)).head? = some r →
      r.journal = none → Project.get_journal s p = .ok "") ∧
    (∀ t, (Project.set_journal s p t).result = .ok () ∧
      Project.get_journal (Project.set_journal s p t).db p = .ok t) ∧
    (∀ t j, Project.get_journal s p = .ok j →
      (Project.append_journal s p t).result = .ok () ∧
      Project.get_journal (Project.append_journal s p t).db p = .ok (j ++ t)) := by
  obtain ⟨r, hr, hpr⟩ := head?_filter_some s.projects (fun r => r.uuid == p.uuid) (by
    obtain ⟨r, hr, hru⟩ := hex
    exact ⟨r, hr, by simpa using hru⟩)
  refine ⟨?_, ?_, ?_⟩
  · intro r2 hr2 hj
    rw [project_get_journal_eq s p r2 hu hr2, hj]
    rfl
  · intro t
    refine ⟨by simp [Project.set_journal, hu], ?_⟩
    have hdb : (Project.set_journal s p t).db = update_projects_journal s t p.uuid := by
      simp [Project.set_journal, hu]
    rw [hdb]
    have hh : ((update_projects_journal s t p.uuid).projects.filter
        (fun r => r.uuid == p.uuid)).head? = some { r with journal := some t } := by
      unfold update_projects_journal
      simp only
      rw [head?_filter_map _ _ _ (by intro a; split_ifs <;> rfl), hr]
      simp only [Option.map_some', hpr, if_true]
    rw [project_get_journal_eq _ p _ hu hh]
    rfl
  · intro t j hj
    refine ⟨by simp [Project.append_journal, hu], ?_⟩
    have hdb : (Project.append_journal s p t).db = append_projects_journal s t p.uuid := by
      simp [Project.append_journal, hu]
    rw [hdb]
    have hh : ((append_projects_journal s t p.uuid).projects.filter
        (fun r => r.uuid == p.uuid)).head? =
          some { r with journal := some (sql_concat r.journal t) } := by
      unfold append_projects_journal
      simp only
      rw [head?_filter_map _ _ _ (by intro a; split_ifs <;> rfl), hr]
      simp only [Option.map_some', hpr, if_true]
    rw [project_get_journal_eq _ p _ hu hh]
    rw [project_get_journal_eq s p r hu hr] at hj
    simp only [Except.ok.injEq] at hj
    rw [← hj]
    rfl

/-- The journal accessors of `Experiment`, for a handle whose uuid is not nil and is the
uuid of an experiment row. -/
theorem experiment_journal (s : Store) (e : Experiment) (hu : is_nil e.uuid = false)
    (hex : ∃ r ∈ s.experiments, r.uuid = e.uuid) :
    (∀ r, (s.experiments.filter (fun r => r.uuid == e.uuid)).head? = some r →
      r.journal = none → Experiment.get_journal s e = .ok "") ∧
    (∀ t, (Experiment.set_journal s e t).result = .ok () ∧
      Experiment.get_journal (Experiment.set_journal s e t).db e = .ok t) ∧
    (∀ t j, Experiment.get_journal s e = .ok j →
      (Experiment.append_journal s e t).result = .ok () ∧
      Experiment.get_journal (Experiment.append_journal s e t).db e = .ok (j ++ t)) := by
  obtain ⟨r, hr, hpr⟩ := head?_filter_some s.experiments (fun r => r.uuid == e.uuid) (by
    obtain ⟨r, hr, hru⟩ := hex
    exact ⟨r, hr, by simpa using hru⟩)
  refine ⟨?_, ?_, ?_⟩
  · intro r2 hr2 hj
    rw [experiment_get_journal_eq s e r2 hu hr2, hj]
    rfl
  · intro t
    refine ⟨by simp [Experiment.set_journal, hu], ?_⟩
    have hdb : (Experiment.set_journal s e t).db =
        update_experiments_journal s t e.uuid := by
      simp [Experiment.set_journal, hu]
    rw [hdb]
    have hh : ((update_experiments_journal s t e.uuid).experiments.filter
        (fun r => r.uuid == e.uuid)).head? = some { r with journal := some t } := by
      unfold update_experiments_journal
      simp only
      rw [head?_filter_map _ _ _ (by intro a; split_ifs <;> rfl), hr]
      simp only [Option.map_some', hpr, if_true]
    rw [experiment_get_journal_eq _ e _ hu hh]
    rfl
  · intro t j hj
    refine ⟨by simp [Experiment.append_journal, hu], ?_⟩
    have hdb : (Experiment.append_journal s e t).db =
        append_experiments_journal s t e.uuid := by
      simp [Experiment.append_journal, hu]
    rw [hdb]
    have hh : ((append_experiments_journal s t e.uuid).experiments.filter
        (fun r => r.uuid == e.uuid)).head? =
          some { r with journal := some (sql_concat r.journal t) } := by
      unfold append_experiments_journal
      simp only
      rw [head?_filter_map _ _ _ (by intro a; split_ifs <;> rfl), hr]
      simp only [Option.map_some', hpr, if_true]
    rw [experiment_get_journal_eq _ e _ hu hh]
    rw [experiment_get_journal_eq s e r hu hr] at hj
    simp only [Except.ok.injEq] at hj
    rw [← hj]
    rfl

theorem empty_append_string (t : String) : "" ++ t = t := by
  simp

/-- C25. For a project handle whose uuid is not nil and is the uuid of a project row:
`get_journal()` returns the empty string when the journal column of the row is NULL; after
`set_journal(t)` it returns `t`; after `append_journal(t)` it returns what it returned
before followed by `t`, which is `t` itself when the journal was NULL. When no project row
has the uuid of the handle, `get_journal()` throws. The same holds for an experiment
handle and the experiment rows. -/
theorem journal_accessors :
    (∀ (s : Store) (p : Project), is_nil p.uuid = false →
      (∃ r ∈ s.projects, r.uuid = p.uuid) →
        (∀ r, (s.projects.filter (fun r => r.uuid == p.uuid)).head? = some r →
          r.journal = none →
            Project.get_journal s p = .ok "" ∧
            ∀ t, Project.get_journal (Project.append_journal s p t).db p = .ok t) ∧
        (∀ t, (Project.set_journal s p t).result = .ok () ∧
          Project.get_journal (Project.set_journal s p t).db p = .ok t) ∧
        (∀ t j, Project.get_journal s p = .ok j →
          (Project.append_journal s p t).result = .ok () ∧
          Project.get_journal (Project.append_journal s p t).db p = .ok (j ++ t))) ∧
    (∀ (s : Store) (p : Project), (∀ r ∈ s.projects, r.uuid ≠ p.uuid) →
      ∃ err, Project.get_journal s p = .error err) ∧
    (∀ (s : Store) (e : Experiment), is_nil e.uuid = false →
      (∃ r ∈ s.experiments, r.uuid = e.uuid) →
        (∀ r, (s.experiments.filter (fun r => r.uuid == e.uuid)).head? = some r →
          r.journal = none →
            Experiment.get_journal s e = .ok "" ∧
            ∀ t, Experiment.get_journal (Experiment.append_journal s e t).db e = .ok t) ∧
        (∀ t, (Experiment.set_journal s e t).result = .ok () ∧
          Experiment.get_journal (Experiment.set_journal s e t).db e = .ok t) ∧
        (∀ t j, Experiment.get_journal s e = .ok j →
          (Experiment.append_journal s e t).result = .ok () ∧
          Experiment.get_journal (Experiment.append_journal s e t).db e = .ok (j ++ t))) ∧
    (∀ (s : Store) (e : Experiment), (∀ r ∈ s.experiments, r.uuid ≠ e.uuid) →
      ∃ err, Experiment.get_journal s e = .error err) := by
  refine ⟨?_, ?_, ?_, ?_⟩
  · intro s p hu hex
    obtain ⟨h1, h2, h3⟩ := project_journal s p hu hex
    refine ⟨?_, h2, h3⟩
    intro r hr hj
    have h0 := h1 r hr hj
    refine ⟨h0, ?_⟩
    intro t
    have := (h3 t "" h0).2
    rw [empty_append_string] at this
    exact this
  · intro s p hno
    unfold Project.get_journal
    by_cases hn : is_nil p.uuid = true
    · exact ⟨Error.uuid_is_nil, by simp [hn]⟩
    · have : s.projects.filter (fun r => r.uuid == p.uuid) = [] := by
        rw [List.filter_eq_nil_iff]
        intro r hr
        simpa using hno r hr
      exact ⟨Error.invalid_project_uuid, by simp [hn, this]⟩
  · intro s e hu hex
    obtain ⟨h1, h2, h3⟩ := experiment_journal s e hu hex
    refine ⟨?_, h2, h3⟩
    intro r hr hj
    have h0 := h1 r hr hj
    refine ⟨h0, ?_⟩
    intro t
    have := (h3 t "" h0).2
    rw [empty_append_string] at this
    exact this
  · intro s e hno
    unfold Experiment.get_journal
    by_cases hn : is_nil e.uuid = true
    · exact ⟨Error.uuid_is_nil, by simp [hn]⟩
    · have : s.experiments.filter (fun r => r.uuid == e.uuid) = [] := by
        rw [List.filter_eq_nil_iff]
        intro r hr
        simpa using hno r hr
      exact ⟨Error.invalid_project_uuid, by simp [hn, this]⟩

/-- Witness of C25: the journal test of `project_test.cpp` on project 9. -/
theorem journal_accessors_witness :
    Project.get_journal (Project.set_journal two_experiments
      { uuid := 9, name := "proje", metadata := none, owner := none, ctime := none }
      "The journal").db
      { uuid := 9, name := "proje", metadata := none, owner := none, ctime := none } =
        .ok "The journal" :=
  ((journal_accessors.1 two_experiments
    { uuid := 9, name := "proje", metadata := none, owner := none, ctime := none }
    (by decide) ⟨_, List.mem_cons_self _ _, rfl⟩).2.1 "The journal").2

/-- The journal test of `project_test.cpp` in full: empty, set, appended. -/
theorem journal_scenario :
    Project.get_journal two_experiments
      { uuid := 9, name := "proje", metadata := none, owner := none, ctime := none } =
        .ok "" ∧
    Project.get_journal
      (Project.append_journal
        (Project.set_journal two_experiments
          { uuid := 9, name := "proje", metadata := none, owner := none, ctime := none }
          "The journal").db
        { uuid := 9, name := "proje", metadata := none, owner := none, ctime := none }
        " and more").db
      { uuid := 9, name := "proje", metadata := none, owner := none, ctime := none } =
        .ok "The journal and more" := by
  decide

/-! ## C30: content records outlive their mappings -/

/-- C30. No method of `File` deletes a content record: `create()` keeps every content
record, `unmap()` and `change_role()` leave table `files` as it is, and `update()` keeps
hash and creator of every content record. Column `creator` references `experiments`: when
a content record names the uuid of the experiment handle as creator (and, as the schema
enforces, every creator references an experiment row), `Experiment::remove` throws and
leaves database and handle as they were. In `unmapped_db`, where experiment 1 registered
output 101 and unmapped it again, no mapping row is left and `remove()` of experiment 1
still throws. -/
theorem creator_blocks_remove :
    (∀ (now : ctime_t) (s : Store) (f : File), ∀ c ∈ s.files,
      c ∈ (File.create now s f).db.files) ∧
    (∀ (s : Store) (f : File), (File.unmap s f).db.files = s.files) ∧
    (∀ (s : Store) (f : File) (r : role_t), (File.change_role s f r).db.files = s.files) ∧
    (∀ (s : Store) (f : File), ∀ c ∈ s.files,
      ∃ c2 ∈ (File.update s f).db.files, c2.hash = c.hash ∧ c2.creator = c.creator) ∧
    (∀ (new_uuid : uuid) (s : Store) (e : Experiment),
      fk_files_creator s = true → (∃ c ∈ s.files, c.creator = some e.uuid) →
        (∃ err, (Experiment.remove new_uuid s e).result = .error err) ∧
        (Experiment.remove new_uuid s e).db = s ∧
        (Experiment.remove new_uuid s e).experiment = e) ∧
    unmapped_db.file_map = [] ∧
    unmapped_db.files.map (fun c => (c.hash, c.creator)) = [(101, some 1)] ∧
    (Experiment.remove 7 unmapped_db exp0).result = .error .sqlite_failed := by
  refine ⟨?_, ?_, ?_, ?_, ?_, by decide, by decide, by decide⟩
  · intro now s f c hc
    rcases create_files now s f with ⟨_, h⟩ | ⟨_, h | ⟨row, _, h⟩⟩
    · rw [h]; exact hc
    · rw [h]; exact hc
    · rw [h]; exact List.mem_append_left _ hc
  · intro s f
    unfold File.unmap
    cases File.output_is_used s f f.hash with
    | error e => rfl
    | ok b => cases b <;> rfl
  · intro s f r
    cases hres : (File.change_role s f r).result with
    | error e => rw [((change_role_frame s f r).1 e hres).1]
    | ok u => rw [((change_role_frame s f r).2 hres).2]
  · intro s f c hc
    refine ⟨_, List.mem_map.2 ⟨c, hc, rfl⟩, ?_⟩
    split_ifs <;> exact ⟨rfl, rfl⟩
  · intro new_uuid s e hfk ⟨c, hc, hce⟩
    unfold fk_files_creator at hfk
    rw [List.all_eq_true] at hfk
    have h1 : s.experiments.any (fun r => r.uuid == e.uuid) = true := by
      have := hfk c hc
      rw [hce] at this
      exact this
    have h2 : s.files.any (fun x => x.creator == some e.uuid) = true := by
      rw [List.any_eq_true]
      exact ⟨c, hc, by simp [hce]⟩
    unfold Experiment.remove
    by_cases hn : is_nil e.uuid = true
    · simp [hn]
    · simp [hn, delete_experiments, h1, h2]

/-- Witness of C30 on `unmapped_db`. -/
theorem creator_blocks_remove_witness :
    (Experiment.remove 7 unmapped_db exp0).db = unmapped_db :=
  (creator_blocks_remove.2.2.2.2.1 7 unmapped_db exp0 (by decide)
    ⟨{ hash := 101, size := 1, name := none, creator := some 1, owner := none,
       ctime := some 5, metadata := none, final := some false }, by decide, rfl⟩).2.1

/-! ## C27: the depth of the tree -/

theorem height_mk (n : File) (cs : List FileTree) :
    (FileTree.mk n cs).height = FileTree.height.heights cs := by
  rw [FileTree.height]

theorem heights_le (k : Nat) :
    ∀ cs : List FileTree, (∀ t ∈ cs, t.height ≤ k) → FileTree.height.heights cs ≤ k + 1 := by
  intro cs
  induction cs with
  | nil => intro _; simp [FileTree.height.heights]
  | cons t ts ih =>
    intro h
    rw [FileTree.height.heights]
    have h1 := h t (List.mem_cons_self _ _)
    have h2 := ih (fun x hx => h x (List.mem_cons_of_mem _ hx))
    exact max_le (by omega) h2

/-- The children collected from nested calls inherit the bound of the nested calls. -/
theorem collect_heights (body : File → Except Error FileTree) (k : Nat)
    (hb : ∀ f t, body f = .ok t → t.height ≤ k) (l : List File) (cs : List FileTree)
    (h : collect body l = .ok cs) (n : File) : (FileTree.mk n cs).height ≤ k + 1 := by
  rw [height_mk]
  apply heights_le
  intro t ht
  obtain ⟨f, _, hf⟩ := forall₂_mem_right (collect_forall₂ body l cs h) t ht
  exact hb f t hf

/-- One call of the body of `track()`: when the nested calls return trees of height at most
`k`, the call returns a tree of height at most `k + 1`. -/
theorem track_fuel_step (s : Store) (fuel : Nat) (k : Nat)
    (node : File) (d m : Int) (t : FileTree)
    (h : track_fuel s (fuel + 1) node d m = .ok t)
    (hrec : ∀ f t, track_fuel s fuel f (d + 1) 10 = .ok t → t.height ≤ k) :
    t.height ≤ k + 1 := by
  have hleaf : (FileTree.mk node []).height ≤ k + 1 := by
    rw [height_mk]; simp [FileTree.height.heights]
  rw [track_fuel_succ] at h
  split_ifs at h with hd
  · cases h; exact hleaf
  · cases hr : node.role with
    | none => simp only [hr] at h; cases h; exact hleaf
    | some r =>
      simp only [hr] at h
      split_ifs at h
      · cases hl : File.list s node (some role_t.input) with
        | error e => simp [hl] at h
        | ok l =>
          simp only [hl] at h
          cases hc : collect (fun f => track_fuel s fuel f (d + 1) 10) l with
          | error e => simp [hc] at h
          | ok cs =>
            simp only [hc] at h
            cases h
            exact collect_heights _ k hrec l cs hc node
      · cases hcu : node.creator_uuid with
        | none => simp only [hcu] at h; cases h; exact hleaf
        | some c =>
          simp only [hcu] at h
          cases hl : File.list s (File.empty c) (some role_t.input) with
          | error e => simp [hl] at h
          | ok l =>
            simp only [hl] at h
            cases hc : collect (fun f => track_fuel s fuel f (d + 1) 10)
                (l.filter (fun f => f.hash != node.hash)) with
            | error e => simp [hc] at h
            | ok cs =>
              simp only [hc] at h
              cases h
              exact collect_heights _ k hrec _ cs hc node
      · cases h; exact hleaf

/-- With the default bound, a call at depth `d` returns a tree of height at most
`11 - d`. -/
theorem track_fuel_height (s : Store) (fuel : Nat) :
    ∀ (node : File) (d : Int) (t : FileTree),
      track_fuel s fuel node d 10 = .ok t → t.height ≤ (11 - d).toNat := by
  induction fuel with
  | zero =>
    intro node d t h
    simp only [track_fuel, Except.ok.injEq] at h
    subst h
    rw [height_mk]
    simp [FileTree.height.heights]
  | succ k ih =>
    intro node d t h
    by_cases hd : d > 10
    · rw [track_fuel_succ] at h
      simp only [hd, if_true, Except.ok.injEq] at h
      subst h
      rw [height_mk]
      simp [FileTree.height.heights]
    · have := track_fuel_step s k (11 - (d + 1)).toNat node d 10 t h
        (fun f t2 h2 => ih f (d + 1) t2 h2)
      omega

/-- Whatever bound the caller passes, `track(depth, max_depth)` returns a tree of height at
most `11 - depth` (at most 1 from depth 10 on): the nested calls run with the default
bound. -/
theorem track_height (s : Store) (node : File) (d m : Int) (t : FileTree)
    (h : File.track s node d m = .ok t) : t.height ≤ (11 - (d + 1)).toNat + 1 :=
  track_fuel_step s _ (11 - (d + 1)).toNat node d m t h
    (fun f t2 h2 => track_fuel_height s _ f (d + 1) t2 h2)

/-- C27. In every database `track()` with the default arguments `(0, 10)`, when it returns
a tree, returns one of height at most 11; under the constraints of the schema and on a
handle whose experiment and creator are set it does return a tree. In `cycle_db`, where
experiment 1 produces 10 from 20 and experiment 2 produces 20 from 10, it returns a tree of
height exactly 11. -/
theorem track_default_bounded :
    (∀ (s : Store) (node : File) (t : FileTree),
      File.track s node 0 10 = .ok t → t.height ≤ 11) ∧
    (∀ (s : Store) (node : File), fk_file_map_hash s = true → creator_not_nil s = true →
      node.bound = true → ∃ t, File.track s node 0 10 = .ok t ∧ t.height ≤ 11) ∧
    cycle_db.file_map =
      [⟨1, 10, role_t.output, none⟩, ⟨2, 20, role_t.output, none⟩,
       ⟨1, 20, role_t.input, none⟩, ⟨2, 10, role_t.input, none⟩] ∧
    cycle_db.files.map (fun c => (c.hash, c.creator)) = [(10, some 1), (20, some 2)] ∧
    (File.track cycle_db out_10 0 10).map FileTree.height = .ok 11 := by
  have hb : ∀ (s : Store) (node : File) (t : FileTree),
      File.track s node 0 10 = .ok t → t.height ≤ 11 := by
    intro s node t h
    have := track_height s node 0 10 t h
    simpa using this
  refine ⟨hb, ?_, by decide, by decide, by decide⟩
  intro s node hfk hcr hbound
  obtain ⟨t, ht⟩ := track_total s hfk hcr node 0 10 hbound
  exact ⟨t, ht, hb s node t ht⟩

/-- Witness of C27 on the database with the cycle. -/
theorem track_default_bounded_witness :
    ∃ t, File.track cycle_db out_10 0 10 = .ok t ∧ t.height ≤ 11 :=
  track_default_bounded.2.1 cycle_db out_10 (by decide) (by decide) (by decide)

/-! ## The references to `experiments` are kept -/

/-- The checks that an accepted `INSERT INTO files` passed. -/
theorem insert_files_checks (s s1 : Store) (hash : hash_t) (size : Int)
    (name : Option String) (u : uuid) (owner : Option String) (ctime : Option Int)
    (metadata : Option String)
    (h : insert_files s hash size name (some u) owner ctime metadata = .ok s1) :
    s.experiments.any (fun e => e.uuid == u) = true := by
  unfold insert_files at h
  split_ifs at h with h1 h2 h3
  simpa using h3

/-- The checks that an accepted `INSERT INTO file_map` passed. -/
theorem insert_file_map_checks (s s2 : Store) (hash : hash_t) (u : uuid)
    (path : Option String) (role : role_t)
    (h : insert_file_map s hash u path role = .ok s2) :
    s.experiments.any (fun e => e.uuid == u) = true := by
  unfold insert_file_map at h
  split_ifs at h with h1 h2 h3 h4
  simpa using h3

/-- The rows after the second block of `create()`: the rows before, and possibly a mapping
row of an experiment that exists. -/
theorem create_mapping_rows (s1 : Store) (f1 : File) (role : role_t) (b : Bool) :
    (create_mapping s1 f1 role b).db.experiments = s1.experiments ∧
    (create_mapping s1 f1 role b).db.files = s1.files ∧
    (∀ m ∈ (create_mapping s1 f1 role b).db.file_map, m ∈ s1.file_map ∨
      s1.experiments.any (fun e => e.uuid == m.uuid) = true) := by
  unfold create_mapping
  cases File.is_mapped s1 f1 f1.hash with
  | error e => exact ⟨rfl, rfl, fun m hm => Or.inl hm⟩
  | ok mapped =>
    cases mapped with
    | true => exact ⟨rfl, rfl, fun m hm => Or.inl hm⟩
    | false =>
      cases h2 : insert_file_map s1 f1.hash f1.experiment f1.path role with
      | error e => exact ⟨rfl, rfl, fun m hm => Or.inl hm⟩
      | ok s2 =>
        have hs2 := insert_file_map_ok _ _ _ _ _ _ h2
        have hchk := insert_file_map_checks _ _ _ _ _ _ h2
        simp only
        rw [hs2]
        refine ⟨rfl, rfl, ?_⟩
        intro m hm
        rcases List.mem_append.1 hm with hm | hm
        · exact Or.inl hm
        · rw [List.mem_singleton] at hm
          subst hm
          exact Or.inr hchk

/-- The rows after `create()`, whatever its outcome: table `experiments` as before, and
every content record and mapping row either was there before or references an experiment
row. -/
theorem create_rows (now : ctime_t) (s : Store) (f : File) :
    (File.create now s f).db.experiments = s.experiments ∧
    (∀ c ∈ (File.create now s f).db.files, c ∈ s.files ∨
      ∃ u, c.creator = some u ∧ s.experiments.any (fun e => e.uuid == u) = true) ∧
    (∀ m ∈ (File.create now s f).db.file_map, m ∈ s.file_map ∨
      s.experiments.any (fun e => e.uuid == m.uuid) = true) := by
  have hsame : ∀ r : Except Error Bool, ∀ g : File,
      (⟨r, g, s⟩ : Outcome Bool).db.experiments = s.experiments ∧
      (∀ c ∈ (⟨r, g, s⟩ : Outcome Bool).db.files, c ∈ s.files ∨
        ∃ u, c.creator = some u ∧ s.experiments.any (fun e => e.uuid == u) = true) ∧
      (∀ m ∈ (⟨r, g, s⟩ : Outcome Bool).db.file_map, m ∈ s.file_map ∨
        s.experiments.any (fun e => e.uuid == m.uuid) = true) :=
    fun _ _ => ⟨rfl, fun c hc => Or.inl hc, fun m hm => Or.inl hm⟩
  unfold File.create
  by_cases h1 : is_nil f.experiment = true
  · simp only [hash_empty, h1, if_true, Bool.false_eq_true, if_false]
    exact ⟨trivial, fun c hc => Or.inl hc, fun m hm => Or.inl hm⟩
  by_cases h2 : f.size = 0
  · simp only [hash_empty, h1, h2, if_true, Bool.false_eq_true, if_false]
    exact ⟨trivial, fun c hc => Or.inl hc, fun m hm => Or.inl hm⟩
  simp only [hash_empty, h1, h2, if_false, Bool.false_eq_true]
  cases hr : f.role with
  | none => exact hsame _ _
  | some role =>
    simp only
    cases hex : File.exists s f.hash
    · rw [create_content_of_new now s f role hex]
      cases hi : insert_files s f.hash (to_int64 f.size) f.original_name (some f.experiment)
          f.owner (some (f.ctime.getD now)) f.metadata with
      | error e => exact hsame _ _
      | ok s1 =>
        simp only
        have hs1 := insert_files_ok _ _ _ _ _ _ _ _ _ hi
        have hchk := insert_files_checks _ _ _ _ _ _ _ _ _ hi
        obtain ⟨he, hf, hm⟩ := create_mapping_rows s1
          { f with
            creator_uuid := if role = role_t.output then some f.experiment else none
            ctime := some (f.ctime.getD now) } role (!false)
        rw [he, hf]
        have hexp : s1.experiments = s.experiments := by rw [hs1]
        have hmap : s1.file_map = s.file_map := by rw [hs1]
        refine ⟨hexp, ?_, ?_⟩
        · intro c hc
          rw [hs1] at hc
          rcases List.mem_append.1 hc with hc | hc
          · exact Or.inl hc
          · rw [List.mem_singleton] at hc
            subst hc
            exact Or.inr ⟨f.experiment, rfl, hchk⟩
        · intro m hmm
          rcases hm m hmm with h | h
          · rw [hmap] at h; exact Or.inl h
          · rw [hexp] at h; exact Or.inr h
    · rw [create_content_of_exists now s f role hex]
      simp only
      obtain ⟨he, hf, hm⟩ := create_mapping_rows s f role (!true)
      rw [he, hf]
      exact ⟨rfl, fun c hc => Or.inl hc, hm⟩

/-- Every call of `create()`, whatever its outcome, keeps the references of `file_map.uuid`
and of `files.creator` to `experiments`. -/
theorem create_keeps_references (now : ctime_t) (s : Store) (f : File)
    (h1 : fk_file_map_uuid s = true) (h2 : fk_files_creator s = true) :
    fk_file_map_uuid (File.create now s f).db = true ∧
    fk_files_creator (File.create now s f).db = true := by
  obtain ⟨he, hf, hm⟩ := create_rows now s f
  unfold fk_file_map_uuid at h1
  unfold fk_files_creator at h2
  unfold fk_file_map_uuid fk_files_creator
  rw [List.all_eq_true] at h1 h2
  rw [List.all_eq_true, List.all_eq_true, he]
  constructor
  · intro m hmm
    rcases hm m hmm with h | h
    · exact h1 m h
    · exact h
  · intro c hc
    rcases hf c hc with h | ⟨u, hu, h⟩
    · exact h2 c h
    · rw [hu]; exact h

/-- Every database that calls of `create()` lead to satisfies both references. -/
theorem reachable_references (s : Store) (h : CreateReachable s) :
    fk_file_map_uuid s = true ∧ fk_files_creator s = true := by
  induction h with
  | fresh s hf hm => simp [fk_file_map_uuid, fk_files_creator, hf, hm]
  | create now s f _ ih => exact create_keeps_references now s f ih.1 ih.2

/-- The further example handles are what `load()` returns. -/
theorem example_handles_last :
    File.loaded cycle_db 1 10 = .ok out_10 ∧
    Experiment.load_uuid two_experiments (Experiment.empty 9) 1 = .ok exp0 := by
  decide

end srdp
